import Mathlib

/-!
# Image sequence source (`gst/sequences/gstimagesequencesrc.c`)

A shallow embedding of the element `imagesequencesrc` and a verification of
its documented behaviour.

Conventions of the embedding.

* `gint` fields are mathematical integers (`Int`).  Signed arithmetic has its
  exact value wherever it stays in the range of `gint`.  The two places where it
  can leave the range are modelled explicitly: the file-probing loop of
  `gst_imagesequencesrc_parse_location` reports `Fault.signed_overflow` when its
  counter would pass `G_MAXINT`, and the number of units in
  `gst_imagesequencesrc_set_duration` has its two's complement value.
* Unsigned arithmetic is modular in C and is modelled with an explicit
  remainder: `guint` modulo `2^32`, `guint64` modulo `2^64`.  Conversions between
  signed and unsigned operands are the explicit functions `to_guint`,
  `to_guint64` and `to_gint`.
* A `GList *` is a Lean list.  A pointer into a list (`iter_list`) is the
  suffix of the list that starts at the node pointed to; `NULL` is `[]`.
* The file system, the type finder, `printf` formatting and the structure
  reader are library services outside the element; they are the fields of `Env`.
* A failed `g_assert` and a dereference of `NULL` end the process, and a store
  past the end of a heap block or a read of a released string leaves defined
  behaviour; they are values of `Fault`, returned through `Except`.
* The state has no field for the heap.  One call of
  `gst_imagesequencesrc_create` is modelled in a state whose file names are
  intact; the error path of a failed read releases the name of the node it read,
  and sequences of calls (`run_from`) keep the positions of the released names
  beside the state.
-/

namespace ImageSequenceSrc

/-! ## Machine integers -/

/-- Largest value of a `gint`. -/
def G_MAXINT : Int := 2147483647

/-- Largest value of a `guint64`; this is also `GST_CLOCK_TIME_NONE`. -/
def G_MAXUINT64 : Nat := 18446744073709551615

/-- The value `GST_CLOCK_TIME_NONE`, that is `(GstClockTime) -1`. -/
def GST_CLOCK_TIME_NONE : Nat := G_MAXUINT64

/-- One second in nanoseconds, `GST_SECOND`. -/
def GST_SECOND : Int := 1000000000

/-- Conversion of a signed value to `guint` (C conversion, modulo `2^32`). -/
def to_guint (z : Int) : Nat := (z % 4294967296).toNat

/-- Conversion of a signed value to `guint64` (C conversion, modulo `2^64`). -/
def to_guint64 (z : Int) : Nat := (z % 18446744073709551616).toNat

/-- Reading of a `guint` as a `gint` (two's complement), as happens when an
unsigned value travels through the variable arguments of `g_object_set` towards
an `int` property. -/
def to_gint (u : Nat) : Int :=
  if u % 4294967296 < 2147483648 then ((u % 4294967296 : Nat) : Int)
  else ((u % 4294967296 : Nat) : Int) - 4294967296

/-- Library function `g_list_length`, whose result type is `guint`. -/
def g_list_length {α : Type} (l : List α) : Nat := l.length % 4294967296

/-- Library function `g_list_nth (list, n)`: the node at position `n`, or `NULL`
when the list is shorter. -/
def g_list_nth {α : Type} (l : List α) (n : Nat) : List α := l.drop n

/-- Library function `gst_util_uint64_scale (val, num, denom)` of GStreamer
core: `val * num / denom` truncated, computed without intermediate overflow;
`G_MAXUINT64` when `denom` is zero or when the result does not fit in 64 bits. -/
def gst_util_uint64_scale (val num denom : Nat) : Nat :=
  if denom = 0 then G_MAXUINT64
  else if num = 0 then 0
  else if num = denom then val
  else if val * num / denom > G_MAXUINT64 then G_MAXUINT64
  else val * num / denom

/-! ## Data model -/

/-- Contents of a file: a sequence of byte values. -/
abbrev Bytes := List Nat

/-- Result of `gst_imagesequencesrc_create`. -/
inductive GstFlowReturn where
  | GST_FLOW_OK
  | GST_FLOW_EOS
  | GST_FLOW_ERROR
  deriving DecidableEq, Repr

/-- The ways in which a call leaves defined behaviour instead of returning: a
failed `g_assert`, a dereference of `NULL`, the counter of the file-probing
loop passing `G_MAXINT`, a store past the end of a heap block, and a read of a
string that has been released. -/
inductive Fault where
  | assertion_failed
  | null_dereference
  | signed_overflow
  | out_of_bounds_write
  | use_after_free
  deriving DecidableEq, Repr

/-- Caps as far as the element uses them: the media type found by the type
finder and the `framerate` field written by `gst_imagesequencesrc_set_caps`. -/
structure GstCaps where
  media_type : String
  framerate : Option (Int × Int)
  deriving DecidableEq, Repr

/-- A parsed playlist record as far as the element reads it: the values that
`gst_structure_get_fraction (.., "framerate", ..)` and
`gst_structure_get_string (.., "location")` give. -/
structure GstStructure where
  name : String
  framerate : Option (Int × Int)
  location : Option String
  deriving DecidableEq, Repr

/-- A buffer as stamped by `gst_imagesequencesrc_create`. -/
structure GstBuffer where
  data : Bytes
  pts : Nat
  dts : Nat
  offset : Nat
  offset_end : Nat
  deriving DecidableEq, Repr

/-- Modelled from the spec: the instance structure `GstImageSequenceSrc` is
declared in the header `gstimagesequencesrc.h`, which is not among the sources.
The fields are those that the functions of `gstimagesequencesrc.c` use, with the
types of their uses there (`gint` for the indices and the rate).  The width of the
counter `offset` is not visible in the sources; the spec calls it a monotonically
increasing counter, and it is an exact natural number here. -/
structure GstImageSequenceSrc where
  location : Option String
  uri : Option String
  filenames : List String
  iter_list : List String
  index : Int
  start_index : Int
  stop_index : Int
  fps_n : Int
  fps_d : Int
  loop : Bool
  duration : Nat
  offset : Nat
  caps : Option GstCaps
  deriving DecidableEq, Repr

/-- The services of the world outside the element. -/
structure Env where
  /-- Library call `g_file_get_contents`: the bytes of a file, `none` on failure. -/
  g_file_get_contents : String → Option Bytes
  /-- Library call `g_file_test (.., G_FILE_TEST_EXISTS)`. -/
  g_file_test : String → Bool
  /-- Library call `g_strdup_printf (location, i)`. -/
  g_strdup_printf : String → Int → String
  /-- Library call `gst_type_find_helper_for_buffer`: `none` when no type is found. -/
  gst_type_find_helper_for_buffer : Bytes → Option GstCaps
  /-- Library call `g_file_load_contents`: the text of a file, `none` on failure. -/
  g_file_load_contents : String → Option String
  /-- Library call `gst_structure_from_string`: `none` when the line does not parse. -/
  gst_structure_from_string : String → Option GstStructure
  /-- Library call `gst_uri_get_location`. -/
  gst_uri_get_location : Option String → Option String
  /-- The indeterminate values that the uninitialised locals `fps_n`, `fps_d` of
  `gst_imagesequencesrc_set_location_from_file` hold. -/
  indeterminate_fps : Int × Int

/-- The state after `gst_imagesequencesrc_init` (the instance memory is zeroed
by GObject before it runs). -/
def gst_imagesequencesrc_init : GstImageSequenceSrc :=
  { location := some "%05d", uri := none, filenames := [], iter_list := [],
    index := 0, start_index := 0, stop_index := 0, fps_n := -1, fps_d := -1,
    loop := false, duration := GST_CLOCK_TIME_NONE, offset := 0, caps := none }

/-! ## Seeking -/

/-- Source function `is_seekable`. -/
def is_seekable (src : GstImageSequenceSrc) : Bool :=
  decide (src.filenames ≠ []) && decide (src.fps_n ≠ 0) && decide (src.fps_d ≠ 0)

/-- Source function `do_seek`: the new state and the returned `gboolean`. -/
def do_seek (src : GstImageSequenceSrc) : GstImageSequenceSrc × Bool :=
  ({ src with index := src.start_index }, true)

/-! ## Bound validation -/

/-- Source function `gst_imagesequencesrc_set_stop_index`.  `max_stop` is a
`guint`, so `max_stop >= 0` holds whatever the list is, and the comparison
`stop_index <= max_stop` is made on unsigned operands. -/
def gst_imagesequencesrc_set_stop_index (src : GstImageSequenceSrc) :
    Except Fault GstImageSequenceSrc :=
  let max_stop : Nat := (g_list_length src.filenames + 4294967295) % 4294967296
  if ¬ (src.stop_index ≥ 0 ∧ max_stop ≥ 0) then .error .assertion_failed
  else if ¬ (src.stop_index ≥ src.index ∧ to_guint src.stop_index ≤ max_stop) then
    .error .assertion_failed
  else .ok src

/-- Source function `gst_imagesequencesrc_set_start_index`. -/
def gst_imagesequencesrc_set_start_index (src : GstImageSequenceSrc) :
    Except Fault GstImageSequenceSrc :=
  let max_start : Nat := (g_list_length src.filenames + 4294967295) % 4294967296
  if ¬ (src.start_index ≥ 0 ∧ max_start ≥ 0) then .error .assertion_failed
  else if ¬ (to_guint src.start_index ≤ max_start) then .error .assertion_failed
  else
    let src1 : GstImageSequenceSrc := { src with index := src.start_index }
    .ok { src1 with iter_list := g_list_nth src1.filenames (to_guint src1.index) }

/-! ## Duration and caps -/

/-- Source function `gst_imagesequencesrc_set_duration`.  The number of units
`stop_index - start_index + 1` is an `int` expression; it has its two's complement
value (`count`), which differs from the exact one when the window has more than
`G_MAXINT` units.  The product with `GST_SECOND` is made in `gint64` and passed to
the `guint64` parameter of `gst_util_uint64_scale`. -/
def gst_imagesequencesrc_set_duration (src : GstImageSequenceSrc) : GstImageSequenceSrc :=
  let count : Int := to_gint (to_guint (src.stop_index - src.start_index + 1))
  let val : Nat := to_guint64 (GST_SECOND * count)
  { src with duration := gst_util_uint64_scale val (to_guint64 src.fps_d) (to_guint64 src.fps_n) }

/-- Library function `gst_value_set_fraction` on a value initialised to the
fraction type: the fraction that the value holds afterwards.  A zero denominator
and a component below `-G_MAXINT` are refused and leave the initial 0/1; otherwise
the sign goes to the numerator and the fraction is reduced to lowest terms. -/
def gst_value_set_fraction (numerator denominator : Int) : Int × Int :=
  if denominator = 0 ∨ denominator < -G_MAXINT ∨ numerator < -G_MAXINT then (0, 1)
  else
    let n : Int := if denominator < 0 then -numerator else numerator
    let d : Int := if denominator < 0 then -denominator else denominator
    let gcd : Int := Int.gcd n d
    if gcd ≠ 0 then (n / gcd, d / gcd) else (n, d)

/-- Source function `gst_imagesequencesrc_set_caps`.  The argument is the
result of the type finder; `g_assert (caps != NULL)` fails on `none`. -/
def gst_imagesequencesrc_set_caps (src : GstImageSequenceSrc) (caps : Option GstCaps) :
    Except Fault GstImageSequenceSrc :=
  match caps with
  | none => .error .assertion_failed
  | some c =>
    let new_caps : GstCaps :=
      if src.iter_list ≠ [] then
        { c with framerate := some (gst_value_set_fraction src.fps_n src.fps_d) }
      else c
    .ok { src with caps := some new_caps }

/-! ## Frame production -/

/-- Result of one call of `gst_imagesequencesrc_create`: the flow return, the
buffer stored through the out parameter (only on `GST_FLOW_OK`), and the state. -/
abbrev CreateResult := GstFlowReturn × Option GstBuffer × GstImageSequenceSrc

/-- Source function `gst_imagesequencesrc_create`: one call, made in a state all
of whose file names are intact.  On a failed read the function also releases the
memory of the file name (`g_free (filename)`) and leaves the list node in place.
The state has no field for the heap: the list of the model is unchanged, and the
names released are kept beside the state by `run_from`, where a later call that
would read a released name does not return. -/
def gst_imagesequencesrc_create (env : Env) (src : GstImageSequenceSrc) :
    Except Fault CreateResult :=
  if src.filenames = [] then .ok (.GST_FLOW_ERROR, none, src)
  else if src.index > src.stop_index ∧ src.loop = false then
    .ok (.GST_FLOW_EOS, none, { src with index := src.index - 1 })
  else
    let src1 : GstImageSequenceSrc :=
      if src.index > src.stop_index then { src with index := src.start_index } else src
    let src2 : GstImageSequenceSrc :=
      if src1.index = src1.start_index then
        { src1 with iter_list := g_list_nth src1.filenames (to_guint src1.index) }
      else src1
    match src2.iter_list with
    | [] => .error .null_dereference
    | filename :: next =>
      match env.g_file_get_contents filename with
      | none => .ok (.GST_FLOW_ERROR, none, src2)
      | some data =>
        let size : Nat := data.length
        let latched : Except Fault GstImageSequenceSrc :=
          if src2.index = src2.start_index ∧ src2.caps = none then
            (gst_imagesequencesrc_set_caps src2
              (env.gst_type_find_helper_for_buffer data)).map
              gst_imagesequencesrc_set_duration
          else .ok src2
        match latched with
        | .error f => .error f
        | .ok src3 =>
          let buffer_duration : Nat :=
            gst_util_uint64_scale (to_guint64 GST_SECOND)
              (to_guint64 src3.fps_d) (to_guint64 src3.fps_n)
          let pts : Nat :=
            (to_guint64 (src3.index - src3.start_index) * buffer_duration)
              % 18446744073709551616
          let buf : GstBuffer :=
            { data := data, pts := pts, dts := pts,
              offset := src3.offset, offset_end := src3.offset + size }
          .ok (.GST_FLOW_OK, some buf,
            { src3 with offset := src3.offset + size, iter_list := next,
                        index := src3.index + 1 })

/-! ## Properties -/

/-- A property of the element together with the value given to it; the
argument of `gst_imagesequencesrc_set_property`. -/
inductive PropertyValue where
  | PROP_LOCATION (location : Option String)
  | PROP_START_INDEX (v : Int)
  | PROP_STOP_INDEX (v : Int)
  | PROP_FRAMERATE (numerator denominator : Int)
  | PROP_LOOP (v : Bool)
  | PROP_FILENAMES (filenames : List String)
  | PROP_URI (uri : Option String)
  deriving DecidableEq, Repr

/-- Source function `gst_imagesequencesrc_set_location`. -/
def gst_imagesequencesrc_set_location (src : GstImageSequenceSrc) (location : Option String) :
    GstImageSequenceSrc :=
  { src with location := location }

/-- Source function `gst_imagesequencesrc_set_property`.  In `PROP_FILENAMES`
the variable `count` is a `guint`: the comparison `stop_index > count` is made on
unsigned operands and `count - 1` is stored into the `gint` field. -/
def gst_imagesequencesrc_set_property (env : Env) (src : GstImageSequenceSrc) :
    PropertyValue → Except Fault GstImageSequenceSrc
  | .PROP_LOCATION location => .ok (gst_imagesequencesrc_set_location src location)
  | .PROP_FRAMERATE numerator denominator =>
    .ok { src with fps_n := numerator, fps_d := denominator }
  | .PROP_START_INDEX v =>
    let max_start : Nat := (g_list_length src.filenames + 4294967295) % 4294967296
    let src1 : GstImageSequenceSrc := { src with start_index := v }
    if ¬ (src1.start_index ≥ 0 ∧ max_start ≥ 0) then .error .assertion_failed
    else if ¬ (to_guint src1.start_index ≤ max_start) then .error .assertion_failed
    else
      let src2 : GstImageSequenceSrc := { src1 with index := src1.start_index }
      .ok { src2 with iter_list := g_list_nth src2.filenames (to_guint src2.index) }
  | .PROP_STOP_INDEX v => .ok { src with stop_index := v }
  | .PROP_LOOP v => .ok { src with loop := v }
  | .PROP_URI uri =>
    let src1 : GstImageSequenceSrc := { src with uri := uri }
    let src2 : GstImageSequenceSrc := gst_imagesequencesrc_set_location src1 (env.gst_uri_get_location src1.uri)
    .ok { src2 with index := src2.start_index }
  | .PROP_FILENAMES filenames =>
    let src1 : GstImageSequenceSrc := { src with iter_list := [], index := 0, filenames := filenames }
    let count : Nat := filenames.length % 4294967296
    if (src1.stop_index = 0 ∨ to_guint src1.stop_index > count) ∧ count > 0 then
      .ok { src1 with stop_index := to_gint (count - 1) }
    else .ok src1

/-- GObject call `g_object_set (src, "stop-index", v, NULL)`: the value is
checked against the range `-1 .. INT_MAX` of the property and is not set when it
lies outside. -/
def g_object_set_stop_index (env : Env) (src : GstImageSequenceSrc) (v : Int) :
    Except Fault GstImageSequenceSrc :=
  if -1 ≤ v ∧ v ≤ G_MAXINT then gst_imagesequencesrc_set_property env src (.PROP_STOP_INDEX v)
  else .ok src

/-- GObject call `g_object_set (src, "framerate", n, d, NULL)`.  The fraction is
collected (refused when `d` is zero or a component is below `-G_MAXINT`),
normalised by `gst_value_set_fraction` (positive denominator, lowest terms) and
checked against the range `1/1 .. G_MAXINT/1` of the property; it is not set when
it is refused or lies outside the range. -/
def g_object_set_framerate (env : Env) (src : GstImageSequenceSrc) (n d : Int) :
    Except Fault GstImageSequenceSrc :=
  if d = 0 ∨ n < -G_MAXINT ∨ d < -G_MAXINT then .ok src
  else
    let g : Int := Int.gcd n d
    let n1 : Int := (if d < 0 then -n else n) / g
    let d1 : Int := (if d < 0 then -d else d) / g
    if n1 < d1 ∨ n1 > G_MAXINT * d1 then .ok src
    else gst_imagesequencesrc_set_property env src (.PROP_FRAMERATE n1 d1)

/-! ## Playlist reading -/

/-- The characters at which `.` stops.  The expression of `_file_get_lines` is
compiled without a newline option, and GRegex then takes every Unicode newline
for a line end: LF, VT, FF, CR, NEL, LS and PS. -/
def is_newline (c : Char) : Bool :=
  c.toNat = 10 || c.toNat = 11 || c.toNat = 12 || c.toNat = 13 || c.toNat = 133 ||
    c.toNat = 8232 || c.toNat = 8233

/-- The match of `.*\n` at the start of a text: the text after the line feed,
when the characters before the first line end are followed by a line feed.  The
stretch matched by `.*` ends at the first line end of any kind, and the `\n` of
the expression matches a line feed only. -/
def after_newline : List Char → Option (List Char)
  | [] => none
  | c :: cs =>
    if c = '\n' then some cs
    else if is_newline c then none
    else after_newline cs

/-- Library call `g_regex_replace` for the expression `\\\n|#.*\n` of
`_file_get_lines` with the empty replacement: scanning from the left, a backslash
followed by a line feed is removed, and a `#` is removed with everything up to
and including the line feed that ends its line, when the line ends with a line
feed (`.` matches every character but a line end).  The first argument bounds the
number of steps. -/
def clean_action_str : Nat → List Char → List Char
  | 0, s => s
  | _ + 1, [] => []
  | fuel + 1, c :: cs =>
    if c = '\\' ∧ cs.head? = some '\n' then clean_action_str fuel cs.tail
    else if c = '#' then
      match after_newline cs with
      | some rest => clean_action_str fuel rest
      | none => c :: clean_action_str fuel cs
    else c :: clean_action_str fuel cs

/-- The pieces of a text between its newlines. -/
def split_newline : List Char → List (List Char)
  | [] => [[]]
  | c :: cs =>
    if c = '\n' then [] :: split_newline cs
    else
      match split_newline cs with
      | [] => [[c]]
      | l :: ls => (c :: l) :: ls

/-- Library call `g_strsplit (string, "\n", 0)`: the empty string gives the
empty vector. -/
def g_strsplit (s : List Char) : List (List Char) :=
  if s = [] then [] else split_newline s

/-- Source function `_file_get_lines`; `none` is the `NULL` result. -/
def _file_get_lines (env : Env) (file : String) : Option (List (List Char)) :=
  match env.g_file_load_contents file with
  | none => none
  | some content =>
    if content = "" then none
    else
      let escaped_content := clean_action_str content.toList.length content.toList
      some (g_strsplit escaped_content)

/-- Source function `_get_lines`.  `g_file_new_for_path` gives `NULL` for a
`NULL` path only. -/
def _get_lines (env : Env) (_file : Option String) : Option (List (List Char)) :=
  match _file with
  | none => none
  | some file => _file_get_lines env file

/-- The loop of `_lines_get_strutures`, with the list built so far. -/
def _lines_get_strutures_loop (env : Env) :
    List (List Char) → List GstStructure → List GstStructure
  | [], structures => structures
  | line :: lines, structures =>
    if line = [] then _lines_get_strutures_loop env lines structures
    else
      match env.gst_structure_from_string (String.mk line) with
      | none => []
      | some st => _lines_get_strutures_loop env lines (structures ++ [st])

/-- Source function `_lines_get_strutures`; the empty list is the `NULL` result. -/
def _lines_get_strutures (env : Env) (lines : List (List Char)) : List GstStructure :=
  _lines_get_strutures_loop env lines []

/-- The loop of `gst_imagesequencesrc_set_location_from_file` over the
structures: the locals `(fps_n, fps_d)` and the array `filenames`. -/
def set_location_from_file_loop :
    List GstStructure → (Int × Int) × List String → (Int × Int) × List String
  | [], acc => acc
  | l :: rest, (fps, filenames) =>
    let fps1 := match l.framerate with
      | some f => f
      | none => fps
    let filenames1 := match l.location with
      | some filename => filenames ++ [filename]
      | none => filenames
    set_location_from_file_loop rest (fps1, filenames1)

/-- Source function `gst_imagesequencesrc_set_location_from_file`: the new state
and the returned `gboolean`. -/
def gst_imagesequencesrc_set_location_from_file (env : Env) (src : GstImageSequenceSrc) :
    Except Fault (GstImageSequenceSrc × Bool) :=
  match _get_lines env src.location with
  | none => .ok (src, false)
  | some lines =>
    let structures := _lines_get_strutures env lines
    let r := set_location_from_file_loop structures (env.indeterminate_fps, [])
    match gst_imagesequencesrc_set_property env src (.PROP_FILENAMES r.2) with
    | .error f => .error f
    | .ok src1 =>
      match g_object_set_framerate env src1 r.1.1 r.1.2 with
      | .error f => .error f
      | .ok src2 => .ok (src2, true)

/-! ## Pattern probing and activation -/

/-- Source function `_get_filename`; `none` is the `NULL` result. -/
def _get_filename (env : Env) (src : GstImageSequenceSrc) (i : Int) : Option String :=
  let filename := env.g_strdup_printf (src.location.getD "") i
  if env.g_file_test filename then some filename else none

/-- The `for` loop of the pattern branch of
`gst_imagesequencesrc_parse_location`, from the counter `i` and the list built so
far to the final counter and list.  The first argument is the number of values
left to the counter up to `G_MAXINT`. -/
def parse_location_loop (env : Env) (src : GstImageSequenceSrc) :
    Nat → Int → List String → Except Fault (Int × List String)
  | 0, _, _ => .error .signed_overflow
  | room + 1, i, filenames =>
    match _get_filename env src i with
    | none => .ok (i, filenames)
    | some filename =>
      if src.stop_index > 0 ∧ i > src.stop_index then .ok (i, filenames)
      else parse_location_loop env src room (i + 1) (filenames ++ [filename])

/-- Source function `gst_imagesequencesrc_parse_location`.  `g_strrstr` gives
`NULL` for a `NULL` location. -/
def gst_imagesequencesrc_parse_location (env : Env) (src : GstImageSequenceSrc) :
    Except Fault GstImageSequenceSrc :=
  if (src.location.getD "").toList.contains '%' then
    let src1 : GstImageSequenceSrc := { src with filenames := [] }
    match parse_location_loop env src1 (G_MAXINT - src1.start_index + 1).toNat
        src1.start_index [] with
    | .error f => .error f
    | .ok (i, filenames) =>
      let src2 : GstImageSequenceSrc := { src1 with filenames := filenames, stop_index := i - 1 }
      if src2.start_index > 0 then
        let src3 : GstImageSequenceSrc := { src2 with stop_index := src2.stop_index - src2.start_index }
        .ok { src3 with start_index := 0, index := 0 }
      else .ok src2
  else
    match gst_imagesequencesrc_set_location_from_file env src with
    | .error f => .error f
    | .ok (src1, _) =>
      if src1.stop_index = 0 then
        g_object_set_stop_index env src1
          (to_gint ((g_list_length src1.filenames + 4294967295) % 4294967296))
      else .ok src1

/-- Source function `gst_imagesequence_src_change_state` for the transition
`GST_STATE_CHANGE_READY_TO_PAUSED`, up to the call of the parent class. -/
def gst_imagesequence_src_change_state (env : Env) (src : GstImageSequenceSrc) :
    Except Fault GstImageSequenceSrc :=
  match src.location with
  | none => .ok src
  | some _ =>
    match gst_imagesequencesrc_parse_location env src with
    | .error f => .error f
    | .ok src1 =>
      match gst_imagesequencesrc_set_start_index src1 with
      | .error f => .error f
      | .ok src2 => gst_imagesequencesrc_set_stop_index src2

/-! ## Runs of calls and predicates on states -/

deriving instance DecidableEq for Except

/-- The window is validated: the list is not empty and
`0 <= start_index <= stop_index <= len - 1`. -/
def validated (src : GstImageSequenceSrc) : Prop :=
  src.filenames ≠ [] ∧ 0 ≤ src.start_index ∧ src.start_index ≤ src.stop_index ∧
    src.stop_index ≤ (src.filenames.length : Int) - 1

instance (src : GstImageSequenceSrc) : Decidable (validated src) := by
  unfold validated; infer_instance

/-- The result of the call number `k` (counted from 0) of
`gst_imagesequencesrc_create` in a run of consecutive calls that starts in `src`. -/
def nth_call (env : Env) (src : GstImageSequenceSrc) : Nat → Except Fault CreateResult
  | 0 => gst_imagesequencesrc_create env src
  | k + 1 =>
    match gst_imagesequencesrc_create env src with
    | .error f => .error f
    | .ok r => nth_call env r.2.2 k

/-- What the type finder says about the unit at `start_index`: `none` when the
unit is missing, unreadable or of no known type. -/
def first_unit_caps (env : Env) (src : GstImageSequenceSrc) : Option GstCaps :=
  ((src.filenames[src.start_index.toNat]?).bind env.g_file_get_contents).bind
    env.gst_type_find_helper_for_buffer

/-- The node that a call of `gst_imagesequencesrc_create` reads when it reads:
the cursor is first wrapped to `start_index` when it lies beyond `stop_index`, and
the iterator is fetched anew when the cursor is at `start_index`. -/
def node_to_read (src : GstImageSequenceSrc) : List String :=
  let index : Int := if src.index > src.stop_index then src.start_index else src.index
  if index = src.start_index then g_list_nth src.filenames (to_guint index)
  else src.iter_list

/-! ## Concrete inputs -/

/-- A world with the three images of the unit test; every file has a type. -/
def env_pixels : Env :=
  { g_file_get_contents := fun f =>
      if f = "pixel1.jpg" then some [255, 216, 1]
      else if f = "pixel2.jpg" then some [255, 216, 2]
      else if f = "pixel3.jpg" then some [255, 216, 3]
      else none,
    g_file_test := fun _ => false,
    g_strdup_printf := fun l _ => l,
    gst_type_find_helper_for_buffer := fun _ => some ⟨"image/jpeg", none⟩,
    g_file_load_contents := fun _ => none,
    gst_structure_from_string := fun _ => none,
    gst_uri_get_location := fun u => u,
    indeterminate_fps := (0, 0) }

/-- The state after activation on the playlist of the unit test. -/
def src_pixels : GstImageSequenceSrc :=
  { gst_imagesequencesrc_init with
    filenames := ["pixel1.jpg", "pixel2.jpg", "pixel3.jpg"],
    iter_list := ["pixel1.jpg", "pixel2.jpg", "pixel3.jpg"],
    stop_index := 2, fps_n := 24, fps_d := 1 }

/-- A world in which the file `raw` is readable and its content has no type the
type finder knows. -/
def env_untyped : Env :=
  { g_file_get_contents := fun f => if f = "raw" then some [0, 0] else none,
    g_file_test := fun _ => false,
    g_strdup_printf := fun l _ => l,
    gst_type_find_helper_for_buffer := fun _ => none,
    g_file_load_contents := fun _ => none,
    gst_structure_from_string := fun _ => none,
    gst_uri_get_location := fun u => u,
    indeterminate_fps := (0, 0) }

/-- A validated state on the single file `raw`, as activation leaves it. -/
def src_untyped : GstImageSequenceSrc :=
  { gst_imagesequencesrc_init with filenames := ["raw"], iter_list := ["raw"] }

/-- A validated single-file window on `pixel1.jpg`, as activation leaves it. -/
def src_single : GstImageSequenceSrc :=
  { gst_imagesequencesrc_init with
    filenames := ["pixel1.jpg"], iter_list := ["pixel1.jpg"], fps_n := 24, fps_d := 1 }

/-- The three images with the window closed at the second one. -/
def src_pixels_stop1 : GstImageSequenceSrc := { src_pixels with stop_index := 1 }

/-- A configuration in playlist mode whose playlist cannot be read, with the
stop bound set to 5 by the user. -/
def src_unreadable_playlist : GstImageSequenceSrc :=
  { gst_imagesequencesrc_init with location := some "missing.playlist", stop_index := 5 }

/-- A world in which every file is readable and has a type. -/
def env_readable : Env :=
  { env_pixels with g_file_get_contents := fun _ => some [255, 216] }

/-- Four units at the rate 3/1, as activation leaves the state. -/
def src_rate3 : GstImageSequenceSrc :=
  { gst_imagesequencesrc_init with
    filenames := ["u0", "u1", "u2", "u3"], iter_list := ["u0", "u1", "u2", "u3"],
    stop_index := 3, fps_n := 3, fps_d := 1 }

/-- Two units at the rate 2000000000/1. -/
def src_fast : GstImageSequenceSrc :=
  { gst_imagesequencesrc_init with
    filenames := ["u0", "u1"], iter_list := ["u0", "u1"],
    stop_index := 1, fps_n := 2000000000, fps_d := 1 }

/-- Ten units at the rate 1/2147483647. -/
def src_slow : GstImageSequenceSrc :=
  { gst_imagesequencesrc_init with
    filenames := List.replicate 10 "u", iter_list := List.replicate 10 "u",
    stop_index := 9, fps_n := 1, fps_d := 2147483647 }

/-- The three images with `loop` set, right after the last one was emitted. -/
def src_pixels_wrap : GstImageSequenceSrc :=
  { src_pixels with
    loop := true, index := 3, iter_list := [],
    caps := some ⟨"image/jpeg", some (24, 1)⟩, duration := 125000000, offset := 9 }

/-- The window `0..1` of the three images with `loop` set, right after the
second image was emitted; the cursor is on the third image. -/
def src_pixels_stop1_wrap : GstImageSequenceSrc :=
  { src_pixels_stop1 with
    loop := true, index := 2, iter_list := ["pixel3.jpg"],
    caps := some ⟨"image/jpeg", some (24, 1)⟩, duration := 83333333, offset := 6 }

/-- A world with the files `frame0`, `frame1` and `frame3`: of the numbers
`0..3` the number 2 is missing.  The pattern formats the number `i` as `frame<i>`. -/
def env_frames : Env :=
  { env_pixels with
    g_strdup_printf := fun _ i =>
      if i = 0 then "frame0" else if i = 1 then "frame1" else if i = 2 then "frame2"
      else if i = 3 then "frame3" else "frame",
    g_file_test := fun f => f = "frame0" || f = "frame1" || f = "frame3" }

/-- Pattern mode with the default bounds `start_index = 0`, `stop_index = 0`. -/
def src_frames : GstImageSequenceSrc :=
  { gst_imagesequencesrc_init with location := some "frame%d" }

/-- A world in which every candidate of the pattern exists. -/
def env_all_frames : Env :=
  { env_frames with g_file_test := fun _ => true }

/-- Pattern mode with `start_index = 1` and the stop bound 2. -/
def src_frames_stop2 : GstImageSequenceSrc :=
  { gst_imagesequencesrc_init with
    location := some "frame%d", start_index := 1, stop_index := 2 }

/-- Pattern mode with `start_index = 2` and the stop bound 1, below the start. -/
def src_frames_start2_stop1 : GstImageSequenceSrc :=
  { gst_imagesequencesrc_init with
    location := some "frame%d", start_index := 2, stop_index := 1 }

/-- Pattern mode with `start_index = 1` and the stop bound unset. -/
def src_frames_start1 : GstImageSequenceSrc :=
  { gst_imagesequencesrc_init with location := some "frame%d", start_index := 1 }

/-- The state that resolving `src_frames` in the world `env_frames` gives. -/
def src_frames_resolved : GstImageSequenceSrc :=
  { src_frames with filenames := ["frame0", "frame1"], stop_index := 1 }

/-- A world in which no candidate of the pattern exists. -/
def env_no_frames : Env :=
  { env_frames with g_file_test := fun _ => false }

/-- A world with four playlist files.  `test.playlist` is the playlist of the
element documentation (a rate and three images); `bad.playlist` has a valid image
line followed by a line that is no record; `slow.playlist` carries the rate 1/2;
`plain.playlist` carries no rate; `empty.playlist` is an empty file. -/
def env_playlists : Env :=
  { env_pixels with
    g_file_load_contents := fun f =>
      if f = "test.playlist" then
        some "metadata,framerate=(fraction)3/1\nimage,location=pixel1.jpg\nimage,location=pixel2.jpg\nimage,location=pixel3.jpg\n"
      else if f = "bad.playlist" then some "image,location=pixel1.jpg\ngarbage\n"
      else if f = "slow.playlist" then
        some "metadata,framerate=(fraction)1/2\nimage,location=pixel1.jpg\n"
      else if f = "plain.playlist" then some "image,location=pixel1.jpg\n"
      else if f = "empty.playlist" then some ""
      else none,
    gst_structure_from_string := fun l =>
      if l = "metadata,framerate=(fraction)3/1" then some ⟨"metadata", some (3, 1), none⟩
      else if l = "metadata,framerate=(fraction)1/2" then some ⟨"metadata", some (1, 2), none⟩
      else if l = "image,location=pixel1.jpg" then some ⟨"image", none, some "pixel1.jpg"⟩
      else if l = "image,location=pixel2.jpg" then some ⟨"image", none, some "pixel2.jpg"⟩
      else if l = "image,location=pixel3.jpg" then some ⟨"image", none, some "pixel3.jpg"⟩
      else none,
    indeterminate_fps := (30, 1) }

/-- Playlist mode on `test.playlist` with the rate 24/1 configured. -/
def src_test_playlist : GstImageSequenceSrc :=
  { gst_imagesequencesrc_init with
    location := some "test.playlist", fps_n := 24, fps_d := 1 }

/-- Playlist mode on `bad.playlist` with `stop-index` set to 2. -/
def src_bad_playlist : GstImageSequenceSrc :=
  { gst_imagesequencesrc_init with location := some "bad.playlist", stop_index := 2 }

/-- Playlist mode on `empty.playlist` with `stop-index` set to 2. -/
def src_empty_playlist : GstImageSequenceSrc :=
  { gst_imagesequencesrc_init with location := some "empty.playlist", stop_index := 2 }

/-- The records of the cleaned lines of a playlist, in file order: empty lines
are skipped, and a line that is no record gives none. -/
def playlist_records (env : Env) (lines : List (List Char)) : List GstStructure :=
  lines.filterMap (fun l => if l = [] then none else env.gst_structure_from_string (String.mk l))

/-- The `location` values of the records that carry one, in file order and with
their multiplicity. -/
def playlist_locations (env : Env) (lines : List (List Char)) : List String :=
  (playlist_records env lines).filterMap (fun st => st.location)

/-- The `framerate` of the last record that carries one. -/
def playlist_framerate (env : Env) (lines : List (List Char)) : Option (Int × Int) :=
  ((playlist_records env lines).filterMap (fun st => st.framerate)).getLast?

/-- The state that setting the `filenames-list` property to `filenames` leaves. -/
def with_filenames (src : GstImageSequenceSrc) (filenames : List String) :
    GstImageSequenceSrc :=
  { src with
    iter_list := [], index := 0, filenames := filenames,
    stop_index :=
      if (src.stop_index = 0 ∨ to_guint src.stop_index > filenames.length % 4294967296) ∧
          filenames.length % 4294967296 > 0 then
        to_gint (filenames.length % 4294967296 - 1)
      else src.stop_index }

/-- The cleaned lines of `test.playlist`. -/
def test_playlist_lines : List (List Char) :=
  ["metadata,framerate=(fraction)3/1".toList, "image,location=pixel1.jpg".toList,
    "image,location=pixel2.jpg".toList, "image,location=pixel3.jpg".toList, []]

/-- The cleaned lines of `slow.playlist`. -/
def slow_playlist_lines : List (List Char) :=
  ["metadata,framerate=(fraction)1/2".toList, "image,location=pixel1.jpg".toList, []]

/-- The cleaned lines of `plain.playlist`. -/
def plain_playlist_lines : List (List Char) :=
  ["image,location=pixel1.jpg".toList, []]

/-- Playlist mode on `slow.playlist` with the rate 24/1 configured. -/
def src_slow_playlist : GstImageSequenceSrc :=
  { gst_imagesequencesrc_init with
    location := some "slow.playlist", fps_n := 24, fps_d := 1 }

/-- Playlist mode on `plain.playlist` with the rate 24/1 configured. -/
def src_plain_playlist : GstImageSequenceSrc :=
  { gst_imagesequencesrc_init with
    location := some "plain.playlist", fps_n := 24, fps_d := 1 }

/-- Playlist mode on an unreadable playlist, with a list of two files left from
before and `stop-index` set to `-1`. -/
def src_stale_list : GstImageSequenceSrc :=
  { gst_imagesequencesrc_init with
    location := some "missing.playlist", filenames := ["pixel1.jpg", "pixel2.jpg"],
    stop_index := -1 }

/-- Playlist mode on `test.playlist` with `stop-index` set to `-1`. -/
def src_test_playlist_unbounded : GstImageSequenceSrc :=
  { src_test_playlist with stop_index := -1 }

/-! ## Runs of calls -/

/-- A call that the base class makes on the element while it streams:
`gst_imagesequencesrc_create` in some state of the world, or `do_seek`. -/
inductive Call where
  | create (env : Env)
  | do_seek

/-- The position in `filenames` of the node whose name a call of
`gst_imagesequencesrc_create` passes to `g_file_get_contents`; `none` when the
call returns before it reads (empty list, end of stream). -/
def node_position (src : GstImageSequenceSrc) : Option Nat :=
  if src.filenames = [] then none
  else if src.index > src.stop_index ∧ src.loop = false then none
  else some (src.filenames.length - (node_to_read src).length)

/-- Whether a call of `gst_imagesequencesrc_create` would read a name that has
been released; `released` holds the positions of the nodes whose name has been
released. -/
def reads_released (released : List Nat) (src : GstImageSequenceSrc) : Bool :=
  match node_position src with
  | some p => decide (p ∈ released)
  | none => false

/-- The positions released after a call of `gst_imagesequencesrc_create` made in
`src` that returned `r`: the error path that follows a failed read releases the
name of the node it read (`g_free (filename)`) and leaves the node in the list. -/
def release (released : List Nat) (src : GstImageSequenceSrc) (r : GstFlowReturn) :
    List Nat :=
  match node_position src, r with
  | some p, .GST_FLOW_ERROR => p :: released
  | _, _ => released

/-- A sequence of calls made from the state `src`, with the heap effect of the
error path of `gst_imagesequencesrc_create`: a call that would read a name
released by an earlier failed read leaves defined behaviour.  The result is the
buffers emitted, in order, the state after the last call, and the positions of
the names released. -/
def run_from (released : List Nat) (src : GstImageSequenceSrc) :
    List Call → Except Fault (List GstBuffer × GstImageSequenceSrc × List Nat)
  | [] => .ok ([], src, released)
  | .do_seek :: cs => run_from released (do_seek src).1 cs
  | .create env :: cs =>
    if reads_released released src then .error .use_after_free
    else
      match gst_imagesequencesrc_create env src with
      | .error f => .error f
      | .ok r =>
        match run_from (release released src r.1) r.2.2 cs with
        | .error f => .error f
        | .ok q => .ok (r.2.1.toList ++ q.1, q.2)

/-- The buffers emitted, in order, by a sequence of calls made from the state
`src`, in which no name has been released, and the state after the last call. -/
def run (src : GstImageSequenceSrc) (cs : List Call) :
    Except Fault (List GstBuffer × GstImageSequenceSrc) :=
  (run_from [] src cs).map (fun q => (q.1, q.2.1))

/-- The state of the unit test after its three frames: the cursor is one past
`stop_index` and the iterator has left the list. -/
def src_pixels_end : GstImageSequenceSrc :=
  { src_pixels with index := 3, iter_list := [], offset := 9, duration := 125000000 }

/-- The calls of a session on the three images: the three frames, the call that
ends the stream, a seek, the first frame again, a read of the second image that
fails in the world where it is not readable, a seek, and the first frame again. -/
def calls_pixels : List Call :=
  [.create env_pixels, .create env_pixels, .create env_pixels, .create env_pixels,
    .do_seek, .create env_pixels, .create env_untyped, .do_seek, .create env_pixels]

/-- The three images with `loop` set, as activation leaves the state. -/
def src_pixels_loop : GstImageSequenceSrc := { src_pixels with loop := true }

/-- The calls of a session with `loop` set: the three frames and the frame of
the wrap. -/
def calls_pixels_loop : List Call :=
  [.create env_pixels, .create env_pixels, .create env_pixels, .create env_pixels]

/-- One call in the world where no image is readable. -/
def calls_unreadable : List Call := [.create env_untyped]

/-- The buffers that the session `calls_pixels` emits from `src_pixels`. -/
def buffers_pixels : List GstBuffer :=
  [{ data := [255, 216, 1], pts := 0, dts := 0, offset := 0, offset_end := 3 },
   { data := [255, 216, 2], pts := 41666666, dts := 41666666, offset := 3, offset_end := 6 },
   { data := [255, 216, 3], pts := 83333332, dts := 83333332, offset := 6, offset_end := 9 },
   { data := [255, 216, 1], pts := 0, dts := 0, offset := 9, offset_end := 12 },
   { data := [255, 216, 1], pts := 0, dts := 0, offset := 12, offset_end := 15 }]

/-- The state in which the session `calls_pixels` leaves `src_pixels`. -/
def src_pixels_after_calls : GstImageSequenceSrc :=
  { src_pixels with
    iter_list := ["pixel2.jpg", "pixel3.jpg"], index := 1, duration := 125000000,
    offset := 15, caps := some { media_type := "image/jpeg", framerate := some (24, 1) } }

/-- The buffers that the session `calls_pixels_loop` emits from `src_pixels_loop`. -/
def buffers_pixels_loop : List GstBuffer :=
  [{ data := [255, 216, 1], pts := 0, dts := 0, offset := 0, offset_end := 3 },
   { data := [255, 216, 2], pts := 41666666, dts := 41666666, offset := 3, offset_end := 6 },
   { data := [255, 216, 3], pts := 83333332, dts := 83333332, offset := 6, offset_end := 9 },
   { data := [255, 216, 1], pts := 0, dts := 0, offset := 9, offset_end := 12 }]

/-- The state in which the session `calls_pixels_loop` leaves `src_pixels_loop`. -/
def src_pixels_loop_after_calls : GstImageSequenceSrc :=
  { src_pixels_loop with
    iter_list := ["pixel2.jpg", "pixel3.jpg"], index := 1, duration := 125000000,
    offset := 12, caps := some { media_type := "image/jpeg", framerate := some (24, 1) } }

/-- A session that goes on after a failed read: two frames, a failed read of the
third image, and one more call, which reads the name that the failed call
released. -/
def calls_reread : List Call :=
  [.create env_pixels, .create env_pixels, .create env_untyped, .create env_pixels]

/-! ## Queries -/

/-- Conversion of a `guint64` to `gint64` (two's complement), as happens when
`src->duration` is passed to the `gint64` parameter of `gst_query_set_duration`. -/
def to_gint64 (u : Nat) : Int :=
  if u % 18446744073709551616 < 9223372036854775808 then
    ((u % 18446744073709551616 : Nat) : Int)
  else ((u % 18446744073709551616 : Nat) : Int) - 18446744073709551616

/-- The formats of `GstFormat`. -/
inductive GstFormat where
  | GST_FORMAT_UNDEFINED
  | GST_FORMAT_DEFAULT
  | GST_FORMAT_BYTES
  | GST_FORMAT_TIME
  | GST_FORMAT_BUFFERS
  | GST_FORMAT_PERCENT
  deriving DecidableEq, Repr

/-- A query as far as `gst_imagesequencesrc_query` looks at it: a duration query
with its format, or a query of another type. -/
inductive GstQuery where
  | GST_QUERY_DURATION (format : GstFormat)
  | GST_QUERY_OTHER
  deriving DecidableEq, Repr

/-- Source function `gst_imagesequencesrc_query`: the returned `gboolean` and
the value stored with `gst_query_set_duration` (`none` when the function stores
nothing and leaves the query to the parent class, whose answer is the first
argument). -/
def gst_imagesequencesrc_query (parent_class_query : GstQuery → Bool)
    (src : GstImageSequenceSrc) (query : GstQuery) : Bool × Option Int :=
  match query with
  | .GST_QUERY_DURATION format =>
    match format with
    | .GST_FORMAT_TIME =>
      if src.filenames ≠ [] ∧ src.loop = false then (true, some (to_gint64 src.duration))
      else (true, some (-1))
    | _ => (parent_class_query query, none)
  | .GST_QUERY_OTHER => (parent_class_query query, none)

/-! ## Reading properties -/

/-- The identifiers of the properties of the element. -/
inductive PropertyId where
  | PROP_LOCATION
  | PROP_START_INDEX
  | PROP_STOP_INDEX
  | PROP_FRAMERATE
  | PROP_LOOP
  | PROP_FILENAMES
  | PROP_URI
  deriving DecidableEq, Repr

/-- The loop of the case `PROP_FILENAMES` of `gst_imagesequencesrc_get_property`
over the nodes of the list.  The triple is the counter `size`, the number of
elements of the heap block `filenames` (`malloc` and `realloc` give it), and the
strings stored in the block so far.  One round gives the block `size` elements
and stores the copy of the string at position `size - 1`, the first free one. -/
def get_property_filenames_loop :
    List String → Nat × Nat × List String → Nat × Nat × List String
  | [], acc => acc
  | l :: next, (size, _, filenames) =>
    get_property_filenames_loop next (size + 1, size + 1, filenames ++ [l])

/-- Source function `gst_imagesequencesrc_get_property`: the value stored in the
`GValue`, `none` when the identifier is not handled (a warning is printed).  In
`PROP_FILENAMES` the block starts with `size + 1 = 1` element, and after the loop
the terminator is stored at position `size`, which lies in the block when `size`
is below the number of its elements. -/
def gst_imagesequencesrc_get_property (src : GstImageSequenceSrc) :
    PropertyId → Except Fault (Option PropertyValue)
  | .PROP_LOCATION => .ok (some (.PROP_LOCATION src.location))
  | .PROP_LOOP => .ok (some (.PROP_LOOP src.loop))
  | .PROP_FILENAMES =>
    let r := get_property_filenames_loop src.filenames (0, 1, [])
    if r.1 < r.2.1 then .ok (some (.PROP_FILENAMES r.2.2))
    else .error .out_of_bounds_write
  | .PROP_START_INDEX => .ok (some (.PROP_START_INDEX src.start_index))
  | .PROP_STOP_INDEX => .ok (some (.PROP_STOP_INDEX src.stop_index))
  | .PROP_URI => .ok (some (.PROP_URI src.uri))
  | .PROP_FRAMERATE => .ok none

/-- The state after `filenames-list` is set to the three images on a new element. -/
def src_names_set : GstImageSequenceSrc :=
  { gst_imagesequencesrc_init with
    filenames := ["pixel1.jpg", "pixel2.jpg", "pixel3.jpg"], stop_index := 2 }

/-- A world with the playlist `hash.playlist`, whose first record has a `#` in
its location path. -/
def env_hash_playlist : Env :=
  { env_pixels with
    g_file_load_contents := fun f =>
      if f = "hash.playlist" then
        some "image,location=/tmp/a#1.png\nimage,location=/tmp/b.png\n"
      else none }

/-- The state of `src_pixels_stop1` after its two frames and the call that
returned `GST_FLOW_EOS`. -/
def src_pixels_stop1_after_eos : GstImageSequenceSrc :=
  { src_pixels_stop1 with
    iter_list := ["pixel3.jpg"], index := 1, duration := 83333333, offset := 6,
    caps := some { media_type := "image/jpeg", framerate := some (24, 1) } }

/-- The state of `src_pixels_stop1` after one more call. -/
def src_pixels_stop1_after_extra : GstImageSequenceSrc :=
  { src_pixels_stop1_after_eos with iter_list := [], index := 2, offset := 9 }

/-- The three images with `stop-index` set to `G_MAXINT` and the rate 1/1. -/
def src_window_maxint : GstImageSequenceSrc :=
  { src_pixels with stop_index := 2147483647, fps_n := 1, fps_d := 1 }

/-! # Theorems -/

/-! ## Machine integers -/

/-- A non-negative `gint` converts to `guint` unchanged. -/
theorem to_guint_of_nonneg (z : Int) (h0 : 0 ≤ z) (h1 : z ≤ G_MAXINT) :
    to_guint z = z.toNat := by
  unfold to_guint
  unfold G_MAXINT at h1
  rw [Int.emod_eq_of_lt h0 (by omega)]

/-- A non-negative value below `2^64` converts to `guint64` unchanged. -/
theorem to_guint64_of_nonneg (z : Int) (h0 : 0 ≤ z) (h1 : z < 18446744073709551616) :
    to_guint64 z = z.toNat := by
  unfold to_guint64
  rw [Int.emod_eq_of_lt h0 h1]

/-! ## One call of `gst_imagesequencesrc_create` -/

/-- A call inside the window whose read succeeds (with caps latched or the type
found when it is the first unit) returns `GST_FLOW_OK`; the buffer and the new
state are described field by field. -/
theorem create_ok (env : Env) (src : GstImageSequenceSrc) (filename : String)
    (next : List String) (data : Bytes)
    (hne : src.filenames ≠ []) (hidx : src.index ≤ src.stop_index)
    (hiter : (if src.index = src.start_index then
        g_list_nth src.filenames (to_guint src.index) else src.iter_list) = filename :: next)
    (hread : env.g_file_get_contents filename = some data)
    (hcaps : src.index = src.start_index → src.caps = none →
      env.gst_type_find_helper_for_buffer data ≠ none) :
    ∃ buf s, gst_imagesequencesrc_create env src = .ok (.GST_FLOW_OK, some buf, s) ∧
      buf.data = data ∧
      buf.pts = (to_guint64 (src.index - src.start_index) *
        gst_util_uint64_scale (to_guint64 GST_SECOND) (to_guint64 src.fps_d)
          (to_guint64 src.fps_n)) % 18446744073709551616 ∧
      buf.offset = src.offset ∧ buf.offset_end = src.offset + data.length ∧
      s.offset = src.offset + data.length ∧
      s.index = src.index + 1 ∧ s.iter_list = next ∧ s.filenames = src.filenames ∧
      s.start_index = src.start_index ∧ s.stop_index = src.stop_index ∧
      s.loop = src.loop ∧ s.fps_n = src.fps_n ∧ s.fps_d = src.fps_d ∧
      (src.caps ≠ none ∨ src.index = src.start_index → s.caps ≠ none) := by
  obtain ⟨loc, uri, L, it, idx, a, b, fn, fd, lp, dur, off, caps⟩ := src
  simp only at hne hidx hiter hcaps ⊢
  have hlt : ¬ (b < idx) := not_lt.mpr hidx
  by_cases hs : idx = a
  · subst hs
    rw [if_pos rfl] at hiter
    cases caps with
    | none =>
      obtain ⟨c, hc2⟩ := Option.ne_none_iff_exists'.mp (hcaps rfl rfl)
      simp [gst_imagesequencesrc_create, hne, hlt, hiter, hread, hc2,
        gst_imagesequencesrc_set_caps, gst_imagesequencesrc_set_duration, Except.map]
      exact ⟨_, _, ⟨rfl, rfl⟩, by simp⟩
    | some c =>
      simp [gst_imagesequencesrc_create, hne, hlt, hiter, hread]
      exact ⟨_, _, ⟨rfl, rfl⟩, by simp⟩
  · rw [if_neg hs] at hiter
    simp [gst_imagesequencesrc_create, hne, hlt, hs, hiter, hread]
    exact ⟨_, _, ⟨rfl, rfl⟩, by simp⟩

/-- Beyond `stop_index` without `loop` the call returns `GST_FLOW_EOS` and
decrements the cursor. -/
theorem create_eos (env : Env) (src : GstImageSequenceSrc)
    (hne : src.filenames ≠ []) (hidx : src.stop_index < src.index) (hloop : src.loop = false) :
    gst_imagesequencesrc_create env src =
      .ok (.GST_FLOW_EOS, none, { src with index := src.index - 1 }) := by
  simp [gst_imagesequencesrc_create, hne, hidx, hloop]

/-- One step of a run through the window: at the position `start_index + j` the
call emits the unit of that position and moves cursor and iterator on. -/
theorem create_in_window (env : Env) (L : List String) (a b : Int)
    (hL : L ≠ []) (ha0 : 0 ≤ a) (ha1 : a ≤ G_MAXINT) (hb : b ≤ (L.length : Int) - 1)
    (hread : ∀ f ∈ L, ∃ d, env.g_file_get_contents f = some d)
    (j : Nat) (s : GstImageSequenceSrc)
    (hsL : s.filenames = L) (hsa : s.start_index = a) (hsb : s.stop_index = b)
    (hidx : s.index = a + j) (hiter : j = 0 ∨ s.iter_list = L.drop (a.toNat + j))
    (hfmt : j = 0 → s.caps = none → ∀ f d, L[a.toNat]? = some f →
        env.g_file_get_contents f = some d → env.gst_type_find_helper_for_buffer d ≠ none)
    (hj : a + j ≤ b) :
    ∃ f buf s', L[a.toNat + j]? = some f ∧
      gst_imagesequencesrc_create env s = .ok (.GST_FLOW_OK, some buf, s') ∧
      env.g_file_get_contents f = some buf.data ∧
      s'.filenames = L ∧ s'.start_index = a ∧ s'.stop_index = b ∧ s'.loop = s.loop ∧
      s'.index = a + (j + 1 : Nat) ∧ s'.iter_list = L.drop (a.toNat + (j + 1)) := by
  have hn : a.toNat + j < L.length := by omega
  obtain ⟨d, hd⟩ := hread L[a.toNat + j] (List.getElem_mem hn)
  have hdrop : L.drop (a.toNat + j) = L[a.toNat + j] :: L.drop (a.toNat + j + 1) :=
    List.drop_eq_getElem_cons hn
  have hit : (if s.index = s.start_index then
        g_list_nth s.filenames (to_guint s.index) else s.iter_list)
        = L[a.toNat + j] :: L.drop (a.toNat + j + 1) := by
    by_cases h0 : j = 0
    · subst h0
      have : s.index = s.start_index := by rw [hidx, hsa]; simp
      rw [if_pos this, hidx, hsL]
      simp only [Nat.cast_zero, add_zero] at hdrop ⊢
      rw [g_list_nth, to_guint_of_nonneg a ha0 ha1]
      exact hdrop
    · have : s.index ≠ s.start_index := by rw [hidx, hsa]; omega
      rw [if_neg this]
      rcases hiter with h | h
      · exact absurd h h0
      · rw [h]; exact hdrop
  have hcaps : s.index = s.start_index → s.caps = none →
      env.gst_type_find_helper_for_buffer d ≠ none := by
    intro h1 h2
    have h0 : j = 0 := by rw [hidx, hsa] at h1; omega
    subst h0
    exact hfmt rfl h2 _ d (by simp [List.getElem?_eq_getElem hn]) hd
  obtain ⟨buf, s', hc, hdata, -, -, -, -, hi, hit', hf, hs, hst, hl, -, -, -⟩ :=
    create_ok env s _ _ d (by rw [hsL]; exact hL) (by rw [hidx, hsb]; exact hj) hit hd hcaps
  refine ⟨_, buf, s', List.getElem?_eq_getElem hn, hc, by rw [hdata]; exact hd,
    by rw [hf, hsL], by rw [hs, hsa], by rw [hst, hsb], hl, ?_, ?_⟩
  · rw [hi, hidx]; push_cast; ring
  · rw [hit']; rfl

/-- A run through the window from the position `start_index + j`: call number `k`
emits the unit at `start_index + j + k` while that lies in the window, and returns
`GST_FLOW_EOS` at the first position behind it. -/
theorem nth_call_in_window (env : Env) (L : List String) (a b : Int)
    (hL : L ≠ []) (ha0 : 0 ≤ a) (ha1 : a ≤ G_MAXINT) (hb : b ≤ (L.length : Int) - 1)
    (hread : ∀ f ∈ L, ∃ d, env.g_file_get_contents f = some d) :
    ∀ (k j : Nat) (s : GstImageSequenceSrc),
      s.filenames = L → s.start_index = a → s.stop_index = b → s.loop = false →
      s.index = a + j → (j = 0 ∨ s.iter_list = L.drop (a.toNat + j)) →
      (j = 0 → s.caps = none → ∀ f d, L[a.toNat]? = some f →
        env.g_file_get_contents f = some d → env.gst_type_find_helper_for_buffer d ≠ none) →
      (a + j + k ≤ b → ∃ f buf s', L[a.toNat + j + k]? = some f ∧
          nth_call env s k = .ok (.GST_FLOW_OK, some buf, s') ∧
          env.g_file_get_contents f = some buf.data) ∧
      (a + j + k = b + 1 → ∃ s', nth_call env s k = .ok (.GST_FLOW_EOS, none, s')) := by
  intro k
  induction k with
  | zero =>
    intro j s hsL hsa hsb hloop hidx hiter hfmt
    constructor
    · intro hj
      obtain ⟨f, buf, s', hf, hc, hd, -⟩ :=
        create_in_window env L a b hL ha0 ha1 hb hread j s hsL hsa hsb hidx hiter hfmt
          (by simpa using hj)
      exact ⟨f, buf, s', by simpa using hf, hc, hd⟩
    · intro hj
      refine ⟨_, create_eos env s (by rw [hsL]; exact hL) ?_ hloop⟩
      rw [hsb, hidx]; push_cast at hj; omega
  | succ k ih =>
    intro j s hsL hsa hsb hloop hidx hiter hfmt
    have hj : a + j ≤ b → ∃ s' : Option GstBuffer × GstImageSequenceSrc, gst_imagesequencesrc_create env s
          = .ok (.GST_FLOW_OK, s'.1, s'.2) ∧
        s'.2.filenames = L ∧ s'.2.start_index = a ∧ s'.2.stop_index = b ∧
        s'.2.loop = false ∧ s'.2.index = a + (j + 1 : Nat) ∧
        s'.2.iter_list = L.drop (a.toNat + (j + 1)) := by
      intro hj
      obtain ⟨f, buf, s', -, hc, -, h1, h2, h3, h4, h5, h6⟩ :=
        create_in_window env L a b hL ha0 ha1 hb hread j s hsL hsa hsb hidx hiter hfmt hj
      exact ⟨(some buf, s'), hc, h1, h2, h3, by rw [h4, hloop], h5, h6⟩
    constructor
    · intro hjk
      obtain ⟨s', hc, h1, h2, h3, h4, h5, h6⟩ := hj (by push_cast at hjk; omega)
      have := (ih (j + 1) s'.2 h1 h2 h3 h4 h5 (Or.inr h6) (by intro h; omega)).1
        (by push_cast at hjk ⊢; omega)
      obtain ⟨f, buf, s'', hf, hn, hd⟩ := this
      refine ⟨f, buf, s'', ?_, ?_, hd⟩
      · rw [← hf]; congr 1; omega
      · simp only [nth_call, hc]; exact hn
    · intro hjk
      obtain ⟨s', hc, h1, h2, h3, h4, h5, h6⟩ := hj (by push_cast at hjk; omega)
      have := (ih (j + 1) s'.2 h1 h2 h3 h4 h5 (Or.inr h6) (by intro h; omega)).2
        (by push_cast at hjk ⊢; omega)
      obtain ⟨s'', hn⟩ := this
      exact ⟨s'', by simp only [nth_call, hc]; exact hn⟩


/-! ## C1: frames are emitted in list order -/

/-- C1 (as stated, refuted): a validated single-file window with `index =
start_index`, `loop = false` and the file readable; the type finder finds no type
for the content, `g_assert (caps != NULL)` fails and the first call does not
return `GST_FLOW_OK`. -/
theorem create_first_call_aborts_on_untyped_unit :
    validated src_untyped ∧ src_untyped.index = src_untyped.start_index ∧
    src_untyped.loop = false ∧
    (∀ f ∈ src_untyped.filenames, (env_untyped.g_file_get_contents f).isSome) ∧
    nth_call env_untyped src_untyped 0 = .error .assertion_failed := by
  decide

/-- C1 (amended): for a validated window with `index = start_index`,
`loop = false`, every file readable, and caps latched already or the type finder
recognising the unit at `start_index`, call number `k` (from 0) of
`gst_imagesequencesrc_create` returns `GST_FLOW_OK` with the bytes of
`filenames[start_index + k]` for every `k <= stop_index - start_index`, and the
call after them returns `GST_FLOW_EOS` without a buffer. -/
theorem create_emits_in_list_order (env : Env) (src : GstImageSequenceSrc)
    (hv : validated src) (hgint : src.start_index ≤ G_MAXINT)
    (hidx : src.index = src.start_index) (hloop : src.loop = false)
    (hread : ∀ f ∈ src.filenames, (env.g_file_get_contents f).isSome)
    (hfmt : src.caps = none → first_unit_caps env src ≠ none) :
    (∀ k : Nat, (k : Int) ≤ src.stop_index - src.start_index →
      ∃ f buf s', src.filenames[src.start_index.toNat + k]? = some f ∧
        nth_call env src k = .ok (.GST_FLOW_OK, some buf, s') ∧
        env.g_file_get_contents f = some buf.data) ∧
    ∃ s', nth_call env src (src.stop_index - src.start_index + 1).toNat
      = .ok (.GST_FLOW_EOS, none, s') := by
  obtain ⟨hne, ha0, hab, hb⟩ := hv
  have hread' : ∀ f ∈ src.filenames, ∃ d, env.g_file_get_contents f = some d :=
    fun f hf => Option.isSome_iff_exists.mp (hread f hf)
  have hfmt' : (0 : Nat) = 0 → src.caps = none → ∀ f d,
      src.filenames[src.start_index.toNat]? = some f →
      env.g_file_get_contents f = some d → env.gst_type_find_helper_for_buffer d ≠ none := by
    intro _ hc f d hf hd
    have := hfmt hc
    simpa [first_unit_caps, hf, hd] using this
  have key := fun k => nth_call_in_window env src.filenames src.start_index src.stop_index
    hne ha0 hgint hb hread' k 0 src rfl rfl rfl hloop (by simp [hidx]) (Or.inl rfl) hfmt'
  constructor
  · intro k hk
    obtain ⟨f, buf, s', hf, hc, hd⟩ := (key k).1 (by push_cast; omega)
    exact ⟨f, buf, s', by simpa using hf, hc, hd⟩
  · exact (key _).2 (by push_cast; omega)

/-- C1 (witness): the playlist of the unit test, `pixel1.jpg`, `pixel2.jpg`,
`pixel3.jpg`, is received in that order and followed by `GST_FLOW_EOS`. -/
theorem create_emits_in_list_order_witness :
    validated src_pixels ∧
    (∀ k : Nat, (k : Int) ≤ src_pixels.stop_index - src_pixels.start_index →
      ∃ f buf s', src_pixels.filenames[src_pixels.start_index.toNat + k]? = some f ∧
        nth_call env_pixels src_pixels k = .ok (.GST_FLOW_OK, some buf, s') ∧
        env_pixels.g_file_get_contents f = some buf.data) ∧
    ∃ s', nth_call env_pixels src_pixels
      (src_pixels.stop_index - src_pixels.start_index + 1).toNat
      = .ok (.GST_FLOW_EOS, none, s') :=
  ⟨by decide, create_emits_in_list_order env_pixels src_pixels (by decide) (by decide)
    (by decide) (by decide) (by decide) (by decide)⟩

/-! ## C2: end of sequence is not idempotent -/

/-- C2 (evaluation at the failing inputs): after `GST_FLOW_EOS` the cursor is back
at `stop_index`, so the next call reads again.  On the three images with the
window `0..2` the call after `GST_FLOW_EOS` dereferences the `NULL` iterator; on a
single-file window it emits the file again; on the window `0..1` of three files it
emits the third file, which lies outside the window. -/
theorem create_after_eos_reads_again :
    validated src_pixels ∧
    (nth_call env_pixels src_pixels 3).map (fun r => (r.1, r.2.1, r.2.2.index))
      = .ok (.GST_FLOW_EOS, none, 2) ∧
    nth_call env_pixels src_pixels 4 = .error .null_dereference ∧
    validated src_single ∧
    (nth_call env_pixels src_single 1).map (fun r => (r.1, r.2.1, r.2.2.index))
      = .ok (.GST_FLOW_EOS, none, 0) ∧
    (nth_call env_pixels src_single 2).map (fun r => (r.1, r.2.1.map (fun b => b.data)))
      = .ok (.GST_FLOW_OK, some [255, 216, 1]) ∧
    validated src_pixels_stop1 ∧
    (nth_call env_pixels src_pixels_stop1 2).map (fun r => (r.1, r.2.1, r.2.2.index))
      = .ok (.GST_FLOW_EOS, none, 1) ∧
    (nth_call env_pixels src_pixels_stop1 3).map
        (fun r => (r.1, r.2.1.map (fun b => b.data), r.2.2.index))
      = .ok (.GST_FLOW_OK, some [255, 216, 3], 2) := by
  refine ⟨by decide, by decide, by decide, by decide, by decide, by decide, by decide,
    by decide, by decide⟩

/-! ## C3: the bound checks of activation -/

/-- Activation establishes the bound invariant whenever the resolved list is
not empty (and shorter than `2^32`, with `stop_index` a `gint`). -/
theorem validated_of_activation_nonempty (src1 src2 src3 : GstImageSequenceSrc)
    (h1 : gst_imagesequencesrc_set_start_index src1 = .ok src2)
    (h2 : gst_imagesequencesrc_set_stop_index src2 = .ok src3)
    (hne : src1.filenames ≠ []) (hlen : src1.filenames.length < 4294967296)
    (hgint : src1.stop_index ≤ G_MAXINT) :
    validated src3 ∧ src3.index = src3.start_index := by
  unfold gst_imagesequencesrc_set_start_index at h1
  unfold gst_imagesequencesrc_set_stop_index at h2
  dsimp only at h1 h2
  split_ifs at h1 with ha hb
  split_ifs at h2 with hc hd
  cases h1
  cases h2
  have hpos : 0 < src1.filenames.length := List.length_pos.mpr hne
  have hmax : (g_list_length src1.filenames + 4294967295) % 4294967296
      = src1.filenames.length - 1 := by
    rw [g_list_length, Nat.mod_eq_of_lt hlen]; omega
  simp only [hmax, not_not, not_le, ge_iff_le] at ha hb hc hd
  have hstop := hd.2
  rw [to_guint_of_nonneg _ hc.1 hgint] at hstop
  refine ⟨⟨hne, ha.1, hd.1, ?_⟩, rfl⟩
  show src1.stop_index ≤ (src1.filenames.length : Int) - 1
  omega

/-- C3 (evaluation at the failing input): in playlist mode with an unreadable
playlist and `stop-index` set to 5, `gst_imagesequencesrc_parse_location`,
`gst_imagesequencesrc_set_start_index` and `gst_imagesequencesrc_set_stop_index`
all complete: `max_stop` is `G_MAXUINT` for the empty list, so no assertion fails,
and the state has an empty list with `stop_index = 5`. -/
theorem activation_completes_on_empty_list :
    ∃ s, gst_imagesequence_src_change_state env_untyped src_unreadable_playlist = .ok s ∧
      s.filenames = [] ∧ s.start_index = 0 ∧ s.stop_index = 5 ∧ ¬ validated s :=
  ⟨{ src_unreadable_playlist with iter_list := [] }, by decide, by decide, by decide,
    by decide, by decide⟩

/-! ## What a successful call stamps -/

/-- Latching caps and duration changes the fields `caps` and `duration` only. -/
theorem latch_frame (src2 src3 : GstImageSequenceSrc) (c : Option GstCaps) (p : Prop)
    [Decidable p]
    (h : (if p then (gst_imagesequencesrc_set_caps src2 c).map
        gst_imagesequencesrc_set_duration else .ok src2) = .ok src3) :
    src3.index = src2.index ∧ src3.start_index = src2.start_index ∧
      src3.stop_index = src2.stop_index ∧ src3.fps_n = src2.fps_n ∧
      src3.fps_d = src2.fps_d ∧ src3.loop = src2.loop ∧ src3.filenames = src2.filenames ∧
      src3.offset = src2.offset ∧ src3.iter_list = src2.iter_list ∧
      src3.location = src2.location ∧ src3.uri = src2.uri := by
  split_ifs at h
  · cases c with
    | none => simp [gst_imagesequencesrc_set_caps, Except.map] at h
    | some c =>
      simp [gst_imagesequencesrc_set_caps, Except.map, gst_imagesequencesrc_set_duration] at h
      subst h
      simp
  · cases h
    simp

/-- Every call that returns `GST_FLOW_OK` stamps the buffer from the position it
read at: that position is one below the cursor it leaves, the time stamp is the
position relative to `start_index` times the truncated frame duration (in 64-bit
arithmetic), and the byte range starts at the cumulative offset. -/
theorem create_ok_stamp (env : Env) (src s' : GstImageSequenceSrc) (buf : GstBuffer)
    (h : gst_imagesequencesrc_create env src = .ok (.GST_FLOW_OK, some buf, s')) :
    buf.pts = (to_guint64 (s'.index - 1 - s'.start_index) *
        gst_util_uint64_scale (to_guint64 GST_SECOND) (to_guint64 s'.fps_d)
          (to_guint64 s'.fps_n)) % 18446744073709551616 ∧
      buf.dts = buf.pts ∧
      s'.index = (if src.index > src.stop_index then src.start_index else src.index) + 1 ∧
      s'.start_index = src.start_index ∧ s'.stop_index = src.stop_index ∧
      s'.fps_n = src.fps_n ∧ s'.fps_d = src.fps_d ∧ s'.loop = src.loop ∧
      s'.filenames = src.filenames ∧
      buf.offset = src.offset ∧ buf.offset_end = src.offset + buf.data.length ∧
      s'.offset = buf.offset_end ∧ src.filenames ≠ [] ∧
      (src.index > src.stop_index → src.loop = true) := by
  obtain ⟨loc, uri, L, it, idx, a, b, fn, fd, lp, dur, off, caps⟩ := src
  dsimp only
  by_cases hL : L = []
  · simp [gst_imagesequencesrc_create, hL] at h
  by_cases hw : b < idx
  · cases lp
    · simp [gst_imagesequencesrc_create, hL, hw] at h
    · simp [gst_imagesequencesrc_create, hL, hw] at h
      split at h
      · simp at h
      · split at h
        · simp at h
        · split at h
          · simp at h
          · rename_i hlatch
            have hf := latch_frame _ _ _ _ hlatch
            simp only [Except.ok.injEq, Prod.mk.injEq, Option.some.injEq, true_and] at h
            obtain ⟨rfl, rfl⟩ := h
            simp [hf, hw, hL]
  · by_cases hs : idx = a
    · subst hs
      simp [gst_imagesequencesrc_create, hL, hw] at h
      split at h
      · simp at h
      · split at h
        · simp at h
        · split at h
          · simp at h
          · rename_i hlatch
            have hf := latch_frame _ _ _ _ hlatch
            simp only [Except.ok.injEq, Prod.mk.injEq, Option.some.injEq, true_and] at h
            obtain ⟨rfl, rfl⟩ := h
            simp [hf, hw, hL]
    · simp [gst_imagesequencesrc_create, hL, hw, hs] at h
      split at h
      · simp at h
      · split at h
        · simp at h
        · simp only [Except.ok.injEq, Prod.mk.injEq, Option.some.injEq, true_and] at h
          obtain ⟨rfl, rfl⟩ := h
          simp [hw, hL]

/-- In a run of calls that all return `GST_FLOW_OK` without looping, call number
`k` reads at the position `index + k` and stamps it accordingly. -/
theorem nth_call_ok_stamp (env : Env) :
    ∀ (k : Nat) (src : GstImageSequenceSrc), src.loop = false →
      (∀ i ≤ k, ∃ b s, nth_call env src i = .ok (.GST_FLOW_OK, some b, s)) →
      ∃ b s, nth_call env src k = .ok (.GST_FLOW_OK, some b, s) ∧
        b.pts = (to_guint64 (src.index + k - src.start_index) *
          gst_util_uint64_scale (to_guint64 GST_SECOND) (to_guint64 src.fps_d)
            (to_guint64 src.fps_n)) % 18446744073709551616 ∧
        s.index = src.index + k + 1 ∧ s.index ≤ src.stop_index + 1 := by
  intro k
  induction k with
  | zero =>
    intro src hloop hrun
    obtain ⟨b, s, h⟩ := hrun 0 (le_refl _)
    have hs := create_ok_stamp env src s b h
    obtain ⟨hp, -, hi, ha, hb, hn, hd, -, -, -, -, -, -, hw⟩ := hs
    have hnw : ¬ src.index > src.stop_index := by
      intro hgt
      have := hw hgt
      rw [hloop] at this
      exact Bool.noConfusion this
    rw [if_neg hnw] at hi
    refine ⟨b, s, h, ?_, by simpa using hi, by rw [hi]; omega⟩
    rw [hp, hi, ha, hn, hd]
    simp
  | succ k ih =>
    intro src hloop hrun
    obtain ⟨b0, s0, h0⟩ := hrun 0 (Nat.zero_le _)
    have h0' : gst_imagesequencesrc_create env src = .ok (.GST_FLOW_OK, some b0, s0) := h0
    obtain ⟨-, -, hi, ha, hb, hn, hd, hl, -, -, -, -, -, hw⟩ :=
      create_ok_stamp env src s0 b0 h0'
    have hnw : ¬ src.index > src.stop_index := by
      intro hgt
      have := hw hgt
      rw [hloop] at this
      exact Bool.noConfusion this
    rw [if_neg hnw] at hi
    have hrun' : ∀ i ≤ k, ∃ b s, nth_call env s0 i = .ok (.GST_FLOW_OK, some b, s) := by
      intro i hi'
      obtain ⟨b, s, h⟩ := hrun (i + 1) (by omega)
      simp only [nth_call, h0'] at h
      exact ⟨b, s, h⟩
    obtain ⟨b, s, h, hp, hidx, hle⟩ := ih s0 (by rw [hl, hloop]) hrun'
    refine ⟨b, s, by simp only [nth_call, h0']; exact h, ?_, ?_, ?_⟩
    · rw [hp, hi, ha, hn, hd]
      congr 3
      push_cast
      ring
    · rw [hidx, hi]; push_cast; ring
    · rw [← hb]; exact hle

/-! ## C4: time stamps are multiples of the truncated frame duration -/

/-- C4 (evaluation at the failing input): at the rate 3/1 the frame number 3 is
stamped 999 999 999 ns, three times the truncated frame duration 333 333 333 ns,
and not 3 * 10^9 * 1 / 3 = 1 000 000 000 ns; the duration of the four units is
computed by one scaling, 1 333 333 333 ns. -/
theorem create_pts_of_fourth_frame_at_rate_three :
    validated src_rate3 ∧
    (nth_call env_readable src_rate3 3).map (fun r => (r.1, r.2.1.map (fun b => b.pts)))
      = .ok (.GST_FLOW_OK, some 999999999) ∧
    (gst_imagesequencesrc_set_duration src_rate3).duration = 1333333333 ∧
    to_guint64 (3 * GST_SECOND * src_rate3.fps_d / src_rate3.fps_n) = 1000000000 := by
  refine ⟨by decide, by decide, by decide, by decide⟩

/-! ## The scaling function on values that fit -/

/-- On a positive numerator and denominator `gst_util_uint64_scale` is the
truncated quotient whenever the quotient fits in 64 bits. -/
theorem gst_util_uint64_scale_exact (val num denom : Nat) (hn : 0 < num) (hd : 0 < denom)
    (hfit : val * num / denom ≤ G_MAXUINT64) :
    gst_util_uint64_scale val num denom = val * num / denom := by
  unfold gst_util_uint64_scale
  rw [if_neg (by omega), if_neg (by omega)]
  split_ifs with h1 h2
  · subst h1
    rw [Nat.mul_div_cancel _ hn]
  · omega
  · rfl

/-- The frame duration computed in `gst_imagesequencesrc_create` for a rate of
positive `gint` components: `10^9 * fps_d / fps_n`, truncated. -/
theorem buffer_duration_eq (fn fd : Int) (hn0 : 1 ≤ fn) (hn1 : fn ≤ G_MAXINT)
    (hd0 : 1 ≤ fd) (hd1 : fd ≤ G_MAXINT) :
    gst_util_uint64_scale (to_guint64 GST_SECOND) (to_guint64 fd) (to_guint64 fn)
      = 1000000000 * fd.toNat / fn.toNat := by
  unfold G_MAXINT at hn1 hd1
  have e1 : to_guint64 GST_SECOND = 1000000000 := by decide
  have e2 : to_guint64 fd = fd.toNat := to_guint64_of_nonneg fd (by omega) (by omega)
  have e3 : to_guint64 fn = fn.toNat := to_guint64_of_nonneg fn (by omega) (by omega)
  rw [e1, e2, e3]
  apply gst_util_uint64_scale_exact _ _ _ (by omega) (by omega)
  have h1 : 1000000000 * fd.toNat / fn.toNat ≤ 1000000000 * fd.toNat := Nat.div_le_self _ _
  have h2 : fd.toNat ≤ 2147483647 := by omega
  unfold G_MAXUINT64
  omega

/-- A value in the range of `gint` is its own two's complement value. -/
theorem to_gint_to_guint_of_gint (z : Int) (h0 : -2147483648 ≤ z) (h1 : z ≤ 2147483647) :
    to_gint (to_guint z) = z := by
  unfold to_gint to_guint
  have hm : ((z % 4294967296).toNat % 4294967296 : Nat) = (z % 4294967296).toNat := by
    apply Nat.mod_eq_of_lt
    omega
  rw [hm]
  split_ifs with h <;> omega

/-- The duration stored by `gst_imagesequencesrc_set_duration` for a window of
at most `G_MAXINT` units and a rate of positive `gint` components, when the
scaled value fits in 64 bits. -/
theorem set_duration_value (src : GstImageSequenceSrc)
    (hab : src.start_index ≤ src.stop_index)
    (hwin : src.stop_index - src.start_index < G_MAXINT)
    (hn0 : 0 < src.fps_n) (hn1 : src.fps_n ≤ G_MAXINT)
    (hd0 : 0 < src.fps_d) (hd1 : src.fps_d ≤ G_MAXINT)
    (hfit : (src.stop_index - src.start_index + 1).toNat * 1000000000 * src.fps_d.toNat
      / src.fps_n.toNat ≤ G_MAXUINT64) :
    (gst_imagesequencesrc_set_duration src).duration
      = (src.stop_index - src.start_index + 1).toNat * 1000000000 * src.fps_d.toNat
        / src.fps_n.toNat := by
  unfold G_MAXINT at hn1 hd1 hwin
  unfold gst_imagesequencesrc_set_duration
  dsimp only
  rw [to_gint_to_guint_of_gint _ (by omega) (by omega)]
  have e1 : to_guint64 (GST_SECOND * (src.stop_index - src.start_index + 1))
      = (src.stop_index - src.start_index + 1).toNat * 1000000000 := by
    unfold GST_SECOND
    rw [to_guint64_of_nonneg _ (by omega) (by omega)]
    omega
  have e2 : to_guint64 src.fps_d = src.fps_d.toNat :=
    to_guint64_of_nonneg _ (by omega) (by omega)
  have e3 : to_guint64 src.fps_n = src.fps_n.toNat :=
    to_guint64_of_nonneg _ (by omega) (by omega)
  rw [e1, e2, e3]
  exact gst_util_uint64_scale_exact _ _ _ (by omega) (by omega) hfit

/-! ## C5: time stamps of consecutive frames -/

/-- C5 (as stated, refuted): at the rate 2000000000/1 the frame duration is
truncated to 0 and the first two frames both carry the time stamp 0; at the rate
1/2147483647 the product wraps in 64 bits and frame 9 is stamped earlier than
frame 8. -/
theorem create_pts_not_increasing :
    validated src_fast ∧
    (nth_call env_readable src_fast 0).map (fun r => (r.1, r.2.1.map (fun b => b.pts)))
      = .ok (.GST_FLOW_OK, some 0) ∧
    (nth_call env_readable src_fast 1).map (fun r => (r.1, r.2.1.map (fun b => b.pts)))
      = .ok (.GST_FLOW_OK, some 0) ∧
    validated src_slow ∧
    (nth_call env_readable src_slow 8).map (fun r => (r.1, r.2.1.map (fun b => b.pts)))
      = .ok (.GST_FLOW_OK, some 17179869176000000000) ∧
    (nth_call env_readable src_slow 9).map (fun r => (r.1, r.2.1.map (fun b => b.pts)))
      = .ok (.GST_FLOW_OK, some 880608749290448384) := by
  refine ⟨by decide, by decide, by decide, by decide, by decide, by decide⟩

/-- C5 (amended): in a non-looping run from `index = start_index` whose first
`k + 2` calls emit frames, at a rate of positive `gint` components with
`fps_n <= 10^9 * fps_d` and with `(k + 1) * (10^9 * fps_d / fps_n)` below `2^64`,
the frame of call `k + 1` carries a strictly greater time stamp than the frame of
call `k`. -/
theorem create_pts_strictly_increasing (env : Env) (src : GstImageSequenceSrc) (k : Nat)
    (hidx : src.index = src.start_index) (hloop : src.loop = false)
    (hn0 : 1 ≤ src.fps_n) (hn1 : src.fps_n ≤ G_MAXINT)
    (hd0 : 1 ≤ src.fps_d) (hd1 : src.fps_d ≤ G_MAXINT)
    (hrate : src.fps_n ≤ 1000000000 * src.fps_d)
    (hfit : ((k : Int) + 1) * (1000000000 * src.fps_d / src.fps_n) < 18446744073709551616)
    (hrun : ∀ i ≤ k + 1, ∃ b s, nth_call env src i = .ok (.GST_FLOW_OK, some b, s)) :
    ∃ b1 s1 b2 s2, nth_call env src k = .ok (.GST_FLOW_OK, some b1, s1) ∧
      nth_call env src (k + 1) = .ok (.GST_FLOW_OK, some b2, s2) ∧ b1.pts < b2.pts := by
  obtain ⟨b1, s1, h1, hp1, -, -⟩ :=
    nth_call_ok_stamp env k src hloop (fun i hi => hrun i (by omega))
  obtain ⟨b2, s2, h2, hp2, -, -⟩ := nth_call_ok_stamp env (k + 1) src hloop hrun
  refine ⟨b1, s1, b2, s2, h1, h2, ?_⟩
  rw [buffer_duration_eq _ _ hn0 hn1 hd0 hd1] at hp1 hp2
  set d : Nat := 1000000000 * src.fps_d.toNat / src.fps_n.toNat with hd
  have hdpos : 1 ≤ d := by
    rw [hd, Nat.le_div_iff_mul_le (by omega)]
    zify
    rw [Int.toNat_of_nonneg (by omega), Int.toNat_of_nonneg (by omega)]
    omega
  have hdi : (d : Int) = 1000000000 * src.fps_d / src.fps_n := by
    rw [hd]
    push_cast
    rw [Int.toNat_of_nonneg (by omega), Int.toNat_of_nonneg (by omega)]
  have hfit' : (k + 1) * d < 18446744073709551616 := by
    zify
    rw [hdi]
    exact hfit
  have hsm : (k + 1) * d = k * d + d := Nat.succ_mul k d
  have hkd : k ≤ k * d := Nat.le_mul_of_pos_right k hdpos
  have e1 : to_guint64 (src.index + (k : Int) - src.start_index) = k := by
    rw [hidx, to_guint64_of_nonneg _ (by omega) (by omega)]
    simp
  have e2 : to_guint64 (src.index + ((k + 1 : Nat) : Int) - src.start_index) = k + 1 := by
    rw [hidx, to_guint64_of_nonneg _ (by omega) (by push_cast; omega)]
    simp
  rw [e1, Nat.mod_eq_of_lt (by omega)] at hp1
  rw [e2, Nat.mod_eq_of_lt hfit'] at hp2
  rw [hp1, hp2]
  omega

/-- C5 (witness): the three images of the unit test at the rate 24/1. -/
theorem create_pts_strictly_increasing_witness :
    ∃ b1 s1 b2 s2, nth_call env_pixels src_pixels 1 = .ok (.GST_FLOW_OK, some b1, s1) ∧
      nth_call env_pixels src_pixels (1 + 1) = .ok (.GST_FLOW_OK, some b2, s2) ∧
      b1.pts < b2.pts :=
  create_pts_strictly_increasing env_pixels src_pixels 1 (by decide) (by decide) (by decide)
    (by decide) (by decide) (by decide) (by decide) (by decide)
    (by
      intro i hi
      interval_cases i
      · exact ⟨_, _, rfl⟩
      · exact ⟨_, _, rfl⟩
      · exact ⟨_, _, rfl⟩)

/-! ## C6: the latched duration -/

/-- A successful read at `index = start_index` with no caps latched stores the
duration that `gst_imagesequencesrc_set_duration` computes, and latches caps. -/
theorem create_latches_duration (env : Env) (src s' : GstImageSequenceSrc) (buf : GstBuffer)
    (hidx : src.index = src.start_index) (hcaps : src.caps = none)
    (h : gst_imagesequencesrc_create env src = .ok (.GST_FLOW_OK, some buf, s')) :
    s'.duration = (gst_imagesequencesrc_set_duration src).duration ∧ s'.caps ≠ none := by
  obtain ⟨loc, uri, L, it, idx, a, b, fn, fd, lp, dur, off, caps⟩ := src
  dsimp only at hidx hcaps
  subst hidx hcaps
  by_cases hL : L = []
  · simp [gst_imagesequencesrc_create, hL] at h
  by_cases hw : b < idx
  · cases lp
    · simp [gst_imagesequencesrc_create, hL, hw] at h
    · simp [gst_imagesequencesrc_create, hL, hw] at h
      split at h
      · simp at h
      · split at h
        · simp at h
        · split at h
          · simp at h
          · rename_i hlatch
            cases hc : env.gst_type_find_helper_for_buffer ‹Bytes› with
            | none => simp [hc, gst_imagesequencesrc_set_caps, Except.map] at hlatch
            | some c =>
              simp [hc, gst_imagesequencesrc_set_caps, Except.map,
                gst_imagesequencesrc_set_duration] at hlatch
              subst hlatch
              simp only [Except.ok.injEq, Prod.mk.injEq, Option.some.injEq, true_and] at h
              obtain ⟨-, rfl⟩ := h
              simp [gst_imagesequencesrc_set_duration]
  · simp [gst_imagesequencesrc_create, hL, hw] at h
    split at h
    · simp at h
    · split at h
      · simp at h
      · split at h
        · simp at h
        · rename_i hlatch
          cases hc : env.gst_type_find_helper_for_buffer ‹Bytes› with
          | none => simp [hc, gst_imagesequencesrc_set_caps, Except.map] at hlatch
          | some c =>
            simp [hc, gst_imagesequencesrc_set_caps, Except.map,
              gst_imagesequencesrc_set_duration] at hlatch
            subst hlatch
            simp only [Except.ok.injEq, Prod.mk.injEq, Option.some.injEq, true_and] at h
            obtain ⟨-, rfl⟩ := h
            simp [gst_imagesequencesrc_set_duration]

/-- At a rate of at least 1/1, the range that the `framerate` property accepts,
the duration of a window of `gint` bounds fits in 64 bits. -/
theorem duration_fits_of_rate_ge_one (src : GstImageSequenceSrc)
    (ha : 0 ≤ src.start_index) (hstop : src.stop_index ≤ G_MAXINT)
    (hd0 : 0 < src.fps_d) (hrate : src.fps_d ≤ src.fps_n) :
    (src.stop_index - src.start_index + 1).toNat * 1000000000 * src.fps_d.toNat
      / src.fps_n.toNat ≤ G_MAXUINT64 := by
  unfold G_MAXINT at hstop
  unfold G_MAXUINT64
  have h1 : src.fps_d.toNat ≤ src.fps_n.toNat := by omega
  have h2 : 0 < src.fps_n.toNat := by omega
  have h3 : (src.stop_index - src.start_index + 1).toNat * 1000000000 * src.fps_d.toNat
      / src.fps_n.toNat ≤ (src.stop_index - src.start_index + 1).toNat * 1000000000 := by
    apply Nat.div_le_of_le_mul
    rw [Nat.mul_comm src.fps_n.toNat]
    exact Nat.mul_le_mul_left _ h1
  omega

/-! ## The end-of-stream result -/

/-- The only way to `GST_FLOW_EOS`: a non-empty list, the cursor beyond
`stop_index` and `loop` unset; the cursor is then decremented. -/
theorem create_eos_inv (env : Env) (src : GstImageSequenceSrc) (r : CreateResult)
    (h : gst_imagesequencesrc_create env src = .ok r) (hr : r.1 = .GST_FLOW_EOS) :
    src.filenames ≠ [] ∧ src.stop_index < src.index ∧ src.loop = false ∧
      r = (.GST_FLOW_EOS, none, { src with index := src.index - 1 }) := by
  unfold gst_imagesequencesrc_create at h
  by_cases hL : src.filenames = []
  · rw [if_pos hL] at h
    cases h
    simp at hr
  rw [if_neg hL] at h
  by_cases hw : src.index > src.stop_index ∧ src.loop = false
  · rw [if_pos hw] at h
    cases h
    exact ⟨hL, hw.1, hw.2, rfl⟩
  rw [if_neg hw] at h
  dsimp only at h
  split at h
  · cases h
  · split at h
    · cases h
      simp at hr
    · split at h
      · cases h
      · cases h
        simp at hr

/-! ## Wrapping and failed reads -/

/-- With `loop` set, a call with the cursor beyond `stop_index` behaves as the
call with the cursor at `start_index`. -/
theorem create_wrap (env : Env) (src : GstImageSequenceSrc)
    (hne : src.filenames ≠ []) (hgt : src.stop_index < src.index) (hloop : src.loop = true) :
    gst_imagesequencesrc_create env src
      = gst_imagesequencesrc_create env { src with index := src.start_index } := by
  obtain ⟨loc, uri, L, it, idx, a, b, fn, fd, lp, dur, off, caps⟩ := src
  dsimp only at hne hgt hloop ⊢
  subst hloop
  by_cases h2 : b < a
  · simp [gst_imagesequencesrc_create, hne, hgt, h2]
  · simp [gst_imagesequencesrc_create, hne, hgt, h2]

/-- A failed read inside the window returns `GST_FLOW_ERROR` without a buffer and
changes nothing but the iterator, which points at the unit that failed. -/
theorem create_read_fail (env : Env) (src : GstImageSequenceSrc) (filename : String)
    (next : List String)
    (hne : src.filenames ≠ []) (hidx : src.index ≤ src.stop_index)
    (hiter : (if src.index = src.start_index then
        g_list_nth src.filenames (to_guint src.index) else src.iter_list) = filename :: next)
    (hread : env.g_file_get_contents filename = none) :
    gst_imagesequencesrc_create env src
      = .ok (.GST_FLOW_ERROR, none, { src with iter_list := filename :: next }) := by
  obtain ⟨loc, uri, L, it, idx, a, b, fn, fd, lp, dur, off, caps⟩ := src
  dsimp only at hne hidx hiter ⊢
  have hlt : ¬ (b < idx) := not_lt.mpr hidx
  by_cases hs : idx = a
  · subst hs
    rw [if_pos rfl] at hiter
    simp [gst_imagesequencesrc_create, hne, hlt, hiter, hread]
  · rw [if_neg hs] at hiter
    simp [gst_imagesequencesrc_create, hne, hlt, hs, hiter, hread]

/-! ## C7: loop wrap -/

/-- The node at a position inside the list. -/
theorem g_list_nth_in_range (L : List String) (a : Int) (f : String)
    (ha0 : 0 ≤ a) (ha1 : a ≤ G_MAXINT) (hf : L[a.toNat]? = some f) :
    g_list_nth L (to_guint a) = f :: L.drop (a.toNat + 1) := by
  rw [g_list_nth, to_guint_of_nonneg a ha0 ha1]
  obtain ⟨hlt, rfl⟩ := List.getElem?_eq_some_iff.mp hf
  exact List.drop_eq_getElem_cons hlt

/-- C7 (as stated, refuted): the three images with `loop` set, right after the
unit at `stop_index` was emitted, in a world where the unit at `start_index` is
not readable.  The call wraps the cursor and the read fails: it returns
`GST_FLOW_ERROR`, emits nothing, and leaves the cursor at `start_index`, not at
`start_index + 1`. -/
theorem create_loop_wrap_fails_on_unreadable_unit :
    validated src_pixels_wrap ∧ src_pixels_wrap.loop = true ∧
    src_pixels_wrap.index = src_pixels_wrap.stop_index + 1 ∧
    src_pixels_wrap.filenames[src_pixels_wrap.start_index.toNat]? = some "pixel1.jpg" ∧
    env_untyped.g_file_get_contents "pixel1.jpg" = none ∧
    (gst_imagesequencesrc_create env_untyped src_pixels_wrap).map
        (fun r => (r.1, r.2.1, r.2.2.index))
      = .ok (.GST_FLOW_ERROR, none, 0) ∧
    src_pixels_wrap.start_index + 1 = 1 := by
  refine ⟨by decide, by decide, by decide, by decide, by decide, by decide, by decide⟩

/-- C7 (amended): with `loop = true` and a validated window, a call at
`index = stop_index + 1` never returns `GST_FLOW_EOS`.  When the unit at
`start_index` is readable (and caps are latched, as they are once a unit has been
emitted, or the type finder recognises the unit), the call returns `GST_FLOW_OK`
with the bytes of `filenames[start_index]` and PTS 0 and leaves
`index = start_index + 1`; when the unit is not readable the call returns
`GST_FLOW_ERROR` with the cursor at `start_index`. -/
theorem create_loop_wrap (env : Env) (src : GstImageSequenceSrc)
    (hv : validated src) (hgint : src.start_index ≤ G_MAXINT)
    (hloop : src.loop = true) (hidx : src.index = src.stop_index + 1) :
    (∀ r, gst_imagesequencesrc_create env src = .ok r → r.1 ≠ .GST_FLOW_EOS) ∧
    (∃ f, src.filenames[src.start_index.toNat]? = some f ∧
      (∀ data, env.g_file_get_contents f = some data →
        (src.caps = none → env.gst_type_find_helper_for_buffer data ≠ none) →
        ∃ buf s', gst_imagesequencesrc_create env src = .ok (.GST_FLOW_OK, some buf, s') ∧
          buf.data = data ∧ buf.pts = 0 ∧ s'.index = src.start_index + 1 ∧
          s'.iter_list = src.filenames.drop (src.start_index.toNat + 1)) ∧
      (env.g_file_get_contents f = none →
        ∃ s', gst_imagesequencesrc_create env src = .ok (.GST_FLOW_ERROR, none, s') ∧
          s'.index = src.start_index)) := by
  obtain ⟨hne, ha0, hab, hb⟩ := hv
  have hlt : src.start_index.toNat < src.filenames.length := by omega
  have hf : src.filenames[src.start_index.toNat]?
      = some (src.filenames[src.start_index.toNat]) := List.getElem?_eq_getElem hlt
  have hnth := g_list_nth_in_range _ _ _ ha0 hgint hf
  have hw := create_wrap env src hne (by omega) hloop
  have hiter : (if ({ src with index := src.start_index } : GstImageSequenceSrc).index
        = ({ src with index := src.start_index } : GstImageSequenceSrc).start_index then
      g_list_nth ({ src with index := src.start_index } : GstImageSequenceSrc).filenames
        (to_guint ({ src with index := src.start_index } : GstImageSequenceSrc).index)
      else ({ src with index := src.start_index } : GstImageSequenceSrc).iter_list)
      = src.filenames[src.start_index.toNat] :: src.filenames.drop (src.start_index.toNat + 1) := by
    rw [if_pos rfl]
    exact hnth
  refine ⟨?_, _, hf, ?_, ?_⟩
  · intro r hr hEOS
    have := (create_eos_inv env src r hr hEOS).2.2.1
    rw [hloop] at this
    exact Bool.noConfusion this
  · intro data hread hfmt
    obtain ⟨buf, s', hc, hdata, hpts, -, -, -, hi, hit, -⟩ :=
      create_ok env { src with index := src.start_index } _ _ data hne hab hiter hread
        (fun _ hc => hfmt hc)
    refine ⟨buf, s', by rw [hw]; exact hc, hdata, ?_, hi, hit⟩
    rw [hpts]
    simp [to_guint64]
  · intro hread
    rw [hw, create_read_fail env { src with index := src.start_index } _ _ hne hab hiter hread]
    exact ⟨_, rfl, rfl⟩

/-- C7 (witness): the three images with `loop` set, after `pixel3.jpg`. -/
theorem create_loop_wrap_witness :
    (∀ r, gst_imagesequencesrc_create env_pixels src_pixels_wrap = .ok r →
      r.1 ≠ .GST_FLOW_EOS) ∧
    (∃ f, src_pixels_wrap.filenames[src_pixels_wrap.start_index.toNat]? = some f ∧
      (∀ data, env_pixels.g_file_get_contents f = some data →
        (src_pixels_wrap.caps = none →
          env_pixels.gst_type_find_helper_for_buffer data ≠ none) →
        ∃ buf s', gst_imagesequencesrc_create env_pixels src_pixels_wrap
            = .ok (.GST_FLOW_OK, some buf, s') ∧
          buf.data = data ∧ buf.pts = 0 ∧ s'.index = src_pixels_wrap.start_index + 1 ∧
          s'.iter_list
            = src_pixels_wrap.filenames.drop (src_pixels_wrap.start_index.toNat + 1)) ∧
      (env_pixels.g_file_get_contents f = none →
        ∃ s', gst_imagesequencesrc_create env_pixels src_pixels_wrap
            = .ok (.GST_FLOW_ERROR, none, s') ∧
          s'.index = src_pixels_wrap.start_index)) :=
  create_loop_wrap env_pixels src_pixels_wrap (by decide) (by decide) (by decide) (by decide)

/-! ## C8: failed reads -/

/-- C8 (as stated, refuted): a non-empty list with `loop` set and the cursor
beyond `stop_index`, and no file readable.  The call wraps the cursor before it
reads: it returns `GST_FLOW_ERROR` without a buffer, and `index` is 0 after the
call where it was 2 before. -/
theorem create_read_failure_after_wrap_moves_index :
    src_pixels_stop1_wrap.filenames ≠ [] ∧
    (∀ f ∈ src_pixels_stop1_wrap.filenames, env_untyped.g_file_get_contents f = none) ∧
    src_pixels_stop1_wrap.index = 2 ∧
    (gst_imagesequencesrc_create env_untyped src_pixels_stop1_wrap).map
        (fun r => (r.1, r.2.1, r.2.2.index, r.2.2.offset))
      = .ok (.GST_FLOW_ERROR, none, 0, 6) := by
  refine ⟨by decide, by decide, by decide, by decide⟩

/-- C8 (amended): for every state with a non-empty list in which the call reads
(it does not take the end-of-stream branch) and reading the file fails,
`gst_imagesequencesrc_create` returns `GST_FLOW_ERROR` without a buffer and leaves
the cumulative offset unchanged; `index` is unchanged when it was within
`stop_index`, and it is `start_index` when the call wrapped (`loop` set and
`index > stop_index`). -/
theorem create_read_failure (env : Env) (src : GstImageSequenceSrc) (filename : String)
    (next : List String)
    (hne : src.filenames ≠ [])
    (hreads : ¬ (src.index > src.stop_index ∧ src.loop = false))
    (hnode : node_to_read src = filename :: next)
    (hread : env.g_file_get_contents filename = none) :
    ∃ s', gst_imagesequencesrc_create env src = .ok (.GST_FLOW_ERROR, none, s') ∧
      s'.offset = src.offset ∧
      (src.index ≤ src.stop_index → s'.index = src.index) ∧
      (src.stop_index < src.index → s'.index = src.start_index) := by
  obtain ⟨loc, uri, L, it, idx, a, b, fn, fd, lp, dur, off, caps⟩ := src
  dsimp only [node_to_read] at hne hreads hnode ⊢
  by_cases hw : b < idx
  · have hlp : lp = true := by
      cases lp
      · exact absurd ⟨hw, rfl⟩ hreads
      · rfl
    subst hlp
    rw [if_pos hw, if_pos rfl] at hnode
    refine ⟨⟨loc, uri, L, filename :: next, a, a, b, fn, fd, true, dur, off, caps⟩, ?_, rfl,
      fun h => absurd hw (not_lt.mpr h), fun _ => rfl⟩
    rw [create_wrap env _ hne hw rfl]
    by_cases h2 : b < a
    · simp [gst_imagesequencesrc_create, hne, h2, hnode, hread]
    · simp [gst_imagesequencesrc_create, hne, h2, hnode, hread]
  · rw [if_neg hw] at hnode
    refine ⟨_, create_read_fail env _ filename next hne (not_lt.mp hw) hnode hread, rfl,
      fun _ => rfl, fun h => absurd h hw⟩

/-- C8 (witness): the three images with the first one unreadable. -/
theorem create_read_failure_witness :
    ∃ s', gst_imagesequencesrc_create env_untyped src_pixels
        = .ok (.GST_FLOW_ERROR, none, s') ∧
      s'.offset = src_pixels.offset ∧
      (src_pixels.index ≤ src_pixels.stop_index → s'.index = src_pixels.index) ∧
      (src_pixels.stop_index < src_pixels.index → s'.index = src_pixels.start_index) :=
  create_read_failure env_untyped src_pixels "pixel1.jpg" ["pixel2.jpg", "pixel3.jpg"]
    (by decide) (by decide) (by decide) (by decide)

/-! ## The file-probing loop -/

/-- Candidates numbered from `i` on: the first against the candidates from
`i + 1` on. -/
theorem map_range_shift (p : Int → String) (i : Int) (m : Nat) :
    p i :: (List.range m).map (fun j : Nat => p (i + 1 + (j : Int)))
      = (List.range (m + 1)).map (fun j : Nat => p (i + (j : Int))) := by
  rw [List.range_succ_eq_map]
  simp only [List.map_cons, List.map_map, Nat.cast_zero, add_zero, List.cons.injEq, true_and]
  apply List.map_congr_left
  intro j _
  simp only [Function.comp, Nat.succ_eq_add_one]
  congr 1
  push_cast
  ring

/-- A run of the probing loop: `m` candidates in a row exist and pass the stop
test, the next one is missing or fails the stop test, and the counter has room;
the loop appends the `m` candidates in order and ends with the counter `i + m`. -/
theorem parse_location_loop_run (env : Env) (src : GstImageSequenceSrc) :
    ∀ (m room : Nat) (i : Int) (acc : List String), m < room →
      (∀ j : Nat, j < m →
        env.g_file_test (env.g_strdup_printf (src.location.getD "") (i + (j : Int))) = true ∧
        ¬ (src.stop_index > 0 ∧ i + (j : Int) > src.stop_index)) →
      (env.g_file_test (env.g_strdup_printf (src.location.getD "") (i + (m : Int))) = false ∨
        (src.stop_index > 0 ∧ i + (m : Int) > src.stop_index)) →
      parse_location_loop env src room i acc
        = .ok (i + (m : Int), acc ++ (List.range m).map
            (fun j : Nat => env.g_strdup_printf (src.location.getD "") (i + (j : Int)))) := by
  intro m
  induction m with
  | zero =>
    intro room i acc hroom _ hend
    obtain ⟨room, rfl⟩ : ∃ r, room = r + 1 := ⟨room - 1, by omega⟩
    simp only [Nat.cast_zero, add_zero] at hend
    rcases hend with h | h
    · simp [parse_location_loop, _get_filename, h]
    · by_cases ht : env.g_file_test (env.g_strdup_printf (src.location.getD "") i) = true
      · simp [parse_location_loop, _get_filename, ht, h]
      · simp [parse_location_loop, _get_filename, ht]
  | succ m ih =>
    intro room i acc hroom hall hend
    obtain ⟨room, rfl⟩ : ∃ r, room = r + 1 := ⟨room - 1, by omega⟩
    have h0 := hall 0 (Nat.succ_pos m)
    simp only [Nat.cast_zero, add_zero] at h0
    have hrec := ih room (i + 1) (acc ++ [env.g_strdup_printf (src.location.getD "") i])
      (by omega)
      (fun j hj => by
        have := hall (j + 1) (by omega)
        push_cast at this
        rw [show i + 1 + (j : Int) = i + ((j : Int) + 1) by ring]
        exact this)
      (by
        rw [show i + 1 + (m : Int) = i + ((m + 1 : Nat) : Int) by push_cast; ring]
        exact hend)
    simp only [parse_location_loop, _get_filename, h0.1, if_true, if_neg h0.2]
    rw [hrec, List.append_assoc, List.singleton_append,
      map_range_shift (env.g_strdup_printf (src.location.getD "")) i m]
    congr 2
    push_cast
    ring

/-- What the probing loop has done when it returns: it appended `m` candidates
in order, each of which exists and passed the stop test. -/
theorem parse_location_loop_inv (env : Env) (src : GstImageSequenceSrc) :
    ∀ (room : Nat) (i : Int) (acc : List String) (i' : Int) (fl : List String),
      parse_location_loop env src room i acc = .ok (i', fl) →
      ∃ m : Nat, i' = i + (m : Int) ∧
        fl = acc ++ (List.range m).map
          (fun j : Nat => env.g_strdup_printf (src.location.getD "") (i + (j : Int))) ∧
        ∀ j : Nat, j < m →
          env.g_file_test (env.g_strdup_printf (src.location.getD "") (i + (j : Int))) = true ∧
          ¬ (src.stop_index > 0 ∧ i + (j : Int) > src.stop_index) := by
  intro room
  induction room with
  | zero =>
    intro i acc i' fl h
    simp [parse_location_loop] at h
  | succ room ih =>
    intro i acc i' fl h
    by_cases ht : env.g_file_test (env.g_strdup_printf (src.location.getD "") i) = true
    · by_cases hb : src.stop_index > 0 ∧ i > src.stop_index
      · simp only [parse_location_loop, _get_filename, ht, if_true, if_pos hb,
          Except.ok.injEq, Prod.mk.injEq] at h
        exact ⟨0, by simp [h.1.symm], by simp [h.2.symm], fun j hj => absurd hj (Nat.not_lt_zero j)⟩
      · simp only [parse_location_loop, _get_filename, ht, if_true, if_neg hb] at h
        obtain ⟨m, h1, h2, h3⟩ := ih _ _ _ _ h
        refine ⟨m + 1, by rw [h1]; push_cast; ring, ?_, ?_⟩
        · rw [h2, List.append_assoc, List.singleton_append,
            map_range_shift (env.g_strdup_printf (src.location.getD "")) i m]
        · intro j hj
          cases j with
          | zero =>
            simp only [Nat.cast_zero, add_zero]
            exact ⟨ht, hb⟩
          | succ j =>
            have := h3 j (by omega)
            rw [show i + 1 + (j : Int) = i + ((j + 1 : Nat) : Int) by push_cast; ring] at this
            exact this
    · simp only [parse_location_loop, _get_filename, ht, Bool.false_eq_true, if_false,
        Except.ok.injEq, Prod.mk.injEq] at h
      exact ⟨0, by simp [h.1.symm], by simp [h.2.symm], fun j hj => absurd hj (Nat.not_lt_zero j)⟩

/-- With a positive stop bound the probing loop returns as soon as the counter
has room up to the bound plus one. -/
theorem parse_location_loop_total (env : Env) (src : GstImageSequenceSrc)
    (hstop : 0 < src.stop_index) :
    ∀ (room : Nat) (i : Int) (acc : List String),
      0 < room → src.stop_index + 1 - i < room →
      ∃ r, parse_location_loop env src room i acc = .ok r := by
  intro room
  induction room with
  | zero => intro i acc h; exact absurd h (Nat.lt_irrefl 0)
  | succ room ih =>
    intro i acc _ hroom
    by_cases ht : env.g_file_test (env.g_strdup_printf (src.location.getD "") i) = true
    · by_cases hb : src.stop_index > 0 ∧ i > src.stop_index
      · exact ⟨(i, acc), by simp only [parse_location_loop, _get_filename, ht, if_true, if_pos hb]⟩
      · simp only [parse_location_loop, _get_filename, ht, if_true, if_neg hb]
        have hi : i ≤ src.stop_index := by
          by_contra hgt
          exact hb ⟨hstop, by omega⟩
        exact ih _ _ (by omega) (by push_cast at hroom; omega)
    · exact ⟨(i, acc), by simp only [parse_location_loop, _get_filename, ht,
        Bool.false_eq_true, if_false]⟩

/-! ## C9: pattern resolution stops at the first gap -/

/-- C9: in pattern mode with `start_index = 0` and the stop bound unset (0 or
negative), when exactly the candidates numbered `0..N-1` except `k` exist (`k` a
`gint`), `gst_imagesequencesrc_parse_location` returns with `filenames` the
candidates `0..k-1` in order, `stop_index = k - 1` and `start_index = 0`. -/
theorem parse_location_stops_at_first_gap (env : Env) (src : GstImageSequenceSrc)
    (loc : String) (N k : Nat)
    (hloc : src.location = some loc) (hpat : loc.toList.contains '%' = true)
    (hk : k < N) (hkg : (k : Int) ≤ G_MAXINT)
    (hstart : src.start_index = 0) (hstop : src.stop_index ≤ 0)
    (hfiles : ∀ i : Int, env.g_file_test (env.g_strdup_printf loc i) = true ↔
      (0 ≤ i ∧ i < N ∧ i ≠ k)) :
    ∃ s, gst_imagesequencesrc_parse_location env src = .ok s ∧
      s.filenames = (List.range k).map (fun j : Nat => env.g_strdup_printf loc (j : Int)) ∧
      s.stop_index = (k : Int) - 1 ∧ s.start_index = 0 := by
  obtain ⟨loc', uri, L, it, idx, a, b, fn, fd, lp, dur, off, caps⟩ := src
  dsimp only at hloc hstart hstop
  subst hloc hstart
  have hrun := parse_location_loop_run env
    ⟨some loc, uri, [], it, idx, 0, b, fn, fd, lp, dur, off, caps⟩ k
    (G_MAXINT - 0 + 1).toNat 0 []
    (by unfold G_MAXINT at hkg ⊢; omega)
    (fun j hj => by
      simp only [Option.getD_some, zero_add]
      exact ⟨(hfiles j).mpr ⟨by omega, by omega, by omega⟩, fun h => by omega⟩)
    (by
      left
      simp only [Option.getD_some, zero_add]
      have := (hfiles k).not.mpr (fun h => h.2.2 rfl)
      simpa using this)
  simp only [zero_add, Option.getD_some, List.nil_append] at hrun
  refine ⟨⟨some loc, uri, (List.range k).map (fun j : Nat => env.g_strdup_printf loc (j : Int)),
    it, idx, 0, (k : Int) - 1, fn, fd, lp, dur, off, caps⟩, ?_, rfl, rfl, rfl⟩
  unfold gst_imagesequencesrc_parse_location
  simp only [Option.getD_some, hpat, if_true]
  rw [hrun]
  simp only [lt_self_iff_false, if_false, gt_iff_lt]

/-- C9 (witness): of `frame0 .. frame3` the file `frame2` is missing; the
resolved list is `frame0, frame1` and `stop_index = 1`. -/
theorem parse_location_stops_at_first_gap_witness :
    ∃ s, gst_imagesequencesrc_parse_location env_frames src_frames = .ok s ∧
      s.filenames = (List.range 2).map
        (fun j : Nat => env_frames.g_strdup_printf "frame%d" (j : Int)) ∧
      s.stop_index = ((2 : Nat) : Int) - 1 ∧ s.start_index = 0 :=
  parse_location_stops_at_first_gap env_frames src_frames "frame%d" 4 2 rfl (by decide)
    (by decide) (by decide) rfl (by decide)
    (by
      intro i
      by_cases h0 : i = 0
      · subst h0; decide
      by_cases h1 : i = 1
      · subst h1; decide
      by_cases h2 : i = 2
      · subst h2; decide
      by_cases h3 : i = 3
      · subst h3; decide
      simp only [env_frames, h0, h1, h2, h3, if_false]
      constructor
      · intro h; exact absurd h (by decide)
      · intro h; omega)

/-! ## C10: the stop bound in pattern mode -/

/-- C10 (as stated, refuted): with the requested `stop_index = 0` and
`start_index = 0`, the files `frame0` and `frame1` both exist and both are
appended: the file numbered 1 is greater than the requested stop bound. -/
theorem parse_location_ignores_stop_bound_zero :
    src_frames.stop_index = 0 ∧ src_frames.start_index = 0 ∧
    (gst_imagesequencesrc_parse_location env_frames src_frames).map (fun s => s.filenames)
      = .ok ["frame0", "frame1"] ∧
    env_frames.g_strdup_printf "frame%d" 1 = "frame1" := by
  refine ⟨by decide, by decide, by decide, by decide⟩

/-- C10 (amended): in pattern mode, for every requested `stop_index > 0` and
every `start_index`, the list that `gst_imagesequencesrc_parse_location` builds is
made of the candidates numbered `start_index, start_index + 1, ..` in order and
none of them has a number greater than the requested `stop_index`; and the call
returns whenever `start_index <= G_MAXINT` and `stop_index < G_MAXINT`. -/
theorem parse_location_honours_positive_stop (env : Env) (src : GstImageSequenceSrc)
    (loc : String) (hloc : src.location = some loc) (hpat : loc.toList.contains '%' = true)
    (hstop : 0 < src.stop_index) :
    (∀ s, gst_imagesequencesrc_parse_location env src = .ok s →
      ∃ m : Nat, s.filenames = (List.range m).map
          (fun j : Nat => env.g_strdup_printf loc (src.start_index + (j : Int))) ∧
        ∀ j : Nat, j < m → src.start_index + (j : Int) ≤ src.stop_index) ∧
    (src.start_index ≤ G_MAXINT → src.stop_index < G_MAXINT →
      ∃ s, gst_imagesequencesrc_parse_location env src = .ok s) := by
  obtain ⟨loc', uri, L, it, idx, a, b, fn, fd, lp, dur, off, caps⟩ := src
  dsimp only at hloc hstop ⊢
  subst hloc
  constructor
  · intro s h
    unfold gst_imagesequencesrc_parse_location at h
    simp only [Option.getD_some, hpat, if_true] at h
    split at h
    · cases h
    · rename_i i' fl hloop
      obtain ⟨m, -, h2, h3⟩ := parse_location_loop_inv env _ _ _ _ _ _ hloop
      simp only [Option.getD_some, List.nil_append] at h2 h3
      refine ⟨m, ?_, fun j hj => ?_⟩
      · split_ifs at h <;> cases h <;> exact h2
      · have := (h3 j hj).2
        by_contra hgt
        exact this ⟨hstop, by omega⟩
  · intro ha hb
    obtain ⟨r, hr⟩ := parse_location_loop_total env
      ⟨some loc, uri, [], it, idx, a, b, fn, fd, lp, dur, off, caps⟩ hstop
      (G_MAXINT - a + 1).toNat a [] (by omega) (by dsimp only; omega)
    unfold gst_imagesequencesrc_parse_location
    simp only [Option.getD_some, hpat, if_true]
    rw [hr]
    dsimp only
    split_ifs
    · exact ⟨_, rfl⟩
    · exact ⟨_, rfl⟩

/-- C10 (witness): every candidate exists, `start_index = 1` and the stop bound
is 2. -/
theorem parse_location_honours_positive_stop_witness :
    (∀ s, gst_imagesequencesrc_parse_location env_all_frames src_frames_stop2 = .ok s →
      ∃ m : Nat, s.filenames = (List.range m).map
          (fun j : Nat => env_all_frames.g_strdup_printf "frame%d"
            (src_frames_stop2.start_index + (j : Int))) ∧
        ∀ j : Nat, j < m →
          src_frames_stop2.start_index + (j : Int) ≤ src_frames_stop2.stop_index) ∧
    (src_frames_stop2.start_index ≤ G_MAXINT → src_frames_stop2.stop_index < G_MAXINT →
      ∃ s, gst_imagesequencesrc_parse_location env_all_frames src_frames_stop2 = .ok s) :=
  parse_location_honours_positive_stop env_all_frames src_frames_stop2 "frame%d" rfl
    (by decide) (by decide)

/-! ## C11: renormalisation of the start index -/

/-- C11 (as stated, refuted): every candidate exists, `start_index = 2` and the
requested `stop_index` is 1.  The stop test ends the loop at its first step:
nothing is appended, `filenames` is empty (it has no element 0) and `stop_index`
is `-1`. -/
theorem parse_location_start_beyond_stop_appends_nothing :
    src_frames_start2_stop1.start_index = 2 ∧
    env_all_frames.g_file_test
      (env_all_frames.g_strdup_printf "frame%d" src_frames_start2_stop1.start_index) = true ∧
    (gst_imagesequencesrc_parse_location env_all_frames src_frames_start2_stop1).map
        (fun s => (s.filenames, s.start_index, s.index, s.stop_index))
      = .ok ([], 0, 0, -1) := by
  refine ⟨by decide, by decide, by decide⟩

/-- C11 (amended): in pattern mode with `start_index = s > 0`, when the candidates
numbered `s..m` all exist and pass the stop test (the stop bound is unset or at
least `m`) and the candidate `m + 1` is missing or beyond a positive stop bound
(`m < G_MAXINT`), `gst_imagesequencesrc_parse_location` returns with
`start_index = 0`, `index = 0`, `stop_index = m - s`, and `filenames` the
candidates `s..m` in order, so that `filenames[0]` is the file numbered `s`. -/
theorem parse_location_renormalises_start (env : Env) (src : GstImageSequenceSrc)
    (loc : String) (m : Int)
    (hloc : src.location = some loc) (hpat : loc.toList.contains '%' = true)
    (hs : 0 < src.start_index) (hsm : src.start_index ≤ m) (hm : m < G_MAXINT)
    (hexist : ∀ i : Int, src.start_index ≤ i → i ≤ m →
      env.g_file_test (env.g_strdup_printf loc i) = true)
    (hbound : src.stop_index ≤ 0 ∨ m ≤ src.stop_index)
    (hend : env.g_file_test (env.g_strdup_printf loc (m + 1)) = false ∨
      (src.stop_index > 0 ∧ m + 1 > src.stop_index)) :
    ∃ s', gst_imagesequencesrc_parse_location env src = .ok s' ∧
      s'.start_index = 0 ∧ s'.index = 0 ∧ s'.stop_index = m - src.start_index ∧
      s'.filenames = (List.range (m - src.start_index + 1).toNat).map
        (fun j : Nat => env.g_strdup_printf loc (src.start_index + (j : Int))) ∧
      s'.filenames[0]? = some (env.g_strdup_printf loc src.start_index) := by
  obtain ⟨loc', uri, L, it, idx, a, b, fn, fd, lp, dur, off, caps⟩ := src
  dsimp only at hloc hs hsm hexist hbound hend ⊢
  subst hloc
  unfold G_MAXINT at hm
  have hrun := parse_location_loop_run env
    ⟨some loc, uri, [], it, idx, a, b, fn, fd, lp, dur, off, caps⟩ (m - a + 1).toNat
    (G_MAXINT - a + 1).toNat a []
    (by unfold G_MAXINT; omega)
    (fun j hj => by
      simp only [Option.getD_some]
      exact ⟨hexist _ (by omega) (by omega), fun h => by omega⟩)
    (by
      simp only [Option.getD_some]
      rw [show a + (((m - a + 1).toNat : Nat) : Int) = m + 1 by omega]
      exact hend)
  simp only [Option.getD_some, List.nil_append] at hrun
  rw [show a + (((m - a + 1).toNat : Nat) : Int) = m + 1 by omega] at hrun
  refine ⟨⟨some loc, uri, (List.range (m - a + 1).toNat).map
      (fun j : Nat => env.g_strdup_printf loc (a + (j : Int))),
    it, 0, 0, m - a, fn, fd, lp, dur, off, caps⟩, ?_, rfl, rfl, rfl, rfl, ?_⟩
  · unfold gst_imagesequencesrc_parse_location
    simp only [Option.getD_some, hpat, if_true]
    rw [hrun]
    simp only [gt_iff_lt, hs, if_true, add_sub_cancel_right]
  · dsimp only
    obtain ⟨n, hn⟩ : ∃ n, (m - a + 1).toNat = n + 1 := ⟨(m - a).toNat, by omega⟩
    rw [hn, List.range_succ_eq_map]
    simp

/-- C11 (witness): of the candidates `frame0 .. frame3` the number 2 is missing;
from `start_index = 1` the list is `frame1` alone. -/
theorem parse_location_renormalises_start_witness :
    ∃ s', gst_imagesequencesrc_parse_location env_frames src_frames_start1 = .ok s' ∧
      s'.start_index = 0 ∧ s'.index = 0 ∧
      s'.stop_index = 1 - src_frames_start1.start_index ∧
      s'.filenames = (List.range (1 - src_frames_start1.start_index + 1).toNat).map
        (fun j : Nat => env_frames.g_strdup_printf "frame%d"
          (src_frames_start1.start_index + (j : Int))) ∧
      s'.filenames[0]?
        = some (env_frames.g_strdup_printf "frame%d" src_frames_start1.start_index) :=
  parse_location_renormalises_start env_frames src_frames_start1 "frame%d" 1 rfl
    (by decide) (by decide) (by decide) (by decide)
    (by
      intro i h1 h2
      have : i = 1 := le_antisymm h2 h1
      subst this
      decide)
    (by decide) (by decide)

/-! ## C12: resolving twice -/

/-- Where the probing loop ends when it returns: at a candidate that is missing
or beyond a positive stop bound, after fewer steps than the counter had room. -/
theorem parse_location_loop_end (env : Env) (src : GstImageSequenceSrc) :
    ∀ (room : Nat) (i : Int) (acc : List String) (i' : Int) (fl : List String),
      parse_location_loop env src room i acc = .ok (i', fl) →
      (env.g_file_test (env.g_strdup_printf (src.location.getD "") i') = false ∨
        (src.stop_index > 0 ∧ i' > src.stop_index)) ∧ i' - i < room := by
  intro room
  induction room with
  | zero =>
    intro i acc i' fl h
    simp [parse_location_loop] at h
  | succ room ih =>
    intro i acc i' fl h
    by_cases ht : env.g_file_test (env.g_strdup_printf (src.location.getD "") i) = true
    · by_cases hb : src.stop_index > 0 ∧ i > src.stop_index
      · simp only [parse_location_loop, _get_filename, ht, if_true, if_pos hb,
          Except.ok.injEq, Prod.mk.injEq] at h
        rw [← h.1]
        exact ⟨Or.inr hb, by push_cast; omega⟩
      · simp only [parse_location_loop, _get_filename, ht, if_true, if_neg hb] at h
        obtain ⟨h1, h2⟩ := ih _ _ _ _ h
        exact ⟨h1, by push_cast; omega⟩
    · simp only [parse_location_loop, _get_filename, ht, Bool.false_eq_true, if_false,
        Except.ok.injEq, Prod.mk.injEq] at h
      rw [← h.1]
      exact ⟨Or.inl (by simpa using ht), by push_cast; omega⟩

/-- C12 (as stated, refuted): every candidate exists, `start_index = 1` and
`stop_index = 2`.  The first resolution gives `frame1, frame2` and rewrites the
bounds to `0` and `1`; the resolution of that state probes from 0 and gives
`frame0, frame1`. -/
theorem parse_location_twice_differs :
    0 ≤ src_frames_stop2.start_index ∧ -1 ≤ src_frames_stop2.stop_index ∧
    (gst_imagesequencesrc_parse_location env_all_frames src_frames_stop2).map
        (fun s => (s.filenames, s.start_index, s.stop_index))
      = .ok (["frame1", "frame2"], 0, 1) ∧
    ((gst_imagesequencesrc_parse_location env_all_frames src_frames_stop2).bind
        (gst_imagesequencesrc_parse_location env_all_frames)).map
        (fun s => (s.filenames, s.start_index, s.stop_index))
      = .ok (["frame0", "frame1"], 0, 1) := by
  refine ⟨by decide, by decide, by decide, by decide⟩

/-- C12 (amended): in pattern mode with the initial `start_index = 0`, against an
unchanged file system, whenever `gst_imagesequencesrc_parse_location` returns a
state, its application to that state returns too, with the same `filenames`,
`start_index` and `stop_index`. -/
theorem parse_location_twice_from_zero (env : Env) (src s1 : GstImageSequenceSrc)
    (loc : String) (hloc : src.location = some loc) (hpat : loc.toList.contains '%' = true)
    (hstart : src.start_index = 0)
    (h1 : gst_imagesequencesrc_parse_location env src = .ok s1) :
    ∃ s2, gst_imagesequencesrc_parse_location env s1 = .ok s2 ∧
      s2.filenames = s1.filenames ∧ s2.start_index = s1.start_index ∧
      s2.stop_index = s1.stop_index := by
  obtain ⟨loc', uri, L, it, idx, a, b, fn, fd, lp, dur, off, caps⟩ := src
  dsimp only at hloc hstart
  subst hloc hstart
  unfold gst_imagesequencesrc_parse_location at h1
  simp only [Option.getD_some, hpat, if_true] at h1
  split at h1
  · cases h1
  · rename_i i' fl hloop
    simp only [gt_iff_lt, lt_self_iff_false, if_false, Except.ok.injEq] at h1
    subst h1
    obtain ⟨m, hi', hfl, hall⟩ := parse_location_loop_inv env _ _ _ _ _ _ hloop
    obtain ⟨hend, hroom⟩ := parse_location_loop_end env _ _ _ _ _ _ hloop
    simp only [Option.getD_some, List.nil_append, zero_add, sub_zero] at hi' hfl hall hend hroom
    subst hi'
    have hrun := parse_location_loop_run env
      ⟨some loc, uri, [], it, idx, 0, (m : Int) - 1, fn, fd, lp, dur, off, caps⟩ m
      (G_MAXINT - 0 + 1).toNat 0 []
      (by omega)
      (fun j hj => by
        simp only [Option.getD_some, zero_add]
        exact ⟨(hall j hj).1, fun h => by omega⟩)
      (by
        simp only [Option.getD_some, zero_add]
        rcases hend with h | h
        · exact Or.inl h
        · exact Or.inr ⟨by omega, by omega⟩)
    simp only [Option.getD_some, List.nil_append, zero_add] at hrun
    refine ⟨⟨some loc, uri, fl, it, idx, 0, (m : Int) - 1, fn, fd, lp, dur, off, caps⟩,
      ?_, rfl, rfl, rfl⟩
    unfold gst_imagesequencesrc_parse_location
    simp only [Option.getD_some, hpat, if_true]
    rw [hrun]
    simp only [gt_iff_lt, lt_self_iff_false, if_false, hfl]

/-- C12 (witness): of `frame0 .. frame3` the number 2 is missing; resolving from
0 twice gives `frame0, frame1` both times. -/
theorem parse_location_twice_from_zero_witness :
    ∃ s2, gst_imagesequencesrc_parse_location env_frames src_frames_resolved = .ok s2 ∧
      s2.filenames = src_frames_resolved.filenames ∧
      s2.start_index = src_frames_resolved.start_index ∧
      s2.stop_index = src_frames_resolved.stop_index :=
  parse_location_twice_from_zero env_frames src_frames src_frames_resolved
    "frame%d" rfl (by decide) rfl (by decide)

/-! ## C13: an empty pattern sequence fails activation -/

/-- The state change, given the results of its three steps. -/
theorem gst_imagesequence_src_change_state_eq (env : Env)
    (src s1 s2 : GstImageSequenceSrc) (loc : String) (r : Except Fault GstImageSequenceSrc)
    (hloc : src.location = some loc)
    (h1 : gst_imagesequencesrc_parse_location env src = .ok s1)
    (h2 : gst_imagesequencesrc_set_start_index s1 = .ok s2)
    (h3 : gst_imagesequencesrc_set_stop_index s2 = r) :
    gst_imagesequence_src_change_state env src = r := by
  unfold gst_imagesequence_src_change_state
  rw [hloc]
  dsimp only
  rw [h1]
  dsimp only
  rw [h2]
  exact h3

/-- C13: in pattern mode, for every `start_index >= 0` (a `gint`) and every
`stop_index`, when no file exists at the number `start_index`,
`gst_imagesequencesrc_parse_location` returns with `filenames` empty,
`gst_imagesequencesrc_set_start_index` passes and
`gst_imagesequencesrc_set_stop_index` fails its assertion (`stop_index` is `-1`),
so the state change does not complete. -/
theorem activation_fails_on_empty_pattern (env : Env) (src : GstImageSequenceSrc)
    (loc : String) (hloc : src.location = some loc) (hpat : loc.toList.contains '%' = true)
    (hs0 : 0 ≤ src.start_index) (hs1 : src.start_index ≤ G_MAXINT)
    (hmissing : env.g_file_test (env.g_strdup_printf loc src.start_index) = false) :
    (∃ s1 s2, gst_imagesequencesrc_parse_location env src = .ok s1 ∧ s1.filenames = [] ∧
      gst_imagesequencesrc_set_start_index s1 = .ok s2 ∧
      gst_imagesequencesrc_set_stop_index s2 = .error .assertion_failed) ∧
    gst_imagesequence_src_change_state env src = .error .assertion_failed := by
  obtain ⟨loc', uri, L, it, idx, a, b, fn, fd, lp, dur, off, caps⟩ := src
  dsimp only at hloc hs0 hs1 hmissing
  subst hloc
  have hrun := parse_location_loop_run env
    ⟨some loc, uri, [], it, idx, a, b, fn, fd, lp, dur, off, caps⟩ 0
    (G_MAXINT - a + 1).toNat a []
    (by unfold G_MAXINT at hs1 ⊢; omega)
    (fun j hj => absurd hj (Nat.not_lt_zero j))
    (by
      left
      simp only [Option.getD_some, Nat.cast_zero, add_zero]
      exact hmissing)
  simp only [Nat.cast_zero, add_zero, List.range_zero, List.map_nil, List.append_nil] at hrun
  have hparse : gst_imagesequencesrc_parse_location env
      ⟨some loc, uri, L, it, idx, a, b, fn, fd, lp, dur, off, caps⟩
      = .ok ⟨some loc, uri, [], it, if a > 0 then 0 else idx, 0, -1, fn, fd, lp, dur, off,
          caps⟩ := by
    unfold gst_imagesequencesrc_parse_location
    simp only [Option.getD_some, hpat, if_true]
    rw [hrun]
    by_cases ha : a > 0
    · simp only [ha, if_true, sub_sub_cancel_left]
    · have h0 : a = 0 := by omega
      subst h0
      simp
  have hstart : gst_imagesequencesrc_set_start_index
      ⟨some loc, uri, [], it, if a > 0 then 0 else idx, 0, -1, fn, fd, lp, dur, off, caps⟩
      = .ok ⟨some loc, uri, [], [], 0, 0, -1, fn, fd, lp, dur, off, caps⟩ := by
    simp [gst_imagesequencesrc_set_start_index, g_list_length, g_list_nth, to_guint]
  have hstop : gst_imagesequencesrc_set_stop_index
      ⟨some loc, uri, [], [], 0, 0, -1, fn, fd, lp, dur, off, caps⟩
      = .error .assertion_failed := by
    simp [gst_imagesequencesrc_set_stop_index]
  refine ⟨⟨_, _, hparse, rfl, hstart, hstop⟩, ?_⟩
  exact gst_imagesequence_src_change_state_eq env _ _ _ loc _ rfl hparse hstart hstop

/-- C13 (witness): no candidate exists and the bounds are the defaults. -/
theorem activation_fails_on_empty_pattern_witness :
    (∃ s1 s2, gst_imagesequencesrc_parse_location env_no_frames src_frames = .ok s1 ∧
      s1.filenames = [] ∧
      gst_imagesequencesrc_set_start_index s1 = .ok s2 ∧
      gst_imagesequencesrc_set_stop_index s2 = .error .assertion_failed) ∧
    gst_imagesequence_src_change_state env_no_frames src_frames
      = .error .assertion_failed :=
  activation_fails_on_empty_pattern env_no_frames src_frames "frame%d" rfl (by decide)
    (by decide) (by decide) (by decide)

/-! ## C14: invalid playlists -/

/-- C14 (evaluation at the failing inputs): in playlist mode with `stop-index`
set to 2, a playlist with a line that is no record and an empty playlist file
both let the state change complete: the asserts compare against
`max_stop = G_MAXUINT` for the empty list.  No location of a line before the
malformed one is kept (`filenames` is empty). -/
theorem activation_completes_on_invalid_playlist :
    (gst_imagesequence_src_change_state env_playlists src_bad_playlist).map
        (fun s => (s.filenames, s.start_index, s.stop_index))
      = .ok ([], 0, 2) ∧
    (gst_imagesequence_src_change_state env_playlists src_empty_playlist).map
        (fun s => (s.filenames, s.start_index, s.stop_index))
      = .ok ([], 0, 2) := by
  refine ⟨by decide, by decide⟩

/-! ## Playlist reading -/

/-- When every non-empty line is a record, the structure loop appends the
records of the lines in order. -/
theorem _lines_get_strutures_loop_eq (env : Env) :
    ∀ (lines : List (List Char)) (acc : List GstStructure),
      (∀ l ∈ lines, l ≠ [] → env.gst_structure_from_string (String.mk l) ≠ none) →
      _lines_get_strutures_loop env lines acc = acc ++ playlist_records env lines := by
  intro lines
  induction lines with
  | nil => intro acc _; simp [_lines_get_strutures_loop, playlist_records]
  | cons l rest ih =>
    intro acc h
    have hrest : ∀ l' ∈ rest, l' ≠ [] → env.gst_structure_from_string (String.mk l') ≠ none :=
      fun l' hl' => h l' (List.mem_cons_of_mem _ hl')
    by_cases hl : l = []
    · subst hl
      simp only [_lines_get_strutures_loop, if_true]
      rw [ih acc hrest]
      simp [playlist_records]
    · obtain ⟨st, hst⟩ := Option.ne_none_iff_exists'.mp (h l (List.mem_cons_self _ _) hl)
      simp only [_lines_get_strutures_loop, if_neg hl, hst]
      rw [ih _ hrest]
      simp [playlist_records, hl, hst]

/-- The loop over the structures appends the locations in order and keeps the
last rate it meets. -/
theorem set_location_from_file_loop_eq :
    ∀ (structures : List GstStructure) (fps : Int × Int) (filenames : List String),
      set_location_from_file_loop structures (fps, filenames)
        = (((structures.filterMap (fun st => st.framerate)).getLast?).getD fps,
            filenames ++ structures.filterMap (fun st => st.location)) := by
  intro structures
  induction structures with
  | nil => intro fps filenames; simp [set_location_from_file_loop]
  | cons st rest ih =>
    intro fps filenames
    simp only [set_location_from_file_loop]
    rw [ih]
    cases hf : st.framerate with
    | none =>
      cases hl : st.location with
      | none => simp only [List.filterMap_cons_none hf, List.filterMap_cons_none hl]
      | some f =>
        simp only [List.filterMap_cons_none hf, List.filterMap_cons_some hl,
          List.append_assoc, List.singleton_append]
    | some r =>
      have hlast : ((List.filterMap (fun st => st.framerate) (st :: rest)).getLast?).getD fps
          = ((List.filterMap (fun st => st.framerate) rest).getLast?).getD r := by
        rw [List.filterMap_cons_some hf, List.getLast?_cons]
        rfl
      rw [hlast]
      cases hl : st.location with
      | none => simp only [List.filterMap_cons_none hl]
      | some f =>
        simp only [List.filterMap_cons_some hl, List.append_assoc, List.singleton_append]

/-- The branch `PROP_FILENAMES` of the property setter, as one state update. -/
theorem set_property_filenames_eq (env : Env) (src : GstImageSequenceSrc)
    (filenames : List String) :
    gst_imagesequencesrc_set_property env src (.PROP_FILENAMES filenames)
      = .ok (with_filenames src filenames) := by
  unfold gst_imagesequencesrc_set_property with_filenames
  dsimp only
  split_ifs <;> rfl

/-- Setting the `framerate` property through GObject returns, and changes no
field but `fps_n` and `fps_d`. -/
theorem g_object_set_framerate_frame (env : Env) (src : GstImageSequenceSrc) (n d : Int) :
    ∃ fn fd, g_object_set_framerate env src n d
      = .ok { src with fps_n := fn, fps_d := fd } := by
  unfold g_object_set_framerate
  dsimp only
  by_cases h1 : d = 0 ∨ n < -G_MAXINT ∨ d < -G_MAXINT
  · rw [if_pos h1]
    exact ⟨src.fps_n, src.fps_d, rfl⟩
  · rw [if_neg h1]
    split_ifs
    all_goals first
      | exact ⟨src.fps_n, src.fps_d, rfl⟩
      | exact ⟨_, _, rfl⟩

/-- A fraction in normal form (positive denominator, lowest terms) is set as it
is when its value is at least 1/1, and is refused when its value is below 1/1. -/
theorem g_object_set_framerate_normal (env : Env) (src : GstImageSequenceSrc) (n d : Int)
    (hd : 0 < d) (hg : Int.gcd n d = 1) (hn0 : -G_MAXINT ≤ n) (hn1 : n ≤ G_MAXINT) :
    g_object_set_framerate env src n d
      = .ok (if d ≤ n then { src with fps_n := n, fps_d := d } else src) := by
  unfold g_object_set_framerate
  unfold G_MAXINT at *
  have h1 : ¬ (d = 0 ∨ n < -2147483647 ∨ d < -2147483647) := by omega
  rw [if_neg h1]
  simp only [hg, Nat.cast_one, Int.ediv_one, if_neg (not_lt.mpr (le_of_lt hd))]
  by_cases hdn : d ≤ n
  · have h2 : ¬ (n < d ∨ n > 2147483647 * d) := by
      intro h
      rcases h with h | h
      · omega
      · have : n ≤ 2147483647 * d := by
          calc n ≤ 2147483647 := hn1
            _ = 2147483647 * 1 := by norm_num
            _ ≤ 2147483647 * d := by
                apply Int.mul_le_mul_of_nonneg_left (by omega) (by norm_num)
        omega
    rw [if_neg h2, if_pos hdn]
    rfl
  · have h2 : n < d ∨ n > 2147483647 * d := Or.inl (by omega)
    rw [if_pos h2, if_neg hdn]

/-- What `gst_imagesequencesrc_set_location_from_file` does with a playlist that
is read and whose non-empty cleaned lines are all records: the list is set to the
locations of the image records, then the rate property is set to the rate of the
last record that has one, or to the uninitialised locals when there is none. -/
theorem set_location_from_file_eq (env : Env) (src : GstImageSequenceSrc)
    (lines : List (List Char)) (hlines : _get_lines env src.location = some lines)
    (hparse : ∀ l ∈ lines, l ≠ [] → env.gst_structure_from_string (String.mk l) ≠ none) :
    gst_imagesequencesrc_set_location_from_file env src
      = (g_object_set_framerate env (with_filenames src (playlist_locations env lines))
          ((playlist_framerate env lines).getD env.indeterminate_fps).1
          ((playlist_framerate env lines).getD env.indeterminate_fps).2).map
        (fun s => (s, true)) := by
  unfold gst_imagesequencesrc_set_location_from_file
  rw [hlines]
  dsimp only
  rw [_lines_get_strutures, _lines_get_strutures_loop_eq env lines [] hparse,
    List.nil_append, set_location_from_file_loop_eq, set_property_filenames_eq]
  dsimp only
  rw [List.nil_append]
  obtain ⟨fn, fd, h⟩ := g_object_set_framerate_frame env
    (with_filenames src (playlist_locations env lines))
    ((playlist_framerate env lines).getD env.indeterminate_fps).1
    ((playlist_framerate env lines).getD env.indeterminate_fps).2
  unfold playlist_locations playlist_framerate at h ⊢
  rw [h]
  rfl

/-! ## C15: playlist locations in file order -/

/-- C16 (as stated, refuted): every line of `slow.playlist` is a record and the
last record with a rate carries 1/2; the value lies below the lower bound 1/1 of
the `framerate` property, the property is not set, and `(fps_n, fps_d)` is still
the configured 24/1. -/
theorem set_location_from_file_refuses_slow_rate :
    _get_lines env_playlists src_slow_playlist.location = some slow_playlist_lines ∧
    (∀ l ∈ slow_playlist_lines, l ≠ [] →
      env_playlists.gst_structure_from_string (String.mk l) ≠ none) ∧
    playlist_framerate env_playlists slow_playlist_lines = some (1, 2) ∧
    (gst_imagesequencesrc_set_location_from_file env_playlists src_slow_playlist).map
        (fun r => (r.1.fps_n, r.1.fps_d, r.2))
      = .ok (24, 1, true) := by
  refine ⟨by decide, by decide, by decide, by decide⟩

/-- Without a record that carries a rate the locals `fps_n`, `fps_d` are passed
to the `framerate` property uninitialised: in a world where they hold 30/1 the
configured 24/1 is replaced by 30/1. -/
theorem set_location_from_file_rate_without_metadata :
    _get_lines env_playlists src_plain_playlist.location = some plain_playlist_lines ∧
    playlist_framerate env_playlists plain_playlist_lines = none ∧
    env_playlists.indeterminate_fps = (30, 1) ∧
    (gst_imagesequencesrc_set_location_from_file env_playlists src_plain_playlist).map
        (fun r => (r.1.fps_n, r.1.fps_d, r.2))
      = .ok (30, 1, true) := by
  refine ⟨by decide, by decide, by decide, by decide⟩

/-- C16 (amended): after `gst_imagesequencesrc_set_location_from_file` on a
playlist that is read and whose lines all parse, when the last record that carries
a framerate carries `n/d` (in normal form: `d > 0`, lowest terms, `n` a `gint`),
`(fps_n, fps_d)` equals `(n, d)` if `n/d` is at least 1/1, the lower bound of the
`framerate` property, and keeps the configured rate if `n/d` is below 1/1. -/
theorem set_location_from_file_rate (env : Env) (src : GstImageSequenceSrc)
    (lines : List (List Char)) (n d : Int)
    (hlines : _get_lines env src.location = some lines)
    (hparse : ∀ l ∈ lines, l ≠ [] → env.gst_structure_from_string (String.mk l) ≠ none)
    (hrate : playlist_framerate env lines = some (n, d))
    (hd : 0 < d) (hg : Int.gcd n d = 1) (hn0 : -G_MAXINT ≤ n) (hn1 : n ≤ G_MAXINT) :
    ∃ s, gst_imagesequencesrc_set_location_from_file env src = .ok (s, true) ∧
      (d ≤ n → s.fps_n = n ∧ s.fps_d = d) ∧
      (n < d → s.fps_n = src.fps_n ∧ s.fps_d = src.fps_d) := by
  rw [set_location_from_file_eq env src lines hlines hparse, hrate]
  simp only [Option.getD_some]
  rw [g_object_set_framerate_normal env _ n d hd hg hn0 hn1]
  by_cases hdn : d ≤ n
  · rw [if_pos hdn]
    exact ⟨_, rfl, fun _ => ⟨rfl, rfl⟩, fun h => absurd hdn (not_le.mpr h)⟩
  · rw [if_neg hdn]
    exact ⟨_, rfl, fun h => absurd h hdn, fun _ => ⟨rfl, rfl⟩⟩

/-- C16 (witness): the playlist of the element documentation carries 3/1. -/
theorem set_location_from_file_rate_witness :
    ∃ s, gst_imagesequencesrc_set_location_from_file env_playlists src_test_playlist
        = .ok (s, true) ∧
      ((1 : Int) ≤ 3 → s.fps_n = 3 ∧ s.fps_d = 1) ∧
      ((3 : Int) < 1 → s.fps_n = src_test_playlist.fps_n ∧ s.fps_d = src_test_playlist.fps_d) :=
  set_location_from_file_rate env_playlists src_test_playlist test_playlist_lines 3 1
    (by decide) (by decide) (by decide) (by decide) (by decide) (by decide) (by decide)

/-! ## C17: the default of the stop bound -/

/-- The probing loop returns when some candidate ahead of the counter is missing
and the counter has room up to it. -/
theorem parse_location_loop_total_gap (env : Env) (src : GstImageSequenceSrc) (n : Int)
    (hn : env.g_file_test (env.g_strdup_printf (src.location.getD "") n) = false) :
    ∀ (room : Nat) (i : Int) (acc : List String),
      i ≤ n → n - i < room → ∃ r, parse_location_loop env src room i acc = .ok r := by
  intro room
  induction room with
  | zero => intro i acc h1 h2; exact absurd h2 (by push_cast; omega)
  | succ room ih =>
    intro i acc h1 h2
    by_cases ht : env.g_file_test (env.g_strdup_printf (src.location.getD "") i) = true
    · have hne : i ≠ n := by
        intro h
        rw [h, hn] at ht
        exact Bool.noConfusion ht
      by_cases hb : src.stop_index > 0 ∧ i > src.stop_index
      · exact ⟨(i, acc), by simp only [parse_location_loop, _get_filename, ht, if_true,
          if_pos hb]⟩
      · simp only [parse_location_loop, _get_filename, ht, if_true, if_neg hb]
        exact ih _ _ (by omega) (by push_cast at h2; omega)
    · exact ⟨(i, acc), by simp only [parse_location_loop, _get_filename, ht,
        Bool.false_eq_true, if_false]⟩

/-- The two results of `gst_imagesequencesrc_set_location_from_file`: nothing
changes when the playlist is not read, and otherwise the list property is set to
some list and the rate fields to some values. -/
theorem set_location_from_file_shape (env : Env) (src : GstImageSequenceSrc) :
    (_get_lines env src.location = none ∧
      gst_imagesequencesrc_set_location_from_file env src = .ok (src, false)) ∨
    (∃ lines fl fn fd, _get_lines env src.location = some lines ∧
      gst_imagesequencesrc_set_location_from_file env src
        = .ok ({ with_filenames src fl with fps_n := fn, fps_d := fd }, true)) := by
  cases hl : _get_lines env src.location with
  | none =>
    left
    exact ⟨rfl, by simp only [gst_imagesequencesrc_set_location_from_file, hl]⟩
  | some lines =>
    right
    unfold gst_imagesequencesrc_set_location_from_file
    simp only [hl, set_property_filenames_eq]
    obtain ⟨fn, fd, h⟩ := g_object_set_framerate_frame env
      (with_filenames src
        (set_location_from_file_loop (_lines_get_strutures env lines)
          (env.indeterminate_fps, [])).2)
      (set_location_from_file_loop (_lines_get_strutures env lines)
          (env.indeterminate_fps, [])).1.1
      (set_location_from_file_loop (_lines_get_strutures env lines)
          (env.indeterminate_fps, [])).1.2
    exact ⟨lines, _, fn, fd, rfl, by rw [h]⟩

/-- The fallback of the playlist branch: with `stop_index = 0` the property
`stop-index` is set to the length of the list minus one. -/
theorem g_object_set_stop_index_default (env : Env) (src : GstImageSequenceSrc)
    (hlen : src.filenames.length ≤ 2147483648) :
    g_object_set_stop_index env src
        (to_gint ((g_list_length src.filenames + 4294967295) % 4294967296))
      = .ok { src with stop_index := (src.filenames.length : Int) - 1 } := by
  have hv : to_gint ((g_list_length src.filenames + 4294967295) % 4294967296)
      = (src.filenames.length : Int) - 1 := by
    unfold to_gint g_list_length
    split_ifs <;> omega
  rw [hv]
  unfold g_object_set_stop_index G_MAXINT
  rw [if_pos (by omega)]
  rfl

/-- C17 (as stated, refuted): playlist mode with `stop_index = -1`, a playlist
that cannot be read, and a list of two files from before.  Nothing is changed:
`stop_index` is `-1` after `gst_imagesequencesrc_parse_location` while the list has
two elements. -/
theorem parse_location_keeps_negative_stop_on_unread_playlist :
    src_stale_list.stop_index = -1 ∧
    _get_lines env_playlists src_stale_list.location = none ∧
    (gst_imagesequencesrc_parse_location env_playlists src_stale_list).map
        (fun s => (s.stop_index, s.filenames.length))
      = .ok (-1, 2) := by
  refine ⟨by decide, by decide, by decide⟩

/-- C17 (amended): with the stop bound unset (0) or negative (-1) at activation.
In pattern mode (`start_index >= 0`), every state that
`gst_imagesequencesrc_parse_location` returns has
`stop_index = len (filenames) - 1`, and the call returns when some candidate from
`start_index` up to `G_MAXINT` is missing.  In playlist mode the call returns, and
the state has `stop_index = len (filenames) - 1` (for a list of at most `2^31`
elements) when the playlist is read, or `stop_index` is 0, or the list was empty
before. -/
theorem parse_location_defaults_stop (env : Env) (src : GstImageSequenceSrc)
    (hstop : src.stop_index = 0 ∨ src.stop_index = -1) :
    ((src.location.getD "").toList.contains '%' = true → 0 ≤ src.start_index →
      (∀ s, gst_imagesequencesrc_parse_location env src = .ok s →
        s.stop_index = (s.filenames.length : Int) - 1) ∧
      (∀ n : Int, src.start_index ≤ n → n ≤ G_MAXINT →
        env.g_file_test (env.g_strdup_printf (src.location.getD "") n) = false →
        ∃ s, gst_imagesequencesrc_parse_location env src = .ok s)) ∧
    ((src.location.getD "").toList.contains '%' = false →
      ((_get_lines env src.location).isSome ∨ src.stop_index = 0 ∨ src.filenames = []) →
      ∃ s, gst_imagesequencesrc_parse_location env src = .ok s ∧
        (s.filenames.length ≤ 2147483648 →
          s.stop_index = (s.filenames.length : Int) - 1)) := by
  constructor
  · intro hpat hs0
    constructor
    · intro s h
      unfold gst_imagesequencesrc_parse_location at h
      simp only [hpat, if_true] at h
      split at h
      · cases h
      · rename_i i' fl hloop
        obtain ⟨m, hi', hfl, -⟩ := parse_location_loop_inv env _ _ _ _ _ _ hloop
        have hlen : fl.length = m := by rw [hfl]; simp
        try dsimp only at hi'
        try dsimp only at h
        split_ifs at h with ha
        · cases h
          dsimp only
          rw [hlen, hi']
          ring
        · cases h
          dsimp only
          have h0 : src.start_index = 0 := by omega
          rw [hlen, hi', h0]
          ring
    · intro n hn1 hn2 hmiss
      obtain ⟨r, hr⟩ := parse_location_loop_total_gap env
        { src with filenames := [] } n hmiss
        (G_MAXINT - src.start_index + 1).toNat src.start_index [] hn1 (by omega)
      unfold gst_imagesequencesrc_parse_location
      simp only [hpat, if_true]
      rw [hr]
      dsimp only
      split_ifs
      · exact ⟨_, rfl⟩
      · exact ⟨_, rfl⟩
  · intro hnpat hread
    unfold gst_imagesequencesrc_parse_location
    simp only [hnpat, Bool.false_eq_true, if_false]
    rcases set_location_from_file_shape env src with ⟨hnone, hres⟩ | ⟨lines, fl, fn, fd, -, hres⟩
    · rw [hres]
      dsimp only
      by_cases h0 : src.stop_index = 0
      · rw [if_pos h0]
        by_cases hlen : src.filenames.length ≤ 2147483648
        · rw [g_object_set_stop_index_default env src hlen]
          exact ⟨_, rfl, fun _ => rfl⟩
        · unfold g_object_set_stop_index
          split_ifs
          · exact ⟨_, rfl, fun h => absurd h hlen⟩
          · exact ⟨_, rfl, fun h => absurd h hlen⟩
      · rw [if_neg h0]
        have hempty : src.filenames = [] := by
          rcases hread with h | h | h
          · rw [hnone] at h; exact absurd h (by simp)
          · exact absurd h h0
          · exact h
        have hm1 : src.stop_index = -1 := by
          rcases hstop with h | h
          · exact absurd h h0
          · exact h
        exact ⟨src, rfl, fun _ => by rw [hempty, hm1]; rfl⟩
    · rw [hres]
      dsimp only
      by_cases hlen : fl.length ≤ 2147483648
      · have hstopS : (with_filenames src fl).stop_index = (fl.length : Int) - 1 ∨
            ((with_filenames src fl).stop_index = 0 ∧ fl.length = 0) := by
          unfold with_filenames
          dsimp only
          have hmod : fl.length % 4294967296 = fl.length := Nat.mod_eq_of_lt (by omega)
          rw [hmod]
          by_cases hpos : fl.length > 0
          · left
            have hc : (src.stop_index = 0 ∨ to_guint src.stop_index > fl.length) := by
              rcases hstop with h | h
              · exact Or.inl h
              · right
                rw [h]
                have : to_guint (-1) = 4294967295 := by decide
                rw [this]
                omega
            rw [if_pos ⟨hc, hpos⟩]
            unfold to_gint
            split_ifs <;> omega
          · have hz : fl.length = 0 := by omega
            rw [if_neg (fun h => hpos h.2)]
            rcases hstop with h | h
            · right; exact ⟨h, hz⟩
            · left; rw [h, hz]; rfl
        by_cases h0 : (with_filenames src fl).stop_index = 0
        · rw [if_pos h0]
          have hlen' : ({ with_filenames src fl with fps_n := fn, fps_d := fd } :
              GstImageSequenceSrc).filenames.length ≤ 2147483648 := hlen
          rw [g_object_set_stop_index_default env _ hlen']
          exact ⟨_, rfl, fun _ => rfl⟩
        · rw [if_neg h0]
          refine ⟨_, rfl, fun _ => ?_⟩
          rcases hstopS with h | h
          · exact h
          · exact absurd h.1 h0
      · by_cases h0 : (with_filenames src fl).stop_index = 0
        · rw [if_pos h0]
          unfold g_object_set_stop_index
          split_ifs
          · exact ⟨_, rfl, fun h => absurd h hlen⟩
          · exact ⟨_, rfl, fun h => absurd h hlen⟩
        · rw [if_neg h0]
          exact ⟨_, rfl, fun h => absurd h hlen⟩

/-- C17 (witness): `test.playlist` with `stop-index` set to `-1` resolves to
three files and `stop_index = 2`; the pattern `frame%d` with the number 2 missing
resolves to a state with `stop_index = len (filenames) - 1`. -/
theorem parse_location_defaults_stop_witness :
    (gst_imagesequencesrc_parse_location env_playlists src_test_playlist_unbounded).map
        (fun s => (s.stop_index, s.filenames.length)) = .ok (2, 3) ∧
    (∃ s, gst_imagesequencesrc_parse_location env_playlists src_test_playlist_unbounded
        = .ok s ∧
      (s.filenames.length ≤ 2147483648 → s.stop_index = (s.filenames.length : Int) - 1)) ∧
    (∀ s, gst_imagesequencesrc_parse_location env_frames src_frames = .ok s →
      s.stop_index = (s.filenames.length : Int) - 1) ∧
    (∀ n : Int, src_frames.start_index ≤ n → n ≤ G_MAXINT →
      env_frames.g_file_test
        (env_frames.g_strdup_printf (src_frames.location.getD "") n) = false →
      ∃ s, gst_imagesequencesrc_parse_location env_frames src_frames = .ok s) :=
  ⟨by decide,
    (parse_location_defaults_stop env_playlists src_test_playlist_unbounded
      (by decide)).2 (by decide) (by decide),
    (parse_location_defaults_stop env_frames src_frames (by decide)).1 (by decide)
      (by decide)⟩

/-! ## C18: seeking -/

/-- Every call that returns `GST_FLOW_OK` stores a buffer, and the buffer holds
the bytes of the file at the node that the call reads. -/
theorem create_ok_data (env : Env) (src s' : GstImageSequenceSrc) (b : Option GstBuffer)
    (h : gst_imagesequencesrc_create env src = .ok (.GST_FLOW_OK, b, s')) :
    ∃ filename next buf, b = some buf ∧ node_to_read src = filename :: next ∧
      env.g_file_get_contents filename = some buf.data := by
  unfold gst_imagesequencesrc_create at h
  by_cases hL : src.filenames = []
  · rw [if_pos hL] at h
    simp at h
  rw [if_neg hL] at h
  by_cases hw : src.index > src.stop_index ∧ src.loop = false
  · rw [if_pos hw] at h
    simp at h
  rw [if_neg hw] at h
  dsimp only at h
  have hnode : node_to_read src
      = (if (if src.index > src.stop_index then
              ({ src with index := src.start_index } : GstImageSequenceSrc) else src).index
            = (if src.index > src.stop_index then
              ({ src with index := src.start_index } : GstImageSequenceSrc)
                else src).start_index then
          ({ (if src.index > src.stop_index then
              ({ src with index := src.start_index } : GstImageSequenceSrc) else src) with
            iter_list := g_list_nth
              (if src.index > src.stop_index then
                ({ src with index := src.start_index } : GstImageSequenceSrc)
                  else src).filenames
              (to_guint (if src.index > src.stop_index then
                ({ src with index := src.start_index } : GstImageSequenceSrc)
                  else src).index) } : GstImageSequenceSrc)
        else (if src.index > src.stop_index then
              ({ src with index := src.start_index } : GstImageSequenceSrc)
                else src)).iter_list := by
    unfold node_to_read
    dsimp only
    by_cases h1 : src.index > src.stop_index
    · simp only [h1, if_true]
    · simp only [h1, if_false]
      by_cases h2 : src.index = src.start_index
      · simp only [h2, if_true]
      · simp only [h2, if_false]
  rw [← hnode] at h
  split at h
  · cases h
  · rename_i filename next hiter
    split at h
    · simp at h
    · rename_i data hread
      split at h
      · cases h
      · simp only [Except.ok.injEq, Prod.mk.injEq, true_and] at h
        exact ⟨filename, next, _, h.1.symm, hiter, hread⟩

/-- What no call changes, and what a call that returns `GST_FLOW_ERROR` or
`GST_FLOW_EOS` leaves: no buffer, the cumulative offset as it was, and the cursor
wrapped (error after a wrap), unchanged (error otherwise) or decremented (end of
stream). -/
theorem create_frame (env : Env) (src s' : GstImageSequenceSrc) (r : GstFlowReturn)
    (b : Option GstBuffer)
    (h : gst_imagesequencesrc_create env src = .ok (r, b, s')) :
    s'.filenames = src.filenames ∧ s'.start_index = src.start_index ∧
      s'.stop_index = src.stop_index ∧ s'.loop = src.loop ∧
      s'.fps_n = src.fps_n ∧ s'.fps_d = src.fps_d ∧
      (r = .GST_FLOW_ERROR → b = none ∧ s'.offset = src.offset ∧
        s'.index = (if src.filenames ≠ [] ∧ src.index > src.stop_index
          then src.start_index else src.index)) ∧
      (r = .GST_FLOW_EOS → b = none ∧ s'.offset = src.offset ∧
        s'.index = src.index - 1 ∧ src.index > src.stop_index ∧ src.loop = false) := by
  obtain ⟨loc, uri, L, it, idx, a, b0, fn, fd, lp, dur, off, caps⟩ := src
  dsimp only
  by_cases hL : L = []
  · simp only [gst_imagesequencesrc_create, hL, if_true, Except.ok.injEq, Prod.mk.injEq] at h
    obtain ⟨rfl, rfl, rfl⟩ := h
    simp [hL]
  by_cases hw : b0 < idx
  · cases lp
    · simp [gst_imagesequencesrc_create, hL, hw] at h
      obtain ⟨rfl, rfl, rfl⟩ := h
      simp [hw]
    · simp [gst_imagesequencesrc_create, hL, hw] at h
      split at h
      · simp at h
      · split at h
        · simp only [Except.ok.injEq, Prod.mk.injEq] at h
          obtain ⟨rfl, rfl, rfl⟩ := h
          simp [hw, hL]
        · split at h
          · simp at h
          · rename_i hlatch
            have hf := latch_frame _ _ _ _ hlatch
            simp only [Except.ok.injEq, Prod.mk.injEq] at h
            obtain ⟨rfl, rfl, rfl⟩ := h
            simp [hf]
  · by_cases hs : idx = a
    · subst hs
      simp [gst_imagesequencesrc_create, hL, hw] at h
      split at h
      · simp at h
      · split at h
        · simp only [Except.ok.injEq, Prod.mk.injEq] at h
          obtain ⟨rfl, rfl, rfl⟩ := h
          simp [hw, hL]
        · split at h
          · simp at h
          · rename_i hlatch
            have hf := latch_frame _ _ _ _ hlatch
            simp only [Except.ok.injEq, Prod.mk.injEq] at h
            obtain ⟨rfl, rfl, rfl⟩ := h
            simp [hf]
    · simp [gst_imagesequencesrc_create, hL, hw, hs] at h
      split at h
      · simp at h
      · split at h
        · simp only [Except.ok.injEq, Prod.mk.injEq] at h
          obtain ⟨rfl, rfl, rfl⟩ := h
          simp [hw, hL]
        · simp only [Except.ok.injEq, Prod.mk.injEq] at h
          obtain ⟨rfl, rfl, rfl⟩ := h
          simp

/-- An element of a validated window is in the list. -/
theorem validated_start_unit (src : GstImageSequenceSrc) (hv : validated src) :
    ∃ f, src.filenames[src.start_index.toNat]? = some f := by
  obtain ⟨_, h0, h1, h2⟩ := hv
  have hlt : src.start_index.toNat < src.filenames.length := by omega
  exact ⟨src.filenames[src.start_index.toNat], List.getElem?_eq_getElem hlt⟩

/-- C18.  Seeking goes back to the start: `do_seek` returns `TRUE` and puts the
cursor at `start_index`.  For any state with a validated window, whatever its
cursor and iterator (mid-stream, after a wrap, after `GST_FLOW_EOS`), and `f` the
name at `start_index`: if the call of `gst_imagesequencesrc_create` that follows
the seek returns `GST_FLOW_OK`, its buffer holds the bytes read from `f`, with PTS
and DTS 0, and the cursor is at `start_index + 1`; and the call does return
`GST_FLOW_OK` with that buffer whenever `f` is readable and the caps are latched
or the type of the bytes is found.  With the names released by earlier failed
reads taken into account, the seek and the call return with exactly that buffer
whenever the name at `start_index` has not been released. -/
theorem do_seek_resets_to_start (env : Env) (src : GstImageSequenceSrc)
    (hv : validated src) (hmax : src.start_index ≤ G_MAXINT) :
    (do_seek src).2 = true ∧ (do_seek src).1.index = src.start_index ∧
      ∃ f, src.filenames[src.start_index.toNat]? = some f ∧
        (∀ (b : Option GstBuffer) (s' : GstImageSequenceSrc),
          gst_imagesequencesrc_create env (do_seek src).1 = .ok (.GST_FLOW_OK, b, s') →
          ∃ buf, b = some buf ∧ env.g_file_get_contents f = some buf.data ∧
            buf.pts = 0 ∧ buf.dts = 0 ∧ s'.index = src.start_index + 1) ∧
        (∀ data, env.g_file_get_contents f = some data →
          (src.caps = none → env.gst_type_find_helper_for_buffer data ≠ none) →
          ∃ buf s', gst_imagesequencesrc_create env (do_seek src).1
              = .ok (.GST_FLOW_OK, some buf, s') ∧
            buf.data = data ∧ buf.pts = 0 ∧ buf.dts = 0 ∧
            s'.index = src.start_index + 1) ∧
        (∀ (released : List Nat) data, src.start_index.toNat ∉ released →
          env.g_file_get_contents f = some data →
          (src.caps = none → env.gst_type_find_helper_for_buffer data ≠ none) →
          ∃ buf s', run_from released src [.do_seek, .create env]
              = .ok ([buf], s', released) ∧
            buf.data = data ∧ buf.pts = 0 ∧ buf.dts = 0 ∧
            s'.index = src.start_index + 1) := by
  obtain ⟨f, hfget⟩ := validated_start_unit src hv
  obtain ⟨hne, h0, hle, hlen⟩ := hv
  have hnth := g_list_nth_in_range src.filenames src.start_index f h0 hmax hfget
  have hi : (do_seek src).1.index = src.start_index := rfl
  have ha : (do_seek src).1.start_index = src.start_index := rfl
  have hb : (do_seek src).1.stop_index = src.stop_index := rfl
  have hf : (do_seek src).1.filenames = src.filenames := rfl
  have hc : (do_seek src).1.caps = src.caps := rfl
  have hng : ¬ (do_seek src).1.index > (do_seek src).1.stop_index := by
    rw [hi, hb]
    omega
  have hnode2 : node_to_read (do_seek src).1
      = f :: src.filenames.drop (src.start_index.toNat + 1) := by
    unfold node_to_read
    simp only [hi, ha, hf, ite_self, if_true]
    exact hnth
  have key : ∀ (buf : GstBuffer) (s' : GstImageSequenceSrc),
      gst_imagesequencesrc_create env (do_seek src).1 = .ok (.GST_FLOW_OK, some buf, s') →
      buf.pts = 0 ∧ buf.dts = 0 ∧ s'.index = src.start_index + 1 := by
    intro buf s' hcreate
    obtain ⟨hpts, hdts, hidx, hst, -⟩ := create_ok_stamp env (do_seek src).1 s' buf hcreate
    rw [if_neg hng, hi] at hidx
    rw [ha] at hst
    have hz : s'.index - 1 - s'.start_index = 0 := by omega
    have hp0 : buf.pts = 0 := by
      rw [hpts, hz]
      simp [to_guint64]
    exact ⟨hp0, by rw [hdts, hp0], hidx⟩
  have hexists : ∀ data, env.g_file_get_contents f = some data →
      (src.caps = none → env.gst_type_find_helper_for_buffer data ≠ none) →
      ∃ buf s', gst_imagesequencesrc_create env (do_seek src).1
          = .ok (.GST_FLOW_OK, some buf, s') ∧
        buf.data = data ∧ buf.pts = 0 ∧ buf.dts = 0 ∧
        s'.index = src.start_index + 1 := by
    intro data hread htype
    have hiter : (if (do_seek src).1.index = (do_seek src).1.start_index then
        g_list_nth (do_seek src).1.filenames (to_guint (do_seek src).1.index)
        else (do_seek src).1.iter_list) = f :: src.filenames.drop (src.start_index.toNat + 1) := by
      rw [if_pos (hi.trans ha.symm)]
      exact hnth
    obtain ⟨buf, s', hcreate, hdata, -⟩ := create_ok env (do_seek src).1 f _ data hne
      (by rw [hi, hb]; exact hle) hiter hread (fun _ hcn => htype (hc ▸ hcn))
    obtain ⟨h1, h2, h3⟩ := key buf s' hcreate
    exact ⟨buf, s', hcreate, hdata, h1, h2, h3⟩
  refine ⟨rfl, rfl, f, hfget, ?_, hexists, ?_⟩
  · intro b s' hcreate
    obtain ⟨filename, next, buf, hbuf, hnode, hread⟩ :=
      create_ok_data env (do_seek src).1 s' b hcreate
    subst hbuf
    rw [hnode2] at hnode
    have hfe : f = filename := (List.cons.inj hnode).1
    subst hfe
    obtain ⟨h1, h2, h3⟩ := key buf s' hcreate
    exact ⟨buf, rfl, hread, h1, h2, h3⟩
  · intro released data hrel hread htype
    obtain ⟨buf, s', hcreate, hdata, h1, h2, h3⟩ := hexists data hread htype
    have hpos : node_position (do_seek src).1 = some src.start_index.toNat := by
      unfold node_position
      rw [if_neg (by rw [hf]; exact hne), if_neg (fun h => hng h.1), hnode2, hf]
      have hlt : src.start_index.toNat < src.filenames.length := by omega
      simp only [List.length_cons, List.length_drop, Option.some.injEq]
      omega
    have hnot : reads_released released (do_seek src).1 = false := by
      unfold reads_released
      rw [hpos]
      simpa using hrel
    have hrelease : release released (do_seek src).1 .GST_FLOW_OK = released := by
      unfold release
      rw [hpos]
    refine ⟨buf, s', ?_, hdata, h1, h2, h3⟩
    simp only [run_from, hnot, hcreate, hrelease, Bool.false_eq_true, if_false,
      Option.toList, List.append_nil]

theorem do_seek_resets_to_start_witness :
    validated src_pixels_wrap ∧ src_pixels_wrap.start_index ≤ G_MAXINT ∧
      ((do_seek src_pixels_wrap).2 = true ∧
        (do_seek src_pixels_wrap).1.index = src_pixels_wrap.start_index ∧
        ∃ f, src_pixels_wrap.filenames[src_pixels_wrap.start_index.toNat]? = some f ∧
          (∀ (b : Option GstBuffer) (s' : GstImageSequenceSrc),
            gst_imagesequencesrc_create env_pixels (do_seek src_pixels_wrap).1
              = .ok (.GST_FLOW_OK, b, s') →
            ∃ buf, b = some buf ∧ env_pixels.g_file_get_contents f = some buf.data ∧
              buf.pts = 0 ∧ buf.dts = 0 ∧ s'.index = src_pixels_wrap.start_index + 1) ∧
          (∀ data, env_pixels.g_file_get_contents f = some data →
            (src_pixels_wrap.caps = none →
              env_pixels.gst_type_find_helper_for_buffer data ≠ none) →
            ∃ buf s', gst_imagesequencesrc_create env_pixels (do_seek src_pixels_wrap).1
                = .ok (.GST_FLOW_OK, some buf, s') ∧
              buf.data = data ∧ buf.pts = 0 ∧ buf.dts = 0 ∧
              s'.index = src_pixels_wrap.start_index + 1) ∧
          (∀ (released : List Nat) data, src_pixels_wrap.start_index.toNat ∉ released →
            env_pixels.g_file_get_contents f = some data →
            (src_pixels_wrap.caps = none →
              env_pixels.gst_type_find_helper_for_buffer data ≠ none) →
            ∃ buf s', run_from released src_pixels_wrap [.do_seek, .create env_pixels]
                = .ok ([buf], s', released) ∧
              buf.data = data ∧ buf.pts = 0 ∧ buf.dts = 0 ∧
              s'.index = src_pixels_wrap.start_index + 1)) ∧
      (gst_imagesequencesrc_create env_pixels (do_seek src_pixels_wrap).1).map
          (fun r => (r.1, r.2.1, r.2.2.index))
        = .ok (.GST_FLOW_OK,
            some { data := [255, 216, 1], pts := 0, dts := 0, offset := 9, offset_end := 12 },
            1) ∧
      (gst_imagesequencesrc_create env_pixels (do_seek src_pixels_stop1_after_eos).1).map
          (fun r => (r.1, r.2.1, r.2.2.index))
        = .ok (.GST_FLOW_OK,
            some { data := [255, 216, 1], pts := 0, dts := 0, offset := 6, offset_end := 9 },
            1) ∧
      (gst_imagesequencesrc_create env_pixels (do_seek src_pixels_end).1).map
          (fun r => (r.1, r.2.1, r.2.2.index))
        = .ok (.GST_FLOW_OK,
            some { data := [255, 216, 1], pts := 0, dts := 0, offset := 9, offset_end := 12 },
            1) ∧
      (run_from [2] src_pixels_wrap [.do_seek, .create env_pixels]).map
          (fun q => (q.1, q.2.1.index, q.2.2))
        = .ok ([{ data := [255, 216, 1], pts := 0, dts := 0, offset := 9, offset_end := 12 }],
            1, [2]) :=
  ⟨by decide, by decide,
    do_seek_resets_to_start env_pixels src_pixels_wrap (by decide) (by decide),
    by decide, by decide, by decide, by decide⟩

/-! ## C19: the end transition -/

/-- C19.  With a non-empty list, `loop` unset and the cursor one past
`stop_index`, `gst_imagesequencesrc_create` returns `GST_FLOW_EOS` without a
buffer; the state after the call is the state before it with the cursor at
`stop_index`: the bounds, the list, the latched duration and the cumulative byte
offset are the same. -/
theorem create_end_transition (env : Env) (src : GstImageSequenceSrc)
    (hne : src.filenames ≠ []) (hloop : src.loop = false)
    (hidx : src.index = src.stop_index + 1) :
    ∃ s', gst_imagesequencesrc_create env src = .ok (.GST_FLOW_EOS, none, s') ∧
      s' = { src with index := src.stop_index } ∧
      s'.index = src.stop_index ∧ s'.start_index = src.start_index ∧
      s'.stop_index = src.stop_index ∧ s'.filenames = src.filenames ∧
      s'.duration = src.duration ∧ s'.offset = src.offset := by
  refine ⟨{ src with index := src.stop_index }, ?_, rfl, rfl, rfl, rfl, rfl, rfl, rfl⟩
  rw [create_eos env src hne (by omega) hloop]
  have h1 : src.index - 1 = src.stop_index := by omega
  rw [h1]

theorem create_end_transition_witness :
    src_pixels_end.filenames ≠ [] ∧ src_pixels_end.loop = false ∧
      src_pixels_end.index = src_pixels_end.stop_index + 1 ∧
      ∃ s', gst_imagesequencesrc_create env_pixels src_pixels_end
          = .ok (.GST_FLOW_EOS, none, s') ∧
        s' = { src_pixels_end with index := src_pixels_end.stop_index } ∧
        s'.index = src_pixels_end.stop_index ∧
        s'.start_index = src_pixels_end.start_index ∧
        s'.stop_index = src_pixels_end.stop_index ∧
        s'.filenames = src_pixels_end.filenames ∧
        s'.duration = src_pixels_end.duration ∧ s'.offset = src_pixels_end.offset :=
  ⟨by decide, by decide, by decide,
    create_end_transition env_pixels src_pixels_end (by decide) (by decide) (by decide)⟩

/-! ## C20: byte ranges -/

/-- The byte range of one call: a buffer that is emitted starts at the cumulative
offset, ends its size later, and the cumulative offset moves to its end; a call
that emits nothing leaves the cumulative offset. -/
theorem create_offsets (env : Env) (src s' : GstImageSequenceSrc) (r : GstFlowReturn)
    (b : Option GstBuffer)
    (h : gst_imagesequencesrc_create env src = .ok (r, b, s')) :
    (∀ buf, b = some buf → buf.offset = src.offset ∧
        buf.offset_end = src.offset + buf.data.length ∧ s'.offset = buf.offset_end) ∧
      (b = none → s'.offset = src.offset) := by
  cases r with
  | GST_FLOW_OK =>
    obtain ⟨_, _, buf, hbuf, _, _⟩ := create_ok_data env src s' b h
    subst hbuf
    obtain ⟨-, -, -, -, -, -, -, -, -, h1, h2, h3, -⟩ := create_ok_stamp env src s' buf h
    refine ⟨?_, by simp⟩
    intro buf' hb
    cases hb
    exact ⟨h1, h2, h3⟩
  | GST_FLOW_EOS =>
    obtain ⟨-, -, -, -, -, -, -, heos⟩ := create_frame env src s' _ b h
    obtain ⟨hb, ho, -⟩ := heos rfl
    subst hb
    exact ⟨by simp, fun _ => ho⟩
  | GST_FLOW_ERROR =>
    obtain ⟨-, -, -, -, -, -, herr, -⟩ := create_frame env src s' _ b h
    obtain ⟨hb, ho, -⟩ := herr rfl
    subst hb
    exact ⟨by simp, fun _ => ho⟩

/-- C20.  Byte ranges are contiguous.  For the buffers emitted by any sequence of
`create` and `do_seek` calls that returns (whatever the calls return in between,
and whichever names were released before): every buffer ends its size after its
start, the first buffer starts at the cumulative offset of the initial state,
each later buffer starts where the buffer before it ends, and the cumulative
offset after the calls is the initial one plus the sizes of the buffers emitted,
which is the end of the last buffer; it never decreases. -/
theorem byte_ranges_contiguous (cs : List Call) :
    ∀ (released released' : List Nat) (src s : GstImageSequenceSrc) (bs : List GstBuffer),
      run_from released src cs = .ok (bs, s, released') →
      List.Chain' (fun b1 b2 : GstBuffer => b2.offset = b1.offset_end) bs ∧
        (∀ b ∈ bs, b.offset_end = b.offset + b.data.length) ∧
        (∀ b, bs.head? = some b → b.offset = src.offset) ∧
        s.offset = src.offset + (bs.map (fun b => b.data.length)).sum ∧
        (∀ b, bs.getLast? = some b → s.offset = b.offset_end) ∧
        src.offset ≤ s.offset := by
  induction cs with
  | nil =>
    intro released released' src s bs h
    simp only [run_from, Except.ok.injEq, Prod.mk.injEq] at h
    obtain ⟨rfl, rfl, -⟩ := h
    simp
  | cons c cs ih =>
    intro released released' src s bs h
    cases c with
    | do_seek =>
      simp only [run_from] at h
      exact ih released released' (do_seek src).1 s bs h
    | create env =>
      simp only [run_from] at h
      split at h
      · simp at h
      · split at h
        · simp at h
        · rename_i r hr
          obtain ⟨fr, b, s1⟩ := r
          dsimp only at h
          split at h
          · simp at h
          · rename_i q hq
            obtain ⟨bs1, s2, rel2⟩ := q
            simp only [Except.ok.injEq, Prod.mk.injEq] at h
            obtain ⟨hbs, hs, -⟩ := h
            subst hs
            subst hbs
            obtain ⟨hchain, hsize, hhead, hsum, hlast, -⟩ := ih _ _ s1 s2 bs1 hq
            obtain ⟨hsome, hnone⟩ := create_offsets env src s1 fr b hr
            cases b with
            | none =>
              have ho := hnone rfl
              simp only [Option.toList, List.nil_append]
              rw [ho] at hhead hsum
              exact ⟨hchain, hsize, hhead, hsum, hlast, by omega⟩
            | some buf =>
              obtain ⟨ho, hoe, hso⟩ := hsome buf rfl
              simp only [Option.toList, List.singleton_append]
              refine ⟨?_, ?_, ?_, ?_, ?_, ?_⟩
              · rw [List.chain'_cons']
                refine ⟨?_, hchain⟩
                intro y hy
                rw [hhead y (by simpa using hy), hso]
              · intro b hb
                rcases List.mem_cons.mp hb with rfl | hb
                · rw [hoe, ho]
                · exact hsize b hb
              · intro b hb
                simp only [List.head?_cons, Option.some.injEq] at hb
                subst hb
                exact ho
              · simp only [List.map_cons, List.sum_cons]
                rw [hsum, hso, hoe]
                omega
              · intro b hb
                cases bs1 with
                | nil =>
                  simp only [List.getLast?_singleton, Option.some.injEq] at hb
                  subst hb
                  simp only [List.map_nil, List.sum_nil, Nat.add_zero] at hsum
                  rw [hsum, hso]
                | cons b1 bs2 =>
                  rw [List.getLast?_cons_cons] at hb
                  exact hlast b hb
              · rw [hsum, hso, hoe]
                omega

theorem byte_ranges_contiguous_witness :
    run_from [] src_pixels calls_pixels = .ok (buffers_pixels, src_pixels_after_calls, [1]) ∧
      (List.Chain' (fun b1 b2 : GstBuffer => b2.offset = b1.offset_end) buffers_pixels ∧
        (∀ b ∈ buffers_pixels, b.offset_end = b.offset + b.data.length) ∧
        (∀ b, buffers_pixels.head? = some b → b.offset = src_pixels.offset) ∧
        src_pixels_after_calls.offset
          = src_pixels.offset + (buffers_pixels.map (fun b => b.data.length)).sum ∧
        (∀ b, buffers_pixels.getLast? = some b → src_pixels_after_calls.offset = b.offset_end) ∧
        src_pixels.offset ≤ src_pixels_after_calls.offset) ∧
      run_from [] src_pixels_loop calls_pixels_loop
        = .ok (buffers_pixels_loop, src_pixels_loop_after_calls, []) ∧
      (List.Chain' (fun b1 b2 : GstBuffer => b2.offset = b1.offset_end) buffers_pixels_loop ∧
        (∀ b ∈ buffers_pixels_loop, b.offset_end = b.offset + b.data.length) ∧
        (∀ b, buffers_pixels_loop.head? = some b → b.offset = src_pixels_loop.offset) ∧
        src_pixels_loop_after_calls.offset
          = src_pixels_loop.offset + (buffers_pixels_loop.map (fun b => b.data.length)).sum ∧
        (∀ b, buffers_pixels_loop.getLast? = some b →
          src_pixels_loop_after_calls.offset = b.offset_end) ∧
        src_pixels_loop.offset ≤ src_pixels_loop_after_calls.offset) :=
  ⟨by rfl,
    byte_ranges_contiguous calls_pixels [] [1] src_pixels src_pixels_after_calls
      buffers_pixels (by rfl),
    by rfl,
    byte_ranges_contiguous calls_pixels_loop [] [] src_pixels_loop src_pixels_loop_after_calls
      buffers_pixels_loop (by rfl)⟩

/-- A session that goes on reading after a failed read does not return: the
failed read of the third image releases its name, and the next call reads it. -/
theorem run_reads_released_name :
    run_from [] src_pixels calls_reread = .error .use_after_free := by
  rfl

/-! ## C21: the duration query -/

/-- The caps and the duration are written by the first frame only: a call that
does not return `GST_FLOW_OK`, and any call made when the caps are set, leaves
both. -/
theorem create_latch (env : Env) (src s' : GstImageSequenceSrc) (r : GstFlowReturn)
    (b : Option GstBuffer)
    (h : gst_imagesequencesrc_create env src = .ok (r, b, s')) :
    (r ≠ .GST_FLOW_OK → s'.caps = src.caps ∧ s'.duration = src.duration) ∧
      (src.caps ≠ none → s'.caps = src.caps ∧ s'.duration = src.duration) := by
  obtain ⟨loc, uri, L, it, idx, a, b0, fn, fd, lp, dur, off, caps⟩ := src
  dsimp only
  by_cases hL : L = []
  · simp only [gst_imagesequencesrc_create, hL, if_true, Except.ok.injEq, Prod.mk.injEq] at h
    obtain ⟨rfl, rfl, rfl⟩ := h
    simp
  by_cases hw : b0 < idx
  · cases lp
    · simp [gst_imagesequencesrc_create, hL, hw] at h
      obtain ⟨rfl, rfl, rfl⟩ := h
      simp
    · simp [gst_imagesequencesrc_create, hL, hw] at h
      split at h
      · simp at h
      · split at h
        · simp only [Except.ok.injEq, Prod.mk.injEq] at h
          obtain ⟨rfl, rfl, rfl⟩ := h
          simp
        · split at h
          · simp at h
          · rename_i hlatch
            simp only [Except.ok.injEq, Prod.mk.injEq] at h
            obtain ⟨rfl, rfl, rfl⟩ := h
            refine ⟨by simp, ?_⟩
            intro hc
            rw [if_neg hc] at hlatch
            cases hlatch
            exact ⟨rfl, rfl⟩
  · by_cases hs : idx = a
    · subst hs
      simp [gst_imagesequencesrc_create, hL, hw] at h
      split at h
      · simp at h
      · split at h
        · simp only [Except.ok.injEq, Prod.mk.injEq] at h
          obtain ⟨rfl, rfl, rfl⟩ := h
          simp
        · split at h
          · simp at h
          · rename_i hlatch
            simp only [Except.ok.injEq, Prod.mk.injEq] at h
            obtain ⟨rfl, rfl, rfl⟩ := h
            refine ⟨by simp, ?_⟩
            intro hc
            rw [if_neg hc] at hlatch
            cases hlatch
            exact ⟨rfl, rfl⟩
    · simp [gst_imagesequencesrc_create, hL, hw, hs] at h
      split at h
      · simp at h
      · split at h
        · simp only [Except.ok.injEq, Prod.mk.injEq] at h
          obtain ⟨rfl, rfl, rfl⟩ := h
          simp
        · simp only [Except.ok.injEq, Prod.mk.injEq] at h
          obtain ⟨rfl, rfl, rfl⟩ := h
          simp

/-- One `create` call that emits nothing, made with the cursor at `start_index`
of a validated window: the window and the cursor are as before. -/
theorem create_silent_at_start (env : Env) (s0 s1 : GstImageSequenceSrc) (fr : GstFlowReturn)
    (hv : validated s0) (hidx : s0.index = s0.start_index)
    (h : gst_imagesequencesrc_create env s0 = .ok (fr, none, s1)) :
    fr ≠ .GST_FLOW_OK ∧ validated s1 ∧ s1.index = s1.start_index ∧
      s1.start_index = s0.start_index ∧ s1.stop_index = s0.stop_index ∧
      s1.fps_n = s0.fps_n ∧ s1.fps_d = s0.fps_d := by
  obtain ⟨hf, ha, hb0, -, hn, hd, herr, heos⟩ := create_frame env s0 s1 fr none h
  have hfr : fr ≠ .GST_FLOW_OK := by
    intro hok
    subst hok
    obtain ⟨_, _, buf, hbuf, _, _⟩ := create_ok_data env s0 s1 none h
    simp at hbuf
  have hidx1 : s1.index = s1.start_index := by
    cases fr with
    | GST_FLOW_OK => exact absurd rfl hfr
    | GST_FLOW_EOS =>
      obtain ⟨_, _, _, hgt, _⟩ := heos rfl
      obtain ⟨_, _, hle, _⟩ := hv
      omega
    | GST_FLOW_ERROR =>
      obtain ⟨_, _, hi⟩ := herr rfl
      rw [hi, ha]
      split_ifs with hc
      · rfl
      · exact hidx
  have hv1 : validated s1 := by
    unfold validated at hv ⊢
    rw [hf, ha, hb0]
    exact hv
  exact ⟨hfr, hv1, hidx1, ha, hb0, hn, hd⟩

/-- The duration stored in the state along a run: it is never written once the
caps are set, and from a validated activation without caps it is the stored
one until a buffer is emitted and the total duration afterwards. -/
theorem run_duration (cs : List Call) :
    ∀ (released released' : List Nat) (s0 s : GstImageSequenceSrc) (bs : List GstBuffer),
      run_from released s0 cs = .ok (bs, s, released') →
      (s0.caps ≠ none → s.duration = s0.duration) ∧
        (validated s0 → s0.index = s0.start_index → s0.caps = none →
          (bs = [] → s.duration = s0.duration) ∧
            (bs ≠ [] → s.duration = (gst_imagesequencesrc_set_duration s0).duration)) := by
  induction cs with
  | nil =>
    intro released released' s0 s bs h
    simp only [run_from, Except.ok.injEq, Prod.mk.injEq] at h
    obtain ⟨rfl, rfl, -⟩ := h
    simp
  | cons c cs ih =>
    intro released released' s0 s bs h
    cases c with
    | do_seek =>
      simp only [run_from] at h
      obtain ⟨h1, h2⟩ := ih released released' (do_seek s0).1 s bs h
      exact ⟨h1, fun hv _ hc => h2 hv rfl hc⟩
    | create env =>
      simp only [run_from] at h
      split at h
      · simp at h
      · split at h
        · simp at h
        · rename_i r hr
          obtain ⟨fr, b, s1⟩ := r
          dsimp only at h
          split at h
          · simp at h
          · rename_i q hq
            obtain ⟨bs1, s2, rel2⟩ := q
            simp only [Except.ok.injEq, Prod.mk.injEq] at h
            obtain ⟨hbs, hs, -⟩ := h
            subst hs
            subst hbs
            obtain ⟨ih1, ih2⟩ := ih _ _ s1 s2 bs1 hq
            obtain ⟨hl1, hl2⟩ := create_latch env s0 s1 fr b hr
            refine ⟨?_, ?_⟩
            · intro hc
              obtain ⟨hc1, hd1⟩ := hl2 hc
              rw [ih1 (by rw [hc1]; exact hc), hd1]
            · intro hv hidx hc
              cases b with
              | none =>
                obtain ⟨hfr, hv1, hidx1, ha, hb0, hn, hd⟩ :=
                  create_silent_at_start env s0 s1 fr hv hidx hr
                obtain ⟨hc1, hd1⟩ := hl1 hfr
                obtain ⟨k1, k2⟩ := ih2 hv1 hidx1 (by rw [hc1]; exact hc)
                simp only [Option.toList, List.nil_append]
                refine ⟨fun he => (k1 he).trans hd1, fun he => ?_⟩
                rw [k2 he]
                simp only [gst_imagesequencesrc_set_duration, ha, hb0, hn, hd]
              | some buf =>
                have hfr : fr = .GST_FLOW_OK := by
                  obtain ⟨-, -, -, -, -, -, herr, heos⟩ := create_frame env s0 s1 fr _ hr
                  cases fr with
                  | GST_FLOW_OK => rfl
                  | GST_FLOW_EOS => exact absurd (heos rfl).1 (by simp)
                  | GST_FLOW_ERROR => exact absurd (herr rfl).1 (by simp)
                subst hfr
                obtain ⟨hd1, hc1⟩ := create_latches_duration env s0 s1 buf hidx hc hr
                simp only [Option.toList, List.singleton_append]
                refine ⟨fun he => absurd he (by simp), fun _ => ?_⟩
                rw [ih1 hc1, hd1]

/-- C21.  A duration query in the format TIME is answered `TRUE` in every state
`q`, with the value -1 (unknown) when `loop` is set or the list is empty and with
the stored duration otherwise.  The stored duration is `GST_CLOCK_TIME_NONE`
(which reads -1 as well) after `gst_imagesequencesrc_init`, stays so along any
calls from a validated activation that have emitted no buffer, and is the total
duration computed by `gst_imagesequencesrc_set_duration` once a buffer has been
emitted. -/
theorem query_duration (parent_class_query : GstQuery → Bool)
    (q src s : GstImageSequenceSrc) (cs : List Call) (bs : List GstBuffer)
    (released released' : List Nat)
    (hv : validated src) (hidx : src.index = src.start_index) (hcaps : src.caps = none)
    (hdur : src.duration = GST_CLOCK_TIME_NONE)
    (hrun : run_from released src cs = .ok (bs, s, released')) :
    gst_imagesequencesrc_query parent_class_query q (.GST_QUERY_DURATION .GST_FORMAT_TIME)
        = (true, some (if q.loop = true ∨ q.filenames = [] then -1
            else to_gint64 q.duration)) ∧
      gst_imagesequencesrc_init.duration = GST_CLOCK_TIME_NONE ∧
      to_gint64 GST_CLOCK_TIME_NONE = -1 ∧
      (q.duration < 9223372036854775808 → to_gint64 q.duration = (q.duration : Int)) ∧
      (bs = [] → s.duration = GST_CLOCK_TIME_NONE) ∧
      (bs ≠ [] → s.duration = (gst_imagesequencesrc_set_duration src).duration) := by
  obtain ⟨-, h2⟩ := run_duration cs released released' src s bs hrun
  obtain ⟨k1, k2⟩ := h2 hv hidx hcaps
  refine ⟨?_, rfl, by decide, ?_, fun he => (k1 he).trans hdur, k2⟩
  · unfold gst_imagesequencesrc_query
    dsimp only
    by_cases hl : q.loop = true
    · simp [hl]
    · by_cases hf : q.filenames = []
      · simp [hf]
      · have hl2 : q.loop = false := by simpa using hl
        simp [hl2, hf]
  · intro hlt
    unfold to_gint64
    have hm : q.duration % 18446744073709551616 = q.duration := Nat.mod_eq_of_lt (by omega)
    rw [hm, if_pos hlt]

theorem query_duration_witness :
    validated src_pixels ∧ src_pixels.index = src_pixels.start_index ∧
      src_pixels.caps = none ∧ src_pixels.duration = GST_CLOCK_TIME_NONE ∧
      run_from [] src_pixels calls_pixels
        = .ok (buffers_pixels, src_pixels_after_calls, [1]) ∧
      (gst_imagesequencesrc_query (fun _ => false) src_pixels_after_calls
          (.GST_QUERY_DURATION .GST_FORMAT_TIME)
        = (true, some (if src_pixels_after_calls.loop = true ∨
            src_pixels_after_calls.filenames = [] then -1
            else to_gint64 src_pixels_after_calls.duration)) ∧
        gst_imagesequencesrc_init.duration = GST_CLOCK_TIME_NONE ∧
        to_gint64 GST_CLOCK_TIME_NONE = -1 ∧
        (src_pixels_after_calls.duration < 9223372036854775808 →
          to_gint64 src_pixels_after_calls.duration
            = (src_pixels_after_calls.duration : Int)) ∧
        (buffers_pixels = [] → src_pixels_after_calls.duration = GST_CLOCK_TIME_NONE) ∧
        (buffers_pixels ≠ [] → src_pixels_after_calls.duration
          = (gst_imagesequencesrc_set_duration src_pixels).duration)) ∧
      gst_imagesequencesrc_query (fun _ => false) src_pixels_after_calls
          (.GST_QUERY_DURATION .GST_FORMAT_TIME) = (true, some 125000000) ∧
      gst_imagesequencesrc_query (fun _ => false) src_pixels
          (.GST_QUERY_DURATION .GST_FORMAT_TIME) = (true, some (-1)) ∧
      gst_imagesequencesrc_query (fun _ => false) src_pixels_loop_after_calls
          (.GST_QUERY_DURATION .GST_FORMAT_TIME) = (true, some (-1)) ∧
      gst_imagesequencesrc_query (fun _ => false) gst_imagesequencesrc_init
          (.GST_QUERY_DURATION .GST_FORMAT_TIME) = (true, some (-1)) ∧
      run_from [] src_pixels calls_unreadable = .ok ([], src_pixels, [0]) :=
  ⟨by decide, by decide, by decide, by decide, by rfl,
    query_duration (fun _ => false) src_pixels_after_calls src_pixels src_pixels_after_calls
      calls_pixels buffers_pixels [] [1] (by decide) (by decide) (by decide) (by decide)
      (by rfl),
    by decide, by decide, by decide, by decide, by rfl⟩

/-! ## C22: the list of file names read back -/

/-- The loop of `PROP_FILENAMES` copies the strings in order; after a round the
block has as many elements as the counter says. -/
theorem get_property_filenames_loop_eq (L : List String) :
    ∀ (size allocated : Nat) (filenames : List String),
      get_property_filenames_loop L (size, allocated, filenames)
        = (size + L.length, (if L = [] then allocated else size + L.length),
            filenames ++ L) := by
  induction L with
  | nil =>
    intro size allocated filenames
    simp [get_property_filenames_loop]
  | cons l next ih =>
    intro size allocated filenames
    rw [get_property_filenames_loop, ih]
    by_cases hn : next = []
    · subst hn
      simp
    · simp only [hn, if_false, List.length_cons, List.append_assoc, List.singleton_append,
        reduceCtorEq]
      refine Prod.ext ?_ (Prod.ext ?_ rfl)
      · dsimp only
        omega
      · dsimp only
        omega

/-- C22.  After the property `filenames-list` is set to `L`, the list of the
element is `L`, and the loop of `gst_imagesequencesrc_get_property` copies the
strings of `L` in order into a block of `L.length` elements; for a list that is
not empty the terminator is then stored at position `L.length`, past the end of
the block, and the call does not return the array. -/
theorem get_property_filenames_writes_past_block (env : Env) (src s : GstImageSequenceSrc)
    (L : List String) (hL : L ≠ [])
    (hset : gst_imagesequencesrc_set_property env src (.PROP_FILENAMES L) = .ok s) :
    s.filenames = L ∧
      get_property_filenames_loop s.filenames (0, 1, []) = (L.length, L.length, L) ∧
      gst_imagesequencesrc_get_property s .PROP_FILENAMES = .error .out_of_bounds_write := by
  rw [set_property_filenames_eq] at hset
  have hs : s = with_filenames src L := (Except.ok.inj hset).symm
  have hf : s.filenames = L := by rw [hs]; rfl
  have hloop : get_property_filenames_loop s.filenames (0, 1, []) = (L.length, L.length, L) := by
    rw [hf, get_property_filenames_loop_eq, if_neg hL]
    simp
  refine ⟨hf, hloop, ?_⟩
  unfold gst_imagesequencesrc_get_property
  dsimp only
  rw [hloop]
  simp

theorem get_property_filenames_writes_past_block_witness :
    ["pixel1.jpg", "pixel2.jpg", "pixel3.jpg"] ≠ [] ∧
      gst_imagesequencesrc_set_property env_pixels gst_imagesequencesrc_init
        (.PROP_FILENAMES ["pixel1.jpg", "pixel2.jpg", "pixel3.jpg"]) = .ok src_names_set ∧
      (src_names_set.filenames = ["pixel1.jpg", "pixel2.jpg", "pixel3.jpg"] ∧
        get_property_filenames_loop src_names_set.filenames (0, 1, [])
          = (["pixel1.jpg", "pixel2.jpg", "pixel3.jpg"].length,
              ["pixel1.jpg", "pixel2.jpg", "pixel3.jpg"].length,
              ["pixel1.jpg", "pixel2.jpg", "pixel3.jpg"]) ∧
        gst_imagesequencesrc_get_property src_names_set .PROP_FILENAMES
          = .error .out_of_bounds_write) :=
  ⟨by decide, by rfl,
    get_property_filenames_writes_past_block env_pixels gst_imagesequencesrc_init
      src_names_set ["pixel1.jpg", "pixel2.jpg", "pixel3.jpg"] (by decide) (by rfl)⟩

/-! ## C23: cleaning of the playlist text -/

/-- What follows the first newline is shorter than the text. -/
theorem after_newline_length (cs rest : List Char) (h : after_newline cs = some rest) :
    rest.length < cs.length := by
  induction cs with
  | nil => simp [after_newline] at h
  | cons c cs ih =>
    rw [after_newline] at h
    split_ifs at h with hc hn
    · cases h
      simp
    · have := ih h
      simp only [List.length_cons]
      omega

/-- The text after a stretch without line end and its line feed. -/
theorem after_newline_append (c rest : List Char) (hc : ∀ x ∈ c, is_newline x = false) :
    after_newline (c ++ '\n' :: rest) = some rest := by
  induction c with
  | nil => simp [after_newline]
  | cons x c ih =>
    have hx1 : is_newline x = false := hc x (by simp)
    have hx : x ≠ '\n' := by
      intro h
      rw [h] at hx1
      exact absurd hx1 (by decide)
    have hc2 : ∀ y ∈ c, is_newline y = false := fun y hy => hc y (List.mem_cons_of_mem _ hy)
    rw [List.cons_append, after_newline, if_neg hx, if_neg (by simp [hx1])]
    exact ih hc2

/-- The cleaning does not depend on the bound of its steps once the bound
reaches the length of the text. -/
theorem clean_action_str_fuel (fuel : Nat) :
    ∀ (fuel2 : Nat) (s : List Char), s.length ≤ fuel → s.length ≤ fuel2 →
      clean_action_str fuel s = clean_action_str fuel2 s := by
  induction fuel with
  | zero =>
    intro fuel2 s h1 _
    have hs : s = [] := List.eq_nil_of_length_eq_zero (by omega)
    subst hs
    cases fuel2 <;> rfl
  | succ f ih =>
    intro fuel2 s h1 h2
    cases s with
    | nil => cases fuel2 <;> rfl
    | cons c cs =>
      cases fuel2 with
      | zero => simp at h2
      | succ f2 =>
        simp only [List.length_cons] at h1 h2
        rw [clean_action_str, clean_action_str]
        have htail : cs.tail.length ≤ cs.length := by simp
        split_ifs with hb hh
        · exact ih f2 cs.tail (by omega) (by omega)
        · cases hnl : after_newline cs with
          | none =>
            dsimp only
            rw [ih f2 cs (by omega) (by omega)]
          | some rest =>
            dsimp only
            have := after_newline_length cs rest hnl
            exact ih f2 rest (by omega) (by omega)
        · rw [ih f2 cs (by omega) (by omega)]

/-- The cleaning of a text in which a `#` follows a stretch `p` without `#` and
without line feed, and the rest `c` of the line has no line end before its line
feed: `p` is kept, and the text from the `#` through the line feed is removed. -/
theorem clean_action_str_hash (p : List Char) :
    ∀ (fuel : Nat) (c rest : List Char), '#' ∉ p → '\n' ∉ p →
      (∀ x ∈ c, is_newline x = false) → p.length + 1 ≤ fuel →
      clean_action_str fuel (p ++ '#' :: (c ++ '\n' :: rest))
        = p ++ clean_action_str (fuel - p.length - 1) rest := by
  induction p with
  | nil =>
    intro fuel c rest _ _ hc hfuel
    cases fuel with
    | zero => simp at hfuel
    | succ f =>
      rw [List.nil_append, clean_action_str]
      rw [if_neg (by simp), if_pos rfl, after_newline_append c rest hc]
      simp
  | cons x p ih =>
    intro fuel c rest hp1 hp2 hc hfuel
    have hx1 : x ≠ '#' := fun h => hp1 (by simp [h])
    have hx2 : x ≠ '\n' := fun h => hp2 (by simp [h])
    have hq1 : '#' ∉ p := fun h => hp1 (List.mem_cons_of_mem _ h)
    have hq2 : '\n' ∉ p := fun h => hp2 (List.mem_cons_of_mem _ h)
    cases fuel with
    | zero => simp at hfuel
    | succ f =>
      simp only [List.length_cons] at hfuel
      rw [List.cons_append, clean_action_str]
      have hhead : (p ++ '#' :: (c ++ '\n' :: rest)).head? ≠ some '\n' := by
        cases p with
        | nil => simp
        | cons y p =>
          have hy : y ≠ '\n' := fun h => hq2 (by simp [h])
          simpa using hy
      rw [if_neg (fun h => hhead h.2), if_neg hx1, ih f c rest hq1 hq2 hc (by omega)]
      have hf : f + 1 - (x :: p).length - 1 = f - p.length - 1 := by
        simp only [List.length_cons]
        omega
      rw [hf, List.cons_append]

/-- C23.  When the text of a playlist has a `#` after a stretch `p` of a line
(`p` without `#` and line feed; `p` not empty puts the `#` after the first
column) and the rest `c` of the line runs to its line feed without another line
end, `_file_get_lines` removes the text from the `#` through the line feed: the
lines returned are those of `p` joined with the cleaned rest of the text, so the
line is cut at the `#` and runs into the line after it. -/
theorem file_get_lines_strips_from_hash (env : Env) (file content : String)
    (p c rest : List Char)
    (hload : env.g_file_load_contents file = some content)
    (hcontent : content.toList = p ++ '#' :: (c ++ '\n' :: rest))
    (hp1 : '#' ∉ p) (hp2 : '\n' ∉ p) (hc : ∀ x ∈ c, is_newline x = false) :
    _file_get_lines env file
      = some (g_strsplit (p ++ clean_action_str rest.length rest)) := by
  have hne : content ≠ "" := by
    intro h
    rw [h] at hcontent
    simp at hcontent
  unfold _file_get_lines
  rw [hload]
  dsimp only
  rw [if_neg hne, hcontent]
  have hlen : (p ++ '#' :: (c ++ '\n' :: rest)).length
      = p.length + 1 + (c.length + 1 + rest.length) := by
    simp only [List.length_append, List.length_cons]
    omega
  rw [clean_action_str_hash p _ c rest hp1 hp2 hc (by rw [hlen]; omega)]
  rw [clean_action_str_fuel _ rest.length rest (by rw [hlen]; omega) (le_refl _)]

theorem file_get_lines_strips_from_hash_witness :
    env_hash_playlist.g_file_load_contents "hash.playlist"
        = some "image,location=/tmp/a#1.png\nimage,location=/tmp/b.png\n" ∧
      "image,location=/tmp/a#1.png\nimage,location=/tmp/b.png\n".toList
        = "image,location=/tmp/a".toList
          ++ '#' :: ("1.png".toList ++ '\n' :: "image,location=/tmp/b.png\n".toList) ∧
      '#' ∉ "image,location=/tmp/a".toList ∧ '\n' ∉ "image,location=/tmp/a".toList ∧
      (∀ x ∈ "1.png".toList, is_newline x = false) ∧
      _file_get_lines env_hash_playlist "hash.playlist"
        = some (g_strsplit ("image,location=/tmp/a".toList
            ++ clean_action_str "image,location=/tmp/b.png\n".toList.length
                "image,location=/tmp/b.png\n".toList)) ∧
      g_strsplit ("image,location=/tmp/a".toList
            ++ clean_action_str "image,location=/tmp/b.png\n".toList.length
                "image,location=/tmp/b.png\n".toList)
        = ["image,location=/tmp/aimage,location=/tmp/b.png".toList, []] ∧
      "image,location=/tmp/a#1.png".toList ∉
        ["image,location=/tmp/aimage,location=/tmp/b.png".toList, []] ∧
      "image,location=/tmp/b.png".toList ∉
        ["image,location=/tmp/aimage,location=/tmp/b.png".toList, []] :=
  ⟨by rfl, by decide, by decide, by decide, by decide,
    file_get_lines_strips_from_hash env_hash_playlist "hash.playlist"
      "image,location=/tmp/a#1.png\nimage,location=/tmp/b.png\n"
      "image,location=/tmp/a".toList "1.png".toList "image,location=/tmp/b.png\n".toList
      (by rfl) (by decide) (by decide) (by decide) (by decide),
    by decide, by decide, by decide⟩

/-- A `#` whose line ends with CR LF is not removed: `.` stops at the carriage
return, where the expression needs a line feed. -/
theorem clean_action_str_keeps_hash_before_cr :
    clean_action_str "a#b\r\nc\n".toList.length "a#b\r\nc\n".toList = "a#b\r\nc\n".toList := by
  decide

/-! ## C24: the range of the cursor -/

/-- One `create` call keeps the window, and keeps the cursor between
`start_index` and `stop_index + 1` when the window is validated. -/
theorem create_cursor_in_range (env : Env) (s0 s1 : GstImageSequenceSrc) (fr : GstFlowReturn)
    (b : Option GstBuffer) (hv : validated s0)
    (hlo : s0.start_index ≤ s0.index) (hhi : s0.index ≤ s0.stop_index + 1)
    (h : gst_imagesequencesrc_create env s0 = .ok (fr, b, s1)) :
    validated s1 ∧ s1.filenames = s0.filenames ∧ s1.start_index = s0.start_index ∧
      s1.stop_index = s0.stop_index ∧ s1.start_index ≤ s1.index ∧
      s1.index ≤ s1.stop_index + 1 := by
  obtain ⟨hf, ha, hb0, -, -, -, herr, heos⟩ := create_frame env s0 s1 fr b h
  have hv1 : validated s1 := by
    unfold validated at hv ⊢
    rw [hf, ha, hb0]
    exact hv
  obtain ⟨_, _, hle, _⟩ := hv
  refine ⟨hv1, hf, ha, hb0, ?_⟩
  rw [ha, hb0]
  cases fr with
  | GST_FLOW_OK =>
    obtain ⟨_, _, buf, hbuf, _, _⟩ := create_ok_data env s0 s1 b h
    subst hbuf
    obtain ⟨-, -, hi, -⟩ := create_ok_stamp env s0 s1 buf h
    rw [hi]
    split_ifs <;> constructor <;> omega
  | GST_FLOW_EOS =>
    obtain ⟨_, _, hi, hgt, _⟩ := heos rfl
    rw [hi]
    constructor <;> omega
  | GST_FLOW_ERROR =>
    obtain ⟨_, _, hi⟩ := herr rfl
    rw [hi]
    split_ifs <;> constructor <;> omega

/-- The cursor stays between `start_index` and `stop_index + 1` along every
sequence of `create` and `do_seek` calls made from a validated window. -/
theorem cursor_in_range (cs : List Call) :
    ∀ (released released' : List Nat) (s0 s : GstImageSequenceSrc) (bs : List GstBuffer),
      validated s0 → s0.start_index ≤ s0.index → s0.index ≤ s0.stop_index + 1 →
      run_from released s0 cs = .ok (bs, s, released') →
      validated s ∧ s.filenames = s0.filenames ∧ s.start_index = s0.start_index ∧
        s.stop_index = s0.stop_index ∧ s.start_index ≤ s.index ∧
        s.index ≤ s.stop_index + 1 := by
  induction cs with
  | nil =>
    intro released released' s0 s bs hv hlo hhi h
    simp only [run_from, Except.ok.injEq, Prod.mk.injEq] at h
    obtain ⟨-, rfl, -⟩ := h
    exact ⟨hv, rfl, rfl, rfl, hlo, hhi⟩
  | cons c cs ih =>
    intro released released' s0 s bs hv hlo hhi h
    cases c with
    | do_seek =>
      simp only [run_from] at h
      have hle : s0.start_index ≤ s0.stop_index := hv.2.2.1
      exact ih released released' (do_seek s0).1 s bs hv (le_refl _) (by
        change s0.start_index ≤ s0.stop_index + 1
        omega) h
    | create env =>
      simp only [run_from] at h
      split at h
      · simp at h
      · split at h
        · simp at h
        · rename_i r hr
          obtain ⟨fr, b, s1⟩ := r
          dsimp only at h
          split at h
          · simp at h
          · rename_i q hq
            obtain ⟨bs1, s2, rel2⟩ := q
            simp only [Except.ok.injEq, Prod.mk.injEq] at h
            obtain ⟨-, hs, -⟩ := h
            subst hs
            obtain ⟨hv1, hf, ha, hb0, hlo1, hhi1⟩ :=
              create_cursor_in_range env s0 s1 fr b hv hlo hhi hr
            obtain ⟨k1, k2, k3, k4, k5, k6⟩ := ih _ _ s1 s2 bs1 hv1 hlo1 hhi1 hq
            exact ⟨k1, k2.trans hf, k3.trans ha, k4.trans hb0, k5, k6⟩

/-- C24 (evaluation at the failing input).  On the window `0..1` of the three
images the first three calls emit the two units of the window and return
`GST_FLOW_EOS` with the cursor back at 1 and the iterator on the third node.  The
next call returns `GST_FLOW_OK` with the bytes of `filenames[2]` and leaves the
cursor at 2: the cursor is within `start_index .. stop_index + 1`, but it is not
one greater than the position of a unit with the bytes emitted. -/
theorem create_after_eos_cursor_behind_unit :
    validated src_pixels_stop1 ∧ src_pixels_stop1.index = src_pixels_stop1.start_index ∧
      (run src_pixels_stop1 [.create env_pixels, .create env_pixels, .create env_pixels]).map
          (fun p => (p.1.map (fun b => b.data), p.2))
        = .ok ([[255, 216, 1], [255, 216, 2]], src_pixels_stop1_after_eos) ∧
      gst_imagesequencesrc_create env_pixels src_pixels_stop1_after_eos
        = .ok (.GST_FLOW_OK,
            some { data := [255, 216, 3], pts := 41666666, dts := 41666666,
                   offset := 6, offset_end := 9 },
            src_pixels_stop1_after_extra) ∧
      src_pixels_stop1.filenames[2]? = some "pixel3.jpg" ∧
      env_pixels.g_file_get_contents "pixel3.jpg" = some [255, 216, 3] ∧
      src_pixels_stop1_after_extra.index = 2 ∧
      src_pixels_stop1_after_extra.stop_index + 1 = 2 ∧
      ∀ (p : Nat) (f : String), src_pixels_stop1.filenames[p]? = some f →
        env_pixels.g_file_get_contents f = some [255, 216, 3] →
        src_pixels_stop1_after_extra.index ≠ (p : Int) + 1 := by
  refine ⟨by decide, by decide, by rfl, by rfl, by decide, by decide, by decide, by decide, ?_⟩
  intro p f hp hr hidx
  have hp1 : p = 1 := by
    have h2 : src_pixels_stop1_after_extra.index = 2 := by decide
    rw [h2] at hidx
    omega
  subst hp1
  have hf : f = "pixel2.jpg" := by
    have h1 : src_pixels_stop1.filenames[1]? = some "pixel2.jpg" := by decide
    rw [h1] at hp
    exact (Option.some.inj hp).symm
  subst hf
  revert hr
  decide

/-! ## C25: the frames and the total duration -/

/-- Truncation of a product: `N * (A / n) <= N * A / n < N * (A / n) + N`. -/
theorem mul_div_window (N A n : Nat) (hN : 0 < N) (hn : 0 < n) :
    N * (A / n) ≤ N * A / n ∧ N * A / n < N * (A / n) + N := by
  refine ⟨Nat.mul_div_le_mul_div_assoc N A n, ?_⟩
  rw [Nat.div_lt_iff_lt_mul hn]
  have hA : n * (A / n) + A % n = A := Nat.div_add_mod A n
  have hr : A % n < n := Nat.mod_lt A hn
  have h1 : A < n * (A / n) + n := by omega
  have h2 : N * A < N * (n * (A / n) + n) := Nat.mul_lt_mul_of_pos_left h1 hN
  have h3 : N * (n * (A / n) + n) = (N * (A / n) + N) * n := by ring
  omega

/-- C25 (amended).  For a window `start_index <= stop_index` with
`N = stop_index - start_index + 1` at most `G_MAXINT` units and a rate of positive
`gint` components, let `d` be the frame duration computed in
`gst_imagesequencesrc_create` and `D` the duration stored by
`gst_imagesequencesrc_set_duration`.  Whenever `N * 10^9 * fps_d / fps_n` fits in
64 bits (it does for every rate of at least 1/1), `N * d <= D < N * d + N`; the
time stamp of the last frame of the window plus `d` is `N * d`, so it is at most
`D` and short of it by fewer than `N`. -/
theorem frames_within_duration (src : GstImageSequenceSrc)
    (hab : src.start_index ≤ src.stop_index)
    (hwin : src.stop_index - src.start_index < G_MAXINT)
    (hn0 : 0 < src.fps_n) (hn1 : src.fps_n ≤ G_MAXINT)
    (hd0 : 0 < src.fps_d) (hd1 : src.fps_d ≤ G_MAXINT)
    (hfit : (src.stop_index - src.start_index + 1).toNat * 1000000000 * src.fps_d.toNat
      / src.fps_n.toNat ≤ G_MAXUINT64) :
    (src.stop_index - src.start_index + 1).toNat
        * gst_util_uint64_scale (to_guint64 GST_SECOND) (to_guint64 src.fps_d)
            (to_guint64 src.fps_n)
        ≤ (gst_imagesequencesrc_set_duration src).duration ∧
      (gst_imagesequencesrc_set_duration src).duration
        < (src.stop_index - src.start_index + 1).toNat
            * gst_util_uint64_scale (to_guint64 GST_SECOND) (to_guint64 src.fps_d)
                (to_guint64 src.fps_n)
          + (src.stop_index - src.start_index + 1).toNat ∧
      (to_guint64 (src.stop_index - src.start_index)
            * gst_util_uint64_scale (to_guint64 GST_SECOND) (to_guint64 src.fps_d)
                (to_guint64 src.fps_n)) % 18446744073709551616
          + gst_util_uint64_scale (to_guint64 GST_SECOND) (to_guint64 src.fps_d)
              (to_guint64 src.fps_n)
        = (src.stop_index - src.start_index + 1).toNat
            * gst_util_uint64_scale (to_guint64 GST_SECOND) (to_guint64 src.fps_d)
                (to_guint64 src.fps_n) := by
  have hD := set_duration_value src hab hwin hn0 hn1 hd0 hd1 hfit
  have hG : G_MAXINT = 2147483647 := rfl
  have hU : G_MAXUINT64 = 18446744073709551615 := rfl
  rw [hG] at hn1 hd1 hwin
  rw [hU] at hfit
  have hd := buffer_duration_eq src.fps_n src.fps_d (by omega) (by rw [hG]; omega)
    (by omega) (by rw [hG]; omega)
  rw [hd, hD]
  have hN : 0 < (src.stop_index - src.start_index + 1).toNat := by omega
  have hn : 0 < src.fps_n.toNat := by omega
  obtain ⟨w1, w2⟩ := mul_div_window (src.stop_index - src.start_index + 1).toNat
    (1000000000 * src.fps_d.toNat) src.fps_n.toNat hN hn
  rw [← Nat.mul_assoc] at w1 w2
  refine ⟨w1, w2, ?_⟩
  have e4 : to_guint64 (src.stop_index - src.start_index)
      = (src.stop_index - src.start_index + 1).toNat - 1 := by
    rw [to_guint64_of_nonneg _ (by omega) (by omega)]
    omega
  rw [e4]
  generalize (src.stop_index - src.start_index + 1).toNat = N at hN w1 hfit ⊢
  generalize 1000000000 * src.fps_d.toNat / src.fps_n.toNat = d at w1 ⊢
  obtain ⟨M, rfl⟩ : ∃ M, N = M + 1 := ⟨N - 1, by omega⟩
  simp only [Nat.add_sub_cancel]
  have h5 : M * d ≤ (M + 1) * d := Nat.mul_le_mul_right d (by omega)
  have h6 : (M + 1) * d = M * d + d := by ring
  rw [Nat.mod_eq_of_lt (by omega), h6]

theorem frames_within_duration_witness :
    (src_pixels.stop_index - src_pixels.start_index + 1).toNat
        * gst_util_uint64_scale (to_guint64 GST_SECOND) (to_guint64 src_pixels.fps_d)
            (to_guint64 src_pixels.fps_n)
        ≤ (gst_imagesequencesrc_set_duration src_pixels).duration ∧
      (gst_imagesequencesrc_set_duration src_pixels).duration
        < (src_pixels.stop_index - src_pixels.start_index + 1).toNat
            * gst_util_uint64_scale (to_guint64 GST_SECOND) (to_guint64 src_pixels.fps_d)
                (to_guint64 src_pixels.fps_n)
          + (src_pixels.stop_index - src_pixels.start_index + 1).toNat ∧
      (to_guint64 (src_pixels.stop_index - src_pixels.start_index)
            * gst_util_uint64_scale (to_guint64 GST_SECOND) (to_guint64 src_pixels.fps_d)
                (to_guint64 src_pixels.fps_n)) % 18446744073709551616
          + gst_util_uint64_scale (to_guint64 GST_SECOND) (to_guint64 src_pixels.fps_d)
              (to_guint64 src_pixels.fps_n)
        = (src_pixels.stop_index - src_pixels.start_index + 1).toNat
            * gst_util_uint64_scale (to_guint64 GST_SECOND) (to_guint64 src_pixels.fps_d)
                (to_guint64 src_pixels.fps_n) :=
  frames_within_duration src_pixels (by decide) (by decide) (by decide) (by decide)
    (by decide) (by decide) (by decide)

/-- C25 (as stated, refuted): the window `0..G_MAXINT` at the rate 1/1, both in
the range of their properties.  `N = 2^31` and `d = 10^9`; the `int` expression
`stop_index - start_index + 1` leaves the range of `gint`, and with its two's
complement value the duration stored is `D = 2^64 - 2^31 * 10^9`, which is not
below `N * d + N`. -/
theorem frames_short_of_wrapped_duration :
    0 < src_window_maxint.fps_n ∧ 0 < src_window_maxint.fps_d ∧
      src_window_maxint.fps_d ≤ src_window_maxint.fps_n ∧
      src_window_maxint.start_index = 0 ∧ src_window_maxint.stop_index = G_MAXINT ∧
      (src_window_maxint.stop_index - src_window_maxint.start_index + 1).toNat
        = 2147483648 ∧
      gst_util_uint64_scale (to_guint64 GST_SECOND) (to_guint64 src_window_maxint.fps_d)
          (to_guint64 src_window_maxint.fps_n) = 1000000000 ∧
      (gst_imagesequencesrc_set_duration src_window_maxint).duration
        = 16299260425709551616 ∧
      (gst_imagesequencesrc_create env_pixels src_window_maxint).map
          (fun r => (r.1, r.2.2.duration))
        = .ok (.GST_FLOW_OK, 16299260425709551616) ∧
      ¬ ((gst_imagesequencesrc_set_duration src_window_maxint).duration
          < (src_window_maxint.stop_index - src_window_maxint.start_index + 1).toNat
              * gst_util_uint64_scale (to_guint64 GST_SECOND)
                  (to_guint64 src_window_maxint.fps_d) (to_guint64 src_window_maxint.fps_n)
            + (src_window_maxint.stop_index - src_window_maxint.start_index + 1).toNat) := by
  refine ⟨by decide, by decide, by decide, by decide, by decide, by decide, by decide,
    by decide, by decide, by decide⟩

end ImageSequenceSrc
